import Mathlib

/-!
# The bus driver (`bus/driver.c`)

A shallow embedding of the message-bus driver: the handlers of the control
interface `org.freedesktop.DBus`, the dispatch table and the dispatcher.

The C functions become functions on an explicit `BusState`.  The state holds
what the driver reaches through its pointers (registry, connections,
matchmaker, activation, the transaction's queue), the two static counters of
`create_unique_client_name`, the `DBusError` slot the caller passes in, and a
script that decides which of the fallible library calls fail.  A failed
`_dbus_assert` ends the run with `Outcome.assertion_failed`.
-/

namespace BusDriver

/-! ## Protocol constants (`dbus-protocol.h`, `dbus-shared.h`) -/

/-- Modelled from the spec: the bus's own well-known name (`DBUS_SERVICE_DBUS`,
declared in `dbus-shared.h`). -/
def DBUS_SERVICE_DBUS : String := "org.freedesktop.DBus"

/-- Modelled from the spec: the control interface (`DBUS_INTERFACE_DBUS`,
declared in `dbus-shared.h`). -/
def DBUS_INTERFACE_DBUS : String := "org.freedesktop.DBus"

/-- Modelled from the spec: the standard introspection interface
(`DBUS_INTERFACE_INTROSPECTABLE`, declared in `dbus-shared.h`). -/
def DBUS_INTERFACE_INTROSPECTABLE : String := "org.freedesktop.DBus.Introspectable"

/-- Modelled from the spec: message type code of a method call
(`dbus-protocol.h`). -/
def DBUS_MESSAGE_TYPE_METHOD_CALL : Nat := 1

/-- Modelled from the spec: message type code of a method return
(`dbus-protocol.h`). -/
def DBUS_MESSAGE_TYPE_METHOD_RETURN : Nat := 2

/-- Modelled from the spec: message type code of a signal (`dbus-protocol.h`). -/
def DBUS_MESSAGE_TYPE_SIGNAL : Nat := 4

/-- Modelled from the spec: the object path of the bus itself (`DBUS_PATH_DBUS`,
declared in `dbus-shared.h`). -/
def DBUS_PATH_DBUS : String := "/org/freedesktop/DBus"

/-- Modelled from the spec: generic-failure error kind (`dbus-protocol.h`). -/
def DBUS_ERROR_FAILED : String := "org.freedesktop.DBus.Error.Failed"

/-- Modelled from the spec: resource-exhaustion error kind (`dbus-protocol.h`). -/
def DBUS_ERROR_NO_MEMORY : String := "org.freedesktop.DBus.Error.NoMemory"

/-- Modelled from the spec: name-has-no-owner error kind (`dbus-protocol.h`). -/
def DBUS_ERROR_NAME_HAS_NO_OWNER : String := "org.freedesktop.DBus.Error.NameHasNoOwner"

/-- Modelled from the spec: limits-exceeded error kind (`dbus-protocol.h`). -/
def DBUS_ERROR_LIMITS_EXCEEDED : String := "org.freedesktop.DBus.Error.LimitsExceeded"

/-- Modelled from the spec: invalid-arguments error kind (`dbus-protocol.h`). -/
def DBUS_ERROR_INVALID_ARGS : String := "org.freedesktop.DBus.Error.InvalidArgs"

/-- Modelled from the spec: unknown-method error kind (`dbus-protocol.h`). -/
def DBUS_ERROR_UNKNOWN_METHOD : String := "org.freedesktop.DBus.Error.UnknownMethod"

/-- Modelled from the spec: the dedicated process-id-unknown error kind
(`dbus-protocol.h`). -/
def DBUS_ERROR_UNIX_PROCESS_ID_UNKNOWN : String :=
  "org.freedesktop.DBus.Error.UnixProcessIdUnknown"

/-- Modelled from the spec: the text `BUS_SET_OOM` stores (`bus/utils.c`). -/
def bus_no_memory_message : String := "Memory allocation failure in message bus"

/-! ## Data model -/

/-- A `DBusError` that is set: its kind and its text. -/
structure DBusError where
  name : String
  message : String
  deriving DecidableEq, Repr

/-- Message arguments; the types the driver reads or writes, and a signed
integer for calls that carry something else. -/
inductive DBusValue where
  | bool (v : Bool)
  | int32 (v : Int)
  | uint32 (v : Nat)
  | string (v : String)
  | string_array (v : List String)
  deriving DecidableEq, Repr

/-- The header fields and body of a `DBusMessage` the driver looks at. -/
structure DBusMessage where
  type : Nat
  serial : Nat
  reply_serial : Option Nat
  interface : Option String
  member : Option String
  sender : Option String
  destination : Option String
  body : List DBusValue
  deriving DecidableEq, Repr

/-- A registry entry (`BusService`); connections are referred to by number. -/
structure BusService where
  name : String
  primary_owner : Nat
  prohibit_replacement : Bool
  deriving DecidableEq, Repr

/-- What the bus keeps per connection (`BusConnectionData`). -/
structure BusConnectionData where
  connection : Nat
  name : Option String
  n_match_rules : Nat
  unix_user : Option Nat
  unix_process_id : Option Nat
  deriving DecidableEq, Repr

/-- A parsed match rule, bound to the connection that asked for it. -/
structure BusMatchRule where
  matches_go_to : Nat
  text : String
  deriving DecidableEq, Repr

/-- Calls the driver makes on its collaborators, in the order made. -/
inductive Call where
  | check_limits (connection : Nat)
  | connection_complete (connection : Nat) (name : String)
  | registry_ensure (name : String) (connection : Nat)
  | set_prohibit_replacement (name : String) (value : Bool)
  | registry_acquire (connection : Nat) (name : String) (flags : Nat)
  | registry_list
  | activation_activate (connection : Nat) (name : String)
  | match_rule_parse (connection : Nat) (text : String)
  | matchmaker_add (rule : BusMatchRule)
  | matchmaker_remove (rule : BusMatchRule)
  | matchmaker_remove_by_value (rule : BusMatchRule)
  | transaction_send (connection : Nat) (message : DBusMessage)
  | reload_config
  | dispatch_matches (message : DBusMessage)
  deriving DecidableEq, Repr

/-- Everything the driver reads or writes. `script` lists the outcomes of the
fallible library calls still to come (`none`: the call succeeds, `some e`: it
fails, with error `e` where the callee reports one); past its end every call
succeeds. -/
structure BusState where
  next_major_number : Int
  next_minor_number : Int
  registry : List BusService
  connections : List BusConnectionData
  matchmaker : List BusMatchRule
  activation : List (Nat × String)
  max_match_rules_per_connection : Int
  reloads : Nat
  transaction : List (Nat × DBusMessage)
  calls : List Call
  error : Option DBusError
  script : List (Option DBusError)
  deriving DecidableEq, Repr

/-- How a run of a driver function ends. -/
inductive Outcome (α : Type) where
  | returned (a : α)
  | assertion_failed
  | out_of_fuel
  deriving DecidableEq, Repr

/-! ## Library and collaborator operations -/

/-- Modelled from the spec: outcome of the next fallible library call, read
off the script (allocation failure is "reachable from any construction
step"): the error it fails with, or `none` when it succeeds. -/
def BusState.next_error (w : BusState) : Option DBusError := w.script.head?.join

/-- The state once a fallible call has used up its entry of the script. -/
@[simps]
def BusState.pop (w : BusState) : BusState := { w with script := w.script.tail }

/-- The state with the error slot set. -/
@[simps]
def BusState.set_error (w : BusState) (e : DBusError) : BusState := { w with error := some e }

/-- The state with one more message queued on the transaction. -/
@[simps]
def BusState.enqueue (w : BusState) (connection : Nat) (message : DBusMessage) : BusState :=
  { w with transaction := w.transaction ++ [(connection, message)] }

/-- The state with one message queued for each of the connections, in order. -/
@[simps]
def BusState.enqueue_all (w : BusState) (connections : List Nat) (message : DBusMessage) :
    BusState :=
  { w with transaction := w.transaction ++ connections.map (fun c => (c, message)) }

/-- The state with new data for one connection; the newest entry counts. -/
@[simps]
def BusState.put_connection (w : BusState) (d : BusConnectionData) : BusState :=
  { w with connections := d :: w.connections }

/-- The state with another registry. -/
@[simps]
def BusState.set_registry (w : BusState) (registry : List BusService) : BusState :=
  { w with registry := registry }

/-- The state with another list of pending activations. -/
@[simps]
def BusState.set_activation (w : BusState) (pending : List (Nat × String)) : BusState :=
  { w with activation := pending }

/-- The state with another count of configuration reloads. -/
@[simps]
def BusState.set_reloads (w : BusState) (n : Nat) : BusState := { w with reloads := n }

/-- The state with another set of match rules. -/
@[simps]
def BusState.set_matchmaker (w : BusState) (rules : List BusMatchRule) : BusState :=
  { w with matchmaker := rules }

/-- Modelled from the spec: a construction step that can only fail for lack of
memory; it reports success or failure and sets no error itself. -/
def BusState.alloc (w : BusState) : Bool × BusState := (w.next_error.isNone, w.pop)

/-- Modelled from the spec: `dbus_set_error` (libdbus): stores kind and text. -/
def dbus_set_error (w : BusState) (name message : String) : BusState :=
  w.set_error { name := name, message := message }

/-- Modelled from the spec: the `BUS_SET_OOM` macro (`bus/utils.h`): sets the
resource-exhaustion error. -/
def BUS_SET_OOM (w : BusState) : BusState :=
  dbus_set_error w DBUS_ERROR_NO_MEMORY bus_no_memory_message

/-- Modelled from the spec: a collaborator call that reports its own error on
failure. -/
def BusState.collaborator (w : BusState) : Bool × BusState :=
  match w.next_error with
  | none => (true, w.pop)
  | some e => (false, w.pop.set_error e)

/-- Records a collaborator call. -/
@[simps]
def BusState.record (w : BusState) (c : Call) : BusState :=
  { w with calls := w.calls ++ [c] }

/-- Modelled from the spec: the data of a connection ("Connection{name,
is-active, unix-credential queries, current match-rule count}"); a connection
the bus has no data for is unauthenticated and holds no rules. -/
def bus_connection_data (w : BusState) (connection : Nat) : BusConnectionData :=
  (w.connections.find? (fun d => d.connection == connection)).getD
    { connection := connection, name := none, n_match_rules := 0,
      unix_user := none, unix_process_id := none }

/-- Modelled from the spec: `bus_connection_get_name` (`bus/connection.c`),
`NULL` until the connection is active. -/
def bus_connection_get_name (w : BusState) (connection : Nat) : Option String :=
  (bus_connection_data w connection).name

/-- Modelled from the spec: `bus_connection_is_active` (`bus/connection.c`):
"active, owns exactly one unique name". -/
def bus_connection_is_active (w : BusState) (connection : Nat) : Bool :=
  (bus_connection_get_name w connection).isSome

/-- Modelled from the spec: `bus_connections_check_limits`
("check-limits(connection) → ok/err"); it changes nothing but the error. -/
def bus_connections_check_limits (w : BusState) (connection : Nat) : Bool × BusState :=
  (w.record (.check_limits connection)).collaborator

/-- Modelled from the spec: `bus_connection_complete` (`bus/connection.c`):
binds the unique name, which makes the connection active; on failure the
connection is as before. -/
def bus_connection_complete (w : BusState) (connection : Nat) (name : String) :
    Bool × BusState :=
  match (w.record (.connection_complete connection name)).collaborator with
  | (false, w1) => (false, w1)
  | (true, w1) =>
    (true, w1.put_connection { bus_connection_data w1 connection with name := some name })

/-- Modelled from the spec: `bus_registry_lookup` ("lookup(name) → optional
service"). -/
def bus_registry_lookup (w : BusState) (name : String) : Option BusService :=
  w.registry.find? (fun s => s.name == name)

/-- Modelled from the spec: `bus_service_set_prohibit_replacement`
(`bus/services.c`): sets the flag of the service. -/
def bus_service_set_prohibit_replacement (w : BusState) (service : BusService)
    (value : Bool) : BusState :=
  (w.record (.set_prohibit_replacement service.name value)).set_registry
    (w.registry.map (fun s =>
      if s.name = service.name then { s with prohibit_replacement := value } else s))

/-- Modelled from the spec: `dbus_message_set_sender` (libdbus); can fail for
lack of memory. -/
def dbus_message_set_sender (w : BusState) (message : DBusMessage) (sender : Option String) :
    Bool × DBusMessage × BusState :=
  match w.alloc with
  | (false, w1) => (false, message, w1)
  | (true, w1) => (true, { message with sender := sender }, w1)

/-- Modelled from the spec: `dbus_message_new_method_return` (libdbus): an
empty-bodied method return to the call, addressed to the call's sender; `none`
for lack of memory. -/
def dbus_message_new_method_return (w : BusState) (method_call : DBusMessage) :
    Option DBusMessage × BusState :=
  match w.alloc with
  | (false, w1) => (none, w1)
  | (true, w1) =>
    (some { type := DBUS_MESSAGE_TYPE_METHOD_RETURN, serial := 0,
            reply_serial := some method_call.serial, interface := none, member := none,
            sender := none, destination := method_call.sender, body := [] }, w1)

/-- Modelled from the spec: `dbus_message_append_args` (libdbus): appends the
values to the body; can fail for lack of memory. -/
def dbus_message_append_args (w : BusState) (message : DBusMessage) (args : List DBusValue) :
    Bool × DBusMessage × BusState :=
  match w.alloc with
  | (false, w1) => (false, message, w1)
  | (true, w1) => (true, { message with body := message.body ++ args }, w1)

/-- Modelled from the spec: `bus_transaction_send_from_driver`
("enqueue-send(connection, message) → ok/err"): queues the message for the
connection; nothing is queued on failure. -/
def bus_transaction_send_from_driver (w : BusState) (connection : Nat)
    (message : DBusMessage) : Bool × BusState :=
  match (w.record (.transaction_send connection message)).alloc with
  | (false, w1) => (false, w1)
  | (true, w1) => (true, w1.enqueue connection message)

/-- Modelled from the spec: type signature of one argument (libdbus type codes). -/
def DBusValue.signature : DBusValue → String
  | .bool _ => "b"
  | .int32 _ => "i"
  | .uint32 _ => "u"
  | .string _ => "s"
  | .string_array _ => "as"

/-- Modelled from the spec: `dbus_message_get_signature` (libdbus): the type
codes of the body, concatenated. -/
def dbus_message_get_signature (message : DBusMessage) : String :=
  String.join (message.body.map DBusValue.signature)

/-- Modelled from the spec: `dbus_message_has_signature` (libdbus): string
equality with the message's signature. -/
def dbus_message_has_signature (message : DBusMessage) (signature : String) : Bool :=
  dbus_message_get_signature message == signature

/-! ## Signals about names (`driver.c`, called by the registry) -/

/-- Modelled from the spec: `dbus_message_new_signal` (libdbus): an empty-bodied
signal of that interface and name; `none` for lack of memory. The object path
is not among the header fields the model keeps. -/
def dbus_message_new_signal (w : BusState) (_path interface name : String) :
    Option DBusMessage × BusState :=
  match w.alloc with
  | (false, w1) => (none, w1)
  | (true, w1) =>
    (some { type := DBUS_MESSAGE_TYPE_SIGNAL, serial := 0, reply_serial := none,
            interface := some interface, member := some name, sender := none,
            destination := none, body := [] }, w1)

/-- Modelled from the spec: `dbus_message_set_destination` (libdbus); can fail
for lack of memory. -/
def dbus_message_set_destination (w : BusState) (message : DBusMessage)
    (destination : Option String) : Bool × DBusMessage × BusState :=
  match w.alloc with
  | (false, w1) => (false, message, w1)
  | (true, w1) => (true, { message with destination := destination }, w1)

/-- Modelled from the spec: the connections `bus_dispatch_matches` sends a
broadcast of the driver to ("broadcast to matching subscribers"): those that
hold a match rule. Which messages a rule selects is the matchmaker's business;
rules are kept as text, and every rule counts as selecting the broadcast. -/
def matching_subscribers (w : BusState) (_message : DBusMessage) : List Nat :=
  (w.matchmaker.map (fun r => r.matches_go_to)).dedup

/-- Modelled from the spec: `bus_dispatch_matches` (`bus/dispatch.c`) for a
message without sender connection or addressed recipient: queues the message
on the transaction for every matching subscriber; on failure it sets its own
error and queues nothing. -/
def bus_dispatch_matches (w : BusState) (message : DBusMessage) : Bool × BusState :=
  match (w.record (.dispatch_matches message)).collaborator with
  | (false, w1) => (false, w1)
  | (true, w1) => (true, w1.enqueue_all (matching_subscribers w1 message) message)

/-- The function `bus_driver_send_service_owner_changed`; a missing owner is
written as the empty string. -/
def bus_driver_send_service_owner_changed (w : BusState) (service_name : String)
    (old_owner new_owner : Option String) : Outcome (Bool × BusState) :=
  if w.error.isSome then .assertion_failed
  else
    match dbus_message_new_signal w DBUS_PATH_DBUS DBUS_INTERFACE_DBUS "NameOwnerChanged" with
    | (none, w1) => .returned (false, BUS_SET_OOM w1)
    | (some message, w1) =>
      match dbus_message_set_sender w1 message (some DBUS_SERVICE_DBUS) with
      | (false, _, w2) => .returned (false, BUS_SET_OOM w2)
      | (true, message1, w2) =>
        match dbus_message_append_args w2 message1
            [.string service_name, .string (old_owner.getD ""),
             .string (new_owner.getD "")] with
        | (false, _, w3) => .returned (false, BUS_SET_OOM w3)
        | (true, message2, w3) =>
          if !dbus_message_has_signature message2 "sss" then .assertion_failed
          else .returned (bus_dispatch_matches w3 message2)

/-- The function `bus_driver_send_service_lost`. -/
def bus_driver_send_service_lost (w : BusState) (connection : Nat) (service_name : String) :
    Outcome (Bool × BusState) :=
  if w.error.isSome then .assertion_failed
  else
    match dbus_message_new_signal w DBUS_PATH_DBUS DBUS_INTERFACE_DBUS "NameLost" with
    | (none, w1) => .returned (false, BUS_SET_OOM w1)
    | (some message, w1) =>
      match dbus_message_set_destination w1 message
          (bus_connection_get_name w1 connection) with
      | (false, _, w2) => .returned (false, BUS_SET_OOM w2)
      | (true, message1, w2) =>
        match dbus_message_append_args w2 message1 [.string service_name] with
        | (false, _, w3) => .returned (false, BUS_SET_OOM w3)
        | (true, message2, w3) =>
          match bus_transaction_send_from_driver w3 connection message2 with
          | (false, w4) => .returned (false, BUS_SET_OOM w4)
          | (true, w4) => .returned (true, w4)

/-- The function `bus_driver_send_service_acquired`. -/
def bus_driver_send_service_acquired (w : BusState) (connection : Nat)
    (service_name : String) : Outcome (Bool × BusState) :=
  if w.error.isSome then .assertion_failed
  else
    match dbus_message_new_signal w DBUS_PATH_DBUS DBUS_INTERFACE_DBUS "NameAcquired" with
    | (none, w1) => .returned (false, BUS_SET_OOM w1)
    | (some message, w1) =>
      match dbus_message_set_destination w1 message
          (bus_connection_get_name w1 connection) with
      | (false, _, w2) => .returned (false, BUS_SET_OOM w2)
      | (true, message1, w2) =>
        match dbus_message_append_args w2 message1 [.string service_name] with
        | (false, _, w3) => .returned (false, BUS_SET_OOM w3)
        | (true, message2, w3) =>
          match bus_transaction_send_from_driver w3 connection message2 with
          | (false, w4) => .returned (false, BUS_SET_OOM w4)
          | (true, w4) => .returned (true, w4)

/-- Modelled from the spec: what the registry does, with the transaction it is
handed, when a connection gains a name nobody held: it announces the change
"via the same transactional send path", NameOwnerChanged(name, empty, new
owner) to the matching subscribers and NameAcquired(name) to the connection,
and then holds the service with that connection as primary owner. `false`
(with the error set, the registry as before) when a send fails. -/
def registry_add_service (w : BusState) (name : String) (connection : Nat) :
    Outcome (Bool × BusState) :=
  match bus_driver_send_service_owner_changed w name none
      (bus_connection_get_name w connection) with
  | .assertion_failed => .assertion_failed
  | .out_of_fuel => .out_of_fuel
  | .returned (false, w1) => .returned (false, w1)
  | .returned (true, w1) =>
    match bus_driver_send_service_acquired w1 connection name with
    | .assertion_failed => .assertion_failed
    | .out_of_fuel => .out_of_fuel
    | .returned (false, w2) => .returned (false, w2)
    | .returned (true, w2) =>
      .returned (true, w2.set_registry (w2.registry ++
        [{ name := name, primary_owner := connection, prohibit_replacement := false }]))

/-- Modelled from the spec: `bus_registry_ensure` ("ensure(name, connection) →
service"), called with the transaction: the service of that name, created by
`registry_add_service` when the registry has none; `none` (with the error set)
on failure. -/
def bus_registry_ensure (w : BusState) (name : String) (connection : Nat) :
    Outcome (Option BusService × BusState) :=
  match (w.record (.registry_ensure name connection)).collaborator with
  | (false, w1) => .returned (none, w1)
  | (true, w1) =>
    match bus_registry_lookup w1 name with
    | some s => .returned (some s, w1)
    | none =>
      match registry_add_service w1 name connection with
      | .assertion_failed => .assertion_failed
      | .out_of_fuel => .out_of_fuel
      | .returned (false, w2) => .returned (none, w2)
      | .returned (true, w2) =>
        .returned (some { name := name, primary_owner := connection,
                          prohibit_replacement := false }, w2)

/-! ## Unique names -/

/-- C `int` arithmetic: the value taken modulo 2^32 into the signed range. -/
def wrap_int (x : Int) : Int := (x + 2147483648) % 4294967296 - 2147483648

/-- Modelled from the spec: `_dbus_string_append` (libdbus); can fail for lack
of memory, leaving the string as it was. -/
def _dbus_string_append (w : BusState) (str : String) (s : String) :
    Bool × String × BusState :=
  match w.alloc with
  | (false, w1) => (false, str, w1)
  | (true, w1) => (true, str ++ s, w1)

/-- Decimal text of a C `int`, as `%d` prints it. -/
def int_to_string (v : Int) : String :=
  if v < 0 then "-" ++ Nat.repr (-v).toNat else Nat.repr v.toNat

/-- Modelled from the spec: `_dbus_string_append_int` (libdbus): appends the
decimal text of the value, no padding. -/
def _dbus_string_append_int (w : BusState) (str : String) (v : Int) :
    Bool × String × BusState :=
  _dbus_string_append w str (int_to_string v)

/-- The `while (TRUE)` loop of `create_unique_client_name`, run for at most
`fuel` attempts. `start` is the string as it was on entry: truncating `str`
back to `len` restores it. -/
def create_unique_client_name_loop (start : String) :
    Nat → BusState → Outcome (Bool × String × BusState)
  | 0, _ => .out_of_fuel
  | fuel + 1, w =>
    let w0 : BusState :=
      if w.next_minor_number ≤ 0 then
        { w with next_major_number := wrap_int (w.next_major_number + 1),
                 next_minor_number := 0 }
      else w
    if w.next_minor_number ≤ 0 ∧ w0.next_major_number ≤ 0 then .assertion_failed
    else if ¬ (w0.next_major_number > 0) then .assertion_failed
    else if ¬ (w0.next_minor_number ≥ 0) then .assertion_failed
    else
      match _dbus_string_append w0 start ":" with
      | (false, s1, w1) => .returned (false, s1, w1)
      | (true, s1, w1) =>
        match _dbus_string_append_int w1 s1 w1.next_major_number with
        | (false, s2, w2) => .returned (false, s2, w2)
        | (true, s2, w2) =>
          match _dbus_string_append w2 s2 "." with
          | (false, s3, w3) => .returned (false, s3, w3)
          | (true, s3, w3) =>
            match _dbus_string_append_int w3 s3 w3.next_minor_number with
            | (false, s4, w4) => .returned (false, s4, w4)
            | (true, s4, w4) =>
              let w5 : BusState :=
                { w4 with next_minor_number := wrap_int (w4.next_minor_number + 1) }
              if (bus_registry_lookup w5 s4).isNone then .returned (true, s4, w5)
              else create_unique_client_name_loop start fuel w5

/-- The function `create_unique_client_name`: appends a fresh `:MAJOR.MINOR` to
`str`. Every colliding attempt names a different registry entry, so one more
attempt than the registry has entries is enough. -/
def create_unique_client_name (w : BusState) (str : String) :
    Outcome (Bool × String × BusState) :=
  create_unique_client_name_loop str (w.registry.length + 1) w

/-! ## More library and collaborator operations -/

/-- Modelled from the spec: `_dbus_string_init` (libdbus); can fail for lack of
memory. -/
def _dbus_string_init (w : BusState) : Bool × BusState := w.alloc

/-- The check `_DBUS_ASSERT_ERROR_IS_SET (error)` on the way out of a failing
path, followed by `return FALSE`. -/
def return_failed (w : BusState) : Outcome (Bool × BusState) :=
  if w.error.isSome then .returned (false, w) else .assertion_failed

/-- Modelled from the spec: `dbus_message_get_args` (libdbus) asked for no
argument. -/
def dbus_message_get_args_none (w : BusState) (_message : DBusMessage) : Bool × BusState :=
  w.collaborator

/-- Modelled from the spec: `dbus_message_get_args` (libdbus) asked for one
string: the first argument when it is a string, an invalid-arguments error
otherwise. -/
def dbus_message_get_args_string (w : BusState) (message : DBusMessage) :
    Option String × BusState :=
  match w.collaborator with
  | (false, w1) => (none, w1)
  | (true, w1) =>
    match message.body with
    | .string s :: _ => (some s, w1)
    | _ => (none, dbus_set_error w1 DBUS_ERROR_INVALID_ARGS
              "Argument 0 is specified to be of type \"string\"")

/-- Modelled from the spec: `dbus_message_get_args` (libdbus) asked for a
string and a uint32. -/
def dbus_message_get_args_string_uint32 (w : BusState) (message : DBusMessage) :
    Option (String × Nat) × BusState :=
  match w.collaborator with
  | (false, w1) => (none, w1)
  | (true, w1) =>
    match message.body with
    | .string s :: .uint32 u :: _ => (some (s, u), w1)
    | .string _ :: _ => (none, dbus_set_error w1 DBUS_ERROR_INVALID_ARGS
              "Argument 1 is specified to be of type \"uint32\"")
    | _ => (none, dbus_set_error w1 DBUS_ERROR_INVALID_ARGS
              "Argument 0 is specified to be of type \"string\"")

/-- Modelled from the spec: `bus_registry_list_services` ("list() → ordered
names"); can fail for lack of memory. -/
def bus_registry_list_services (w : BusState) : Option (List String) × BusState :=
  match (w.record .registry_list).alloc with
  | (false, w1) => (none, w1)
  | (true, w1) => (some (w1.registry.map (fun s => s.name)), w1)

/-- Modelled from the spec: `dbus_message_iter_open_container` (libdbus) for an
array of strings: the array under construction, empty. -/
def dbus_message_iter_open_container (w : BusState) : Option (List String) × BusState :=
  match w.alloc with
  | (false, w1) => (none, w1)
  | (true, w1) => (some [], w1)

/-- Modelled from the spec: `dbus_message_iter_append_basic` (libdbus) on the
array under construction. -/
def dbus_message_iter_append_basic (w : BusState) (sub : List String) (v : String) :
    Option (List String) × BusState :=
  match w.alloc with
  | (false, w1) => (none, w1)
  | (true, w1) => (some (sub ++ [v]), w1)

/-- Modelled from the spec: `dbus_message_iter_close_container` (libdbus): the
finished array becomes the next argument of the message. -/
def dbus_message_iter_close_container (w : BusState) (message : DBusMessage)
    (sub : List String) : Option DBusMessage × BusState :=
  match w.alloc with
  | (false, w1) => (none, w1)
  | (true, w1) => (some { message with body := message.body ++ [.string_array sub] }, w1)

/-- Modelled from the spec: `bus_registry_acquire_service` ("acquire(name,
connection, flags) → outcome code"), called with the transaction. The
ownership policy is the registry's own; here a free name is taken (code 1, the
service created by `registry_add_service`), a name the caller owns is reported
as such (code 4) and any other name as taken (code 3). -/
def bus_registry_acquire_service (w : BusState) (connection : Nat) (name : String)
    (flags : Nat) : Outcome (Option Nat × BusState) :=
  match (w.record (.registry_acquire connection name flags)).collaborator with
  | (false, w1) => .returned (none, w1)
  | (true, w1) =>
    match bus_registry_lookup w1 name with
    | none =>
      match registry_add_service w1 name connection with
      | .assertion_failed => .assertion_failed
      | .out_of_fuel => .out_of_fuel
      | .returned (false, w2) => .returned (none, w2)
      | .returned (true, w2) => .returned (some 1, w2)
    | some s =>
      if s.primary_owner = connection then .returned (some 4, w1)
      else .returned (some 3, w1)

/-- Modelled from the spec: `bus_activation_activate_service`
("activate(connection, name) → ok/err"); the reply is the activation's own
business. -/
def bus_activation_activate_service (w : BusState) (connection : Nat) (name : String) :
    Bool × BusState :=
  match (w.record (.activation_activate connection name)).collaborator with
  | (false, w1) => (false, w1)
  | (true, w1) => (true, w1.set_activation (w1.activation ++ [(connection, name)]))

/-- Modelled from the spec: `bus_match_rule_parse`: the rule bound to the
requester, or `none` with the parser's error. -/
def bus_match_rule_parse (w : BusState) (connection : Nat) (text : String) :
    Option BusMatchRule × BusState :=
  match (w.record (.match_rule_parse connection text)).collaborator with
  | (false, w1) => (none, w1)
  | (true, w1) => (some { matches_go_to := connection, text := text }, w1)

/-- Modelled from the spec: `bus_connection_get_n_match_rules` ("current
match-rule count"). -/
def bus_connection_get_n_match_rules (w : BusState) (connection : Nat) : Int :=
  ((bus_connection_data w connection).n_match_rules : Int)

/-- Modelled from the spec: `bus_context_get_max_match_rules_per_connection`
(the externally configured maximum). -/
def bus_context_get_max_match_rules_per_connection (w : BusState) : Int :=
  w.max_match_rules_per_connection

/-- Removes the most recently added rule equal to `rule`. -/
def remove_last_rule (rules : List BusMatchRule) (rule : BusMatchRule) : List BusMatchRule :=
  (rules.reverse.erase rule).reverse

/-- Modelled from the spec: `bus_matchmaker_add_rule` ("add(rule) → ok/err"):
the rule joins the matchmaker and counts for its connection; failure is lack
of memory and changes nothing. -/
def bus_matchmaker_add_rule (w : BusState) (rule : BusMatchRule) : Bool × BusState :=
  match (w.record (.matchmaker_add rule)).alloc with
  | (false, w1) => (false, w1)
  | (true, w1) =>
    let d := bus_connection_data w1 rule.matches_go_to
    (true, (w1.set_matchmaker (w1.matchmaker ++ [rule])).put_connection
      { d with n_match_rules := d.n_match_rules + 1 })

/-- Modelled from the spec: `bus_matchmaker_remove_rule` ("remove(rule)"): takes
the rule out again; it cannot fail. -/
def bus_matchmaker_remove_rule (w : BusState) (rule : BusMatchRule) : BusState :=
  let w1 := w.record (.matchmaker_remove rule)
  let d := bus_connection_data w1 rule.matches_go_to
  (w1.set_matchmaker (remove_last_rule w1.matchmaker rule)).put_connection
    { d with n_match_rules := d.n_match_rules - 1 }

/-- Modelled from the spec: error kind of a rule that is not there
(`dbus-protocol.h`). -/
def DBUS_ERROR_MATCH_RULE_NOT_FOUND : String := "org.freedesktop.DBus.Error.MatchRuleNotFound"

/-- Modelled from the spec: `bus_matchmaker_remove_rule_by_value`
("remove-by-value(rule) → ok/err"): fails when the matchmaker holds no equal
rule, or for a reason of its own. -/
def bus_matchmaker_remove_rule_by_value (w : BusState) (rule : BusMatchRule) :
    Bool × BusState :=
  match (w.record (.matchmaker_remove_by_value rule)).collaborator with
  | (false, w1) => (false, w1)
  | (true, w1) =>
    if rule ∈ w1.matchmaker then
      let d := bus_connection_data w1 rule.matches_go_to
      (true, (w1.set_matchmaker (remove_last_rule w1.matchmaker rule)).put_connection
        { d with n_match_rules := d.n_match_rules - 1 })
    else
      (false, dbus_set_error w1 DBUS_ERROR_MATCH_RULE_NOT_FOUND
        "The given match rule wasn't found and can't be removed")

/-- Modelled from the spec: `dbus_connection_get_unix_user` (libdbus): the UID
when known. -/
def dbus_connection_get_unix_user (w : BusState) (conn : Nat) : Option Nat :=
  (bus_connection_data w conn).unix_user

/-- Modelled from the spec: `dbus_connection_get_unix_process_id` (libdbus): the
PID when known. -/
def dbus_connection_get_unix_process_id (w : BusState) (conn : Nat) : Option Nat :=
  (bus_connection_data w conn).unix_process_id

/-- Modelled from the spec: `bus_context_reload_config` (the
configuration-reload collaborator). -/
def bus_context_reload_config (w : BusState) : Bool × BusState :=
  match (w.record .reload_config).collaborator with
  | (false, w1) => (false, w1)
  | (true, w1) => (true, w1.set_reloads (w1.reloads + 1))

/-! ## Hello -/

/-- The function `bus_driver_send_welcome_message`. -/
def bus_driver_send_welcome_message (w : BusState) (connection : Nat)
    (hello_message : DBusMessage) : Outcome (Bool × BusState) :=
  if w.error.isSome then .assertion_failed
  else
    match bus_connection_get_name w connection with
    | none => .assertion_failed
    | some name =>
      match dbus_message_new_method_return w hello_message with
      | (none, w1) => .returned (false, BUS_SET_OOM w1)
      | (some welcome, w1) =>
        match dbus_message_append_args w1 welcome [.string name] with
        | (false, _, w2) => .returned (false, BUS_SET_OOM w2)
        | (true, welcome1, w2) =>
          if !dbus_message_has_signature welcome1 "s" then .assertion_failed
          else
            match bus_transaction_send_from_driver w2 connection welcome1 with
            | (false, w3) => .returned (false, BUS_SET_OOM w3)
            | (true, w3) => .returned (true, w3)

/-- The function `bus_driver_handle_hello`. -/
def bus_driver_handle_hello (w : BusState) (connection : Nat) (message : DBusMessage) :
    Outcome (Bool × BusState) :=
  if w.error.isSome then .assertion_failed
  else if bus_connection_is_active w connection then
    .returned (false, dbus_set_error w DBUS_ERROR_FAILED "Already handled an Hello message")
  else
    match bus_connections_check_limits w connection with
    | (false, w1) => return_failed w1
    | (true, w1) =>
      match _dbus_string_init w1 with
      | (false, w2) => .returned (false, BUS_SET_OOM w2)
      | (true, w2) =>
        match create_unique_client_name w2 "" with
        | .assertion_failed => .assertion_failed
        | .out_of_fuel => .out_of_fuel
        | .returned (false, _, w3) => .returned (false, BUS_SET_OOM w3)
        | .returned (true, unique_name, w3) =>
          match bus_connection_complete w3 connection unique_name with
          | (false, w4) => return_failed w4
          | (true, w4) =>
            match dbus_message_set_sender w4 message (bus_connection_get_name w4 connection) with
            | (false, _, w5) => .returned (false, BUS_SET_OOM w5)
            | (true, message1, w5) =>
              match bus_driver_send_welcome_message w5 connection message1 with
              | .assertion_failed => .assertion_failed
              | .out_of_fuel => .out_of_fuel
              | .returned (false, w6) => .returned (false, w6)
              | .returned (true, w6) =>
                match bus_registry_ensure w6 unique_name connection with
                | .assertion_failed => .assertion_failed
                | .out_of_fuel => .out_of_fuel
                | .returned (none, w7) => .returned (false, w7)
                | .returned (some service, w7) =>
                  let w8 := bus_service_set_prohibit_replacement w7 service true
                  if bus_connection_is_active w8 connection then .returned (true, w8)
                  else .assertion_failed

/-! ## Name and service queries -/

/-- The loop `while (i < len)` of `bus_driver_handle_list_services`: appends the
registry's names to the array, in order. -/
def append_services (w : BusState) (sub : List String) :
    List String → Option (List String) × BusState
  | [] => (some sub, w)
  | s :: rest =>
    match dbus_message_iter_append_basic w sub s with
    | (none, w1) => (none, w1)
    | (some sub1, w1) => append_services w1 sub1 rest

/-- The function `bus_driver_handle_list_services`. -/
def bus_driver_handle_list_services (w : BusState) (connection : Nat)
    (message : DBusMessage) : Outcome (Bool × BusState) :=
  if w.error.isSome then .assertion_failed
  else
    match dbus_message_new_method_return w message with
    | (none, w1) => .returned (false, BUS_SET_OOM w1)
    | (some reply, w1) =>
      match bus_registry_list_services w1 with
      | (none, w2) => .returned (false, BUS_SET_OOM w2)
      | (some services, w2) =>
        match dbus_message_iter_open_container w2 with
        | (none, w3) => .returned (false, BUS_SET_OOM w3)
        | (some sub, w3) =>
          match dbus_message_iter_append_basic w3 sub DBUS_SERVICE_DBUS with
          | (none, w4) => .returned (false, BUS_SET_OOM w4)
          | (some sub1, w4) =>
            match append_services w4 sub1 services with
            | (none, w5) => .returned (false, BUS_SET_OOM w5)
            | (some sub2, w5) =>
              match dbus_message_iter_close_container w5 reply sub2 with
              | (none, w6) => .returned (false, BUS_SET_OOM w6)
              | (some reply1, w6) =>
                match bus_transaction_send_from_driver w6 connection reply1 with
                | (false, w7) => .returned (false, BUS_SET_OOM w7)
                | (true, w7) => .returned (true, w7)

/-- The function `bus_driver_handle_acquire_service`. -/
def bus_driver_handle_acquire_service (w : BusState) (connection : Nat)
    (message : DBusMessage) : Outcome (Bool × BusState) :=
  if w.error.isSome then .assertion_failed
  else
    match dbus_message_get_args_string_uint32 w message with
    | (none, w1) => .returned (false, w1)
    | (some (name, flags), w1) =>
      match bus_registry_acquire_service w1 connection name flags with
      | .assertion_failed => .assertion_failed
      | .out_of_fuel => .out_of_fuel
      | .returned (none, w2) => .returned (false, w2)
      | .returned (some service_reply, w2) =>
        match dbus_message_new_method_return w2 message with
        | (none, w3) => .returned (false, BUS_SET_OOM w3)
        | (some reply, w3) =>
          match dbus_message_append_args w3 reply [.uint32 service_reply] with
          | (false, _, w4) => .returned (false, BUS_SET_OOM w4)
          | (true, reply1, w4) =>
            match bus_transaction_send_from_driver w4 connection reply1 with
            | (false, w5) => .returned (false, BUS_SET_OOM w5)
            | (true, w5) => .returned (true, w5)

/-- The function `bus_driver_handle_service_exists`. -/
def bus_driver_handle_service_exists (w : BusState) (connection : Nat)
    (message : DBusMessage) : Outcome (Bool × BusState) :=
  if w.error.isSome then .assertion_failed
  else
    match dbus_message_get_args_string w message with
    | (none, w1) => .returned (false, w1)
    | (some name, w1) =>
      let service_exists : Bool :=
        if name = DBUS_SERVICE_DBUS then true
        else (bus_registry_lookup w1 name).isSome
      match dbus_message_new_method_return w1 message with
      | (none, w2) => .returned (false, BUS_SET_OOM w2)
      | (some reply, w2) =>
        match dbus_message_append_args w2 reply [.bool service_exists] with
        | (false, _, w3) => .returned (false, BUS_SET_OOM w3)
        | (true, reply1, w3) =>
          match bus_transaction_send_from_driver w3 connection reply1 with
          | (false, w4) => .returned (false, BUS_SET_OOM w4)
          | (true, w4) => .returned (true, w4)

/-- The function `bus_driver_handle_activate_service`. -/
def bus_driver_handle_activate_service (w : BusState) (connection : Nat)
    (message : DBusMessage) : Outcome (Bool × BusState) :=
  if w.error.isSome then .assertion_failed
  else
    match dbus_message_get_args_string_uint32 w message with
    | (none, w1) => return_failed w1
    | (some (name, _flags), w1) =>
      match bus_activation_activate_service w1 connection name with
      | (false, w2) => return_failed w2
      | (true, w2) => .returned (true, w2)

/-! ## Match rules -/

/-- The function `send_ack_reply`. -/
def send_ack_reply (w : BusState) (connection : Nat) (message : DBusMessage) :
    Bool × BusState :=
  match dbus_message_new_method_return w message with
  | (none, w1) => (false, BUS_SET_OOM w1)
  | (some reply, w1) =>
    match bus_transaction_send_from_driver w1 connection reply with
    | (false, w2) => (false, BUS_SET_OOM w2)
    | (true, w2) => (true, w2)

/-- The function `bus_driver_handle_add_match`. -/
def bus_driver_handle_add_match (w : BusState) (connection : Nat) (message : DBusMessage) :
    Outcome (Bool × BusState) :=
  if w.error.isSome then .assertion_failed
  else if bus_connection_get_n_match_rules w connection ≥
      bus_context_get_max_match_rules_per_connection w then
    return_failed (dbus_set_error w DBUS_ERROR_LIMITS_EXCEEDED
      ("Connection \"" ++
        (if bus_connection_is_active w connection then
          (bus_connection_get_name w connection).getD "(null)"
         else "(inactive)") ++
        "\" is not allowed to add more match rules " ++
        "(increase limits in configuration file if required)"))
  else
    match dbus_message_get_args_string w message with
    | (none, w1) => return_failed w1
    | (some text, w1) =>
      match bus_match_rule_parse w1 connection text with
      | (none, w2) => return_failed w2
      | (some rule, w2) =>
        match bus_matchmaker_add_rule w2 rule with
        | (false, w3) => return_failed (BUS_SET_OOM w3)
        | (true, w3) =>
          match send_ack_reply w3 connection message with
          | (false, w4) => return_failed (bus_matchmaker_remove_rule w4 rule)
          | (true, w4) => .returned (true, w4)

/-- The function `bus_driver_handle_remove_match`. -/
def bus_driver_handle_remove_match (w : BusState) (connection : Nat)
    (message : DBusMessage) : Outcome (Bool × BusState) :=
  if w.error.isSome then .assertion_failed
  else
    match dbus_message_get_args_string w message with
    | (none, w1) => return_failed w1
    | (some text, w1) =>
      match bus_match_rule_parse w1 connection text with
      | (none, w2) => return_failed w2
      | (some rule, w2) =>
        match send_ack_reply w2 connection message with
        | (false, w3) => return_failed w3
        | (true, w3) =>
          match bus_matchmaker_remove_rule_by_value w3 rule with
          | (false, w4) => return_failed w4
          | (true, w4) => .returned (true, w4)

/-! ## Owner and credential queries -/

/-- The tail of the three query handlers from `dbus_message_append_args` on:
appends the value, enqueues the reply; any failure is `oom:`. -/
def append_and_send (w : BusState) (connection : Nat) (reply : DBusMessage)
    (value : DBusValue) : Outcome (Bool × BusState) :=
  match dbus_message_append_args w reply [value] with
  | (false, _, w1) => return_failed (BUS_SET_OOM w1)
  | (true, reply1, w1) =>
    match bus_transaction_send_from_driver w1 connection reply1 with
    | (false, w2) => return_failed (BUS_SET_OOM w2)
    | (true, w2) => .returned (true, w2)

/-- The function `bus_driver_handle_get_service_owner`. -/
def bus_driver_handle_get_service_owner (w : BusState) (connection : Nat)
    (message : DBusMessage) : Outcome (Bool × BusState) :=
  if w.error.isSome then .assertion_failed
  else
    match dbus_message_get_args_string w message with
    | (none, w1) => return_failed w1
    | (some text, w1) =>
      let reply_with (base_name : String) : Outcome (Bool × BusState) :=
        match dbus_message_new_method_return w1 message with
        | (none, w2) => return_failed (BUS_SET_OOM w2)
        | (some reply, w2) => append_and_send w2 connection reply (.string base_name)
      match bus_registry_lookup w1 text with
      | none =>
        if text = DBUS_SERVICE_DBUS then reply_with DBUS_SERVICE_DBUS
        else
          return_failed (dbus_set_error w1 DBUS_ERROR_NAME_HAS_NO_OWNER
            ("Could not get owner of name '" ++ text ++ "': no such name"))
      | some service =>
        match bus_connection_get_name w1 service.primary_owner with
        | none =>
          return_failed (dbus_set_error w1 DBUS_ERROR_FAILED
            ("Could not determine unique name for '" ++ text ++ "'"))
        | some base_name =>
          if base_name.data.head? = some ':' then reply_with base_name
          else .assertion_failed

/-- The function `bus_driver_handle_get_connection_unix_user`. -/
def bus_driver_handle_get_connection_unix_user (w : BusState) (connection : Nat)
    (message : DBusMessage) : Outcome (Bool × BusState) :=
  if w.error.isSome then .assertion_failed
  else
    match dbus_message_get_args_string w message with
    | (none, w1) => return_failed w1
    | (some service, w1) =>
      match bus_registry_lookup w1 service with
      | none =>
        return_failed (dbus_set_error w1 DBUS_ERROR_NAME_HAS_NO_OWNER
          ("Could not get UID of name '" ++ service ++ "': no such name"))
      | some serv =>
        match dbus_message_new_method_return w1 message with
        | (none, w2) => return_failed (BUS_SET_OOM w2)
        | (some reply, w2) =>
          match dbus_connection_get_unix_user w2 serv.primary_owner with
          | none =>
            return_failed (dbus_set_error w2 DBUS_ERROR_FAILED
              ("Could not determine UID for '" ++ service ++ "'"))
          | some uid => append_and_send w2 connection reply (.uint32 (uid % 4294967296))

/-- The function `bus_driver_handle_get_connection_unix_process_id`. -/
def bus_driver_handle_get_connection_unix_process_id (w : BusState) (connection : Nat)
    (message : DBusMessage) : Outcome (Bool × BusState) :=
  if w.error.isSome then .assertion_failed
  else
    match dbus_message_get_args_string w message with
    | (none, w1) => return_failed w1
    | (some service, w1) =>
      match bus_registry_lookup w1 service with
      | none =>
        return_failed (dbus_set_error w1 DBUS_ERROR_NAME_HAS_NO_OWNER
          ("Could not get PID of name '" ++ service ++ "': no such name"))
      | some serv =>
        match dbus_message_new_method_return w1 message with
        | (none, w2) => return_failed (BUS_SET_OOM w2)
        | (some reply, w2) =>
          match dbus_connection_get_unix_process_id w2 serv.primary_owner with
          | none =>
            return_failed (dbus_set_error w2 DBUS_ERROR_UNIX_PROCESS_ID_UNKNOWN
              ("Could not determine PID for '" ++ service ++ "'"))
          | some pid => append_and_send w2 connection reply (.uint32 (pid % 4294967296))

/-- The function `bus_driver_handle_reload_config`. -/
def bus_driver_handle_reload_config (w : BusState) (_connection : Nat)
    (_message : DBusMessage) : Outcome (Bool × BusState) :=
  if w.error.isSome then .assertion_failed
  else
    match bus_context_reload_config w with
    | (false, w1) => return_failed w1
    | (true, w1) => .returned (true, w1)

/-! ## The dispatch table -/

/-- One entry of `message_handlers`. -/
structure MessageHandler where
  name : String
  in_args : String
  out_args : String
  handler : BusState → Nat → DBusMessage → Outcome (Bool × BusState)

/-- The table `message_handlers`. -/
def message_handlers : List MessageHandler :=
  [ { name := "RequestName", in_args := "su", out_args := "u",
      handler := bus_driver_handle_acquire_service },
    { name := "StartServiceByName", in_args := "su", out_args := "u",
      handler := bus_driver_handle_activate_service },
    { name := "Hello", in_args := "", out_args := "s",
      handler := bus_driver_handle_hello },
    { name := "NameHasOwner", in_args := "s", out_args := "b",
      handler := bus_driver_handle_service_exists },
    { name := "ListNames", in_args := "", out_args := "as",
      handler := bus_driver_handle_list_services },
    { name := "AddMatch", in_args := "s", out_args := "",
      handler := bus_driver_handle_add_match },
    { name := "RemoveMatch", in_args := "s", out_args := "",
      handler := bus_driver_handle_remove_match },
    { name := "GetNameOwner", in_args := "s", out_args := "s",
      handler := bus_driver_handle_get_service_owner },
    { name := "GetConnectionUnixUser", in_args := "s", out_args := "u",
      handler := bus_driver_handle_get_connection_unix_user },
    { name := "GetConnectionUnixProcessID", in_args := "s", out_args := "u",
      handler := bus_driver_handle_get_connection_unix_process_id },
    { name := "ReloadConfig", in_args := "", out_args := "",
      handler := bus_driver_handle_reload_config } ]

/-! ## Introspection -/

/-- Modelled from the spec: `DBUS_INTROSPECT_1_0_XML_DOCTYPE_DECL_NODE`
(`dbus-protocol.h`). -/
def DBUS_INTROSPECT_1_0_XML_DOCTYPE_DECL_NODE : String :=
  "<!DOCTYPE node PUBLIC \"-//freedesktop//DTD D-BUS Object Introspection 1.0//EN\"\n" ++
  "\"http://www.freedesktop.org/standards/dbus/1.0/introspect.dtd\">\n"

/-- Reads up to the bracket that closes a container opened `depth + 1` times:
what was read, the closing bracket included, and what is left. -/
def scan_to_close (opening closing : Char) : Nat → List Char → List Char × List Char
  | _, [] => ([], [])
  | depth, x :: xs =>
    if x = closing then
      match depth with
      | 0 => ([x], xs)
      | d + 1 => ((x :: (scan_to_close opening closing d xs).1),
                  (scan_to_close opening closing d xs).2)
    else if x = opening then
      ((x :: (scan_to_close opening closing (depth + 1) xs).1),
       (scan_to_close opening closing (depth + 1) xs).2)
    else
      ((x :: (scan_to_close opening closing depth xs).1),
       (scan_to_close opening closing depth xs).2)

/-- Modelled from the spec: what `_dbus_type_reader_get_signature` and
`_dbus_type_reader_next` yield (libdbus type reader): the first top-level
complete type of a signature and the rest of the signature. Array markers
belong to the type that follows them, a struct or dict entry runs to its
closing bracket, any other code stands alone. -/
def first_complete_type : List Char → List Char × List Char
  | [] => ([], [])
  | c :: rest =>
    if c = 'a' then ((c :: (first_complete_type rest).1), (first_complete_type rest).2)
    else if c = '(' then
      ((c :: (scan_to_close '(' ')' 0 rest).1), (scan_to_close '(' ')' 0 rest).2)
    else if c = '{' then
      ((c :: (scan_to_close '{' '}' 0 rest).1), (scan_to_close '{' '}' 0 rest).2)
    else ([c], rest)

/-- The loop of `write_args_for_direction`, for at most `fuel` arguments. -/
def write_args_loop (is_in : Bool) :
    Nat → BusState → String → List Char → Outcome (Bool × String × BusState)
  | _, w, xml, [] => .returned (true, xml, w)
  | 0, _, _, _ :: _ => .out_of_fuel
  | fuel + 1, w, xml, c :: cs =>
    match _dbus_string_append w xml
        ("      <arg direction=\"" ++ (if is_in then "in" else "out") ++ "\" type=\"") with
    | (false, xml1, w1) => .returned (false, xml1, w1)
    | (true, xml1, w1) =>
      match _dbus_string_append w1 xml1 (String.mk (first_complete_type (c :: cs)).1) with
      | (false, xml2, w2) => .returned (false, xml2, w2)
      | (true, xml2, w2) =>
        match _dbus_string_append w2 xml2 "\"/>\n" with
        | (false, xml3, w3) => .returned (false, xml3, w3)
        | (true, xml3, w3) =>
          write_args_loop is_in fuel w3 xml3 (first_complete_type (c :: cs)).2

/-- The function `write_args_for_direction`. A complete type has at least one
type code, so the signature's length bounds the number of arguments. -/
def write_args_for_direction (w : BusState) (xml : String) (signature : String)
    (is_in : Bool) : Outcome (Bool × String × BusState) :=
  write_args_loop is_in signature.data.length w xml signature.data

/-- Appends the pieces in order, stopping at the first append that fails. -/
def append_all (w : BusState) (xml : String) : List String → Bool × String × BusState
  | [] => (true, xml, w)
  | s :: rest =>
    match _dbus_string_append w xml s with
    | (false, xml1, w1) => (false, xml1, w1)
    | (true, xml1, w1) => append_all w1 xml1 rest

/-- The loop over `message_handlers` of `bus_driver_handle_introspect`: one
`<method>` element per entry. -/
def write_methods (w : BusState) (xml : String) :
    List MessageHandler → Outcome (Bool × String × BusState)
  | [] => .returned (true, xml, w)
  | h :: rest =>
    match _dbus_string_append w xml ("    <method name=\"" ++ h.name ++ "\">\n") with
    | (false, xml1, w1) => .returned (false, xml1, w1)
    | (true, xml1, w1) =>
      match write_args_for_direction w1 xml1 h.in_args true with
      | .assertion_failed => .assertion_failed
      | .out_of_fuel => .out_of_fuel
      | .returned (false, xml2, w2) => .returned (false, xml2, w2)
      | .returned (true, xml2, w2) =>
        match write_args_for_direction w2 xml2 h.out_args false with
        | .assertion_failed => .assertion_failed
        | .out_of_fuel => .out_of_fuel
        | .returned (false, xml3, w3) => .returned (false, xml3, w3)
        | .returned (true, xml3, w3) =>
          match _dbus_string_append w3 xml3 "    </method>\n" with
          | (false, xml4, w4) => .returned (false, xml4, w4)
          | (true, xml4, w4) => write_methods w4 xml4 rest

/-- The XML document of `bus_driver_handle_introspect`, from `_dbus_string_init`
to the closing `</node>`. -/
def introspect_xml (w : BusState) : Outcome (Bool × String × BusState) :=
  match _dbus_string_init w with
  | (false, w1) => .returned (false, "", w1)
  | (true, w1) =>
    match append_all w1 ""
        [ DBUS_INTROSPECT_1_0_XML_DOCTYPE_DECL_NODE,
          "<node>\n",
          "  <interface name=\"" ++ DBUS_INTERFACE_INTROSPECTABLE ++ "\">\n",
          "    <method name=\"Introspect\">\n",
          "      <arg name=\"data\" direction=\"out\" type=\"" ++ "s" ++ "\"/>\n",
          "    </method>\n",
          "  </interface>\n",
          "  <interface name=\"" ++ DBUS_INTERFACE_DBUS ++ "\">\n" ] with
    | (false, xml1, w2) => .returned (false, xml1, w2)
    | (true, xml1, w2) =>
      match write_methods w2 xml1 message_handlers with
      | .assertion_failed => .assertion_failed
      | .out_of_fuel => .out_of_fuel
      | .returned (false, xml2, w3) => .returned (false, xml2, w3)
      | .returned (true, xml2, w3) =>
        .returned (append_all w3 xml2 ["  </interface>\n", "</node>\n"])

/-- The function `bus_driver_handle_introspect`. -/
def bus_driver_handle_introspect (w : BusState) (connection : Nat) (message : DBusMessage) :
    Outcome (Bool × BusState) :=
  if w.error.isSome then .assertion_failed
  else
    match dbus_message_get_args_none w message with
    | (false, w1) => return_failed w1
    | (true, w1) =>
      match introspect_xml w1 with
      | .assertion_failed => .assertion_failed
      | .out_of_fuel => .out_of_fuel
      | .returned (false, _, w2) => .returned (false, BUS_SET_OOM w2)
      | .returned (true, xml, w2) =>
        match dbus_message_new_method_return w2 message with
        | (none, w3) => .returned (false, BUS_SET_OOM w3)
        | (some reply, w3) =>
          match dbus_message_append_args w3 reply [.string xml] with
          | (false, _, w4) => .returned (false, BUS_SET_OOM w4)
          | (true, reply1, w4) =>
            match bus_transaction_send_from_driver w4 connection reply1 with
            | (false, w5) => .returned (false, BUS_SET_OOM w5)
            | (true, w5) => .returned (true, w5)

/-! ## The dispatcher -/

/-- Modelled from the spec: `dbus_message_get_type` (libdbus). -/
def dbus_message_get_type (message : DBusMessage) : Nat := message.type

/-- Modelled from the spec: `dbus_message_is_method_call` (libdbus): a method
call with that member whose interface is the given one or is missing. -/
def dbus_message_is_method_call (message : DBusMessage) (interface method : String) : Bool :=
  dbus_message_get_type message == DBUS_MESSAGE_TYPE_METHOD_CALL &&
  message.member == some method &&
  (message.interface == none || message.interface == some interface)

/-- The label `unknown:` of `bus_driver_handle_message`. -/
def unknown_method (w : BusState) (name : String) : Outcome (Bool × BusState) :=
  .returned (false, dbus_set_error w DBUS_ERROR_UNKNOWN_METHOD
    (DBUS_SERVICE_DBUS ++ " does not understand message " ++ name))

/-- The loop `while (i < _DBUS_N_ELEMENTS (message_handlers))` of
`bus_driver_handle_message`, over the entries still to be compared. -/
def dispatch (w : BusState) (connection : Nat) (message : DBusMessage) (name : String) :
    List MessageHandler → Outcome (Bool × BusState)
  | [] => unknown_method w name
  | h :: rest =>
    if h.name = name then
      if !dbus_message_has_signature message h.in_args then
        if w.error.isSome then .assertion_failed
        else
          return_failed (dbus_set_error w DBUS_ERROR_INVALID_ARGS
            ("Call to " ++ name ++ " has wrong args (" ++ dbus_message_get_signature message ++
              ", expected " ++ h.in_args ++ ")\n"))
      else
        match h.handler w connection message with
        | .assertion_failed => .assertion_failed
        | .out_of_fuel => .out_of_fuel
        | .returned (true, w1) =>
          if w1.error.isSome then .assertion_failed else .returned (true, w1)
        | .returned (false, w1) =>
          if w1.error.isSome then .returned (false, w1) else .assertion_failed
    else dispatch w connection message name rest

/-- The body of `bus_driver_handle_message`, with the table it searches as an
argument. -/
def bus_driver_handle_message_with (table : List MessageHandler) (w : BusState)
    (connection : Nat) (message : DBusMessage) : Outcome (Bool × BusState) :=
  if w.error.isSome then .assertion_failed
  else if dbus_message_get_type message ≠ DBUS_MESSAGE_TYPE_METHOD_CALL then
    .returned (true, w)
  else if dbus_message_is_method_call message DBUS_INTERFACE_INTROSPECTABLE "Introspect" then
    bus_driver_handle_introspect w connection message
  else
    match message.member with
    | none => .assertion_failed
    | some name =>
      if message.interface.getD DBUS_INTERFACE_DBUS ≠ DBUS_INTERFACE_DBUS then
        unknown_method w name
      else if !(message.sender.isSome || name == "Hello") then .assertion_failed
      else dispatch w connection message name table

/-- The function `bus_driver_handle_message`. -/
def bus_driver_handle_message (w : BusState) (connection : Nat) (message : DBusMessage) :
    Outcome (Bool × BusState) :=
  bus_driver_handle_message_with message_handlers w connection message

/-! ## Notions used in the statements -/

/-- The name and in-signature columns of a dispatch table. -/
def table_signatures (table : List MessageHandler) : List (String × String) :=
  table.map (fun h => (h.name, h.in_args))

/-- The number a list of decimal digit characters stands for. -/
def digits_value (cs : List Char) : Nat :=
  cs.foldl (fun acc c => 10 * acc + (c.toNat - 48)) 0

/-- The text `:MAJOR.MINOR` that `create_unique_client_name` appends. -/
def unique_name_suffix (major minor : Int) : String :=
  ":" ++ int_to_string major ++ "." ++ int_to_string minor

/-- The values a C `int` can hold. -/
abbrev int_range (x : Int) : Prop := -2147483648 ≤ x ∧ x ≤ 2147483647

/-- The (major, minor) pair the next attempt of `create_unique_client_name`
uses, given the two counters. -/
def next_position (major minor : Int) : Int × Int :=
  if minor ≤ 0 then (wrap_int (major + 1), 0) else (major, minor)

/-- Lexicographic order on (major, minor) pairs. -/
abbrev lex_lt (p q : Int × Int) : Prop := p.1 < q.1 ∨ (p.1 = q.1 ∧ p.2 < q.2)

/-- The state after the first `if` of the loop body of
`create_unique_client_name`. -/
def normalised (w : BusState) : BusState :=
  if w.next_minor_number ≤ 0 then
    { w with next_major_number := wrap_int (w.next_major_number + 1),
             next_minor_number := 0 }
  else w

/-- Every fallible library call still to come succeeds. -/
def BusState.no_failure (w : BusState) : Prop := ∀ o ∈ w.script, o = none

/-! ## Sample inputs -/

/-- A bus that has just started: counters at zero, nothing registered, no
connection active, at most two match rules per connection. -/
def sample_state : BusState :=
  { next_major_number := 0, next_minor_number := 0, registry := [], connections := [],
    matchmaker := [], activation := [], max_match_rules_per_connection := 2, reloads := 0,
    transaction := [], calls := [], error := none, script := [] }

/-- A method call with serial 7 sent by `:1.0` to the control interface. -/
def sample_call (member : String) (body : List DBusValue) : DBusMessage :=
  { type := DBUS_MESSAGE_TYPE_METHOD_CALL, serial := 7, reply_serial := none,
    interface := some DBUS_INTERFACE_DBUS, member := some member, sender := some ":1.0",
    destination := some DBUS_SERVICE_DBUS, body := body }

/-- The first Hello of a connection: a call without sender. -/
def sample_hello : DBusMessage :=
  { sample_call "Hello" [] with sender := none }

/-- A bus on which connection 3 has said Hello and is `:1.0`. -/
def sample_active_state : BusState :=
  { sample_state with
    next_major_number := 1, next_minor_number := 1,
    registry := [{ name := ":1.0", primary_owner := 3, prohibit_replacement := true }],
    connections := [{ connection := 3, name := some ":1.0", n_match_rules := 0,
                      unix_user := some 1000, unix_process_id := none }] }

/-- The error of a limits collaborator that refuses the connection. -/
def sample_limit_error : DBusError :=
  { name := DBUS_ERROR_LIMITS_EXCEEDED,
    message := "The maximum number of active connections has been reached" }

/-- Three successive allocations: the first on an empty registry, the second
with `:1.1` already taken, the third after every name has been released. -/
def sample_run : List (BusState × String × BusState) :=
  [ (sample_state, ":1.0", { sample_state with next_major_number := 1, next_minor_number := 1 }),
    ({ sample_state with
        next_major_number := 1, next_minor_number := 1,
        registry := [{ name := ":1.1", primary_owner := 4, prohibit_replacement := true }] },
     ":1.2",
     { sample_state with
        next_major_number := 1, next_minor_number := 3,
        registry := [{ name := ":1.1", primary_owner := 4, prohibit_replacement := true }] }),
    ({ sample_state with next_major_number := 1, next_minor_number := 3 }, ":1.3",
     { sample_state with next_major_number := 1, next_minor_number := 4 }) ]

/-- The method return to `call` that carries `body`, as
`dbus_message_new_method_return` and `dbus_message_append_args` build it. -/
def method_return_to (call : DBusMessage) (body : List DBusValue) : DBusMessage :=
  { type := DBUS_MESSAGE_TYPE_METHOD_RETURN, serial := 0, reply_serial := some call.serial,
    interface := none, member := none, sender := none, destination := call.sender,
    body := body }

/-- A resource-exhaustion error as a collaborator reports it. -/
def sample_oom : DBusError :=
  { name := DBUS_ERROR_NO_MEMORY, message := "out of memory" }

/-- The welcome reply to `sample_hello` for the name `:1.0`. -/
def sample_welcome : DBusMessage :=
  method_return_to { sample_hello with sender := some ":1.0" } [.string ":1.0"]

/-- The NameOwnerChanged signal, as `bus_driver_send_service_owner_changed`
builds it; a missing owner is the empty string. -/
def name_owner_changed_signal (name : String) (old_owner new_owner : Option String) :
    DBusMessage :=
  { type := DBUS_MESSAGE_TYPE_SIGNAL, serial := 0, reply_serial := none,
    interface := some DBUS_INTERFACE_DBUS, member := some "NameOwnerChanged",
    sender := some DBUS_SERVICE_DBUS, destination := none,
    body := [.string name, .string (old_owner.getD ""), .string (new_owner.getD "")] }

/-- The NameAcquired signal, as `bus_driver_send_service_acquired` builds it for
a connection of that unique name. -/
def name_acquired_signal (destination : Option String) (name : String) : DBusMessage :=
  { type := DBUS_MESSAGE_TYPE_SIGNAL, serial := 0, reply_serial := none,
    interface := some DBUS_INTERFACE_DBUS, member := some "NameAcquired",
    sender := none, destination := destination, body := [.string name] }

/-- What the registry queues on the transaction when the connection, whose
unique name is `owner`, gains the name nobody held: NameOwnerChanged for each
matching subscriber, then NameAcquired for the connection. -/
def name_gained_signals (w : BusState) (connection : Nat) (owner : Option String)
    (name : String) : List (Nat × DBusMessage) :=
  (matching_subscribers w (name_owner_changed_signal name none owner)).map
      (fun c => (c, name_owner_changed_signal name none owner)) ++
    [(connection, name_acquired_signal owner name)]

/-- The collaborator calls behind `name_gained_signals`. -/
def name_gained_calls (connection : Nat) (owner : Option String) (name : String) :
    List Call :=
  [.dispatch_matches (name_owner_changed_signal name none owner),
   .transaction_send connection (name_acquired_signal owner name)]

/-- The bus after connection 3 has said `sample_hello` to `sample_state`. -/
def sample_after_hello : BusState :=
  { sample_state with
    next_major_number := 1, next_minor_number := 1,
    registry := [{ name := ":1.0", primary_owner := 3, prohibit_replacement := true }],
    connections := [{ connection := 3, name := some ":1.0", n_match_rules := 0,
                      unix_user := none, unix_process_id := none }],
    transaction := [(3, sample_welcome),
                    (3, name_acquired_signal (some ":1.0") ":1.0")],
    calls := [.check_limits 3, .connection_complete 3 ":1.0",
              .transaction_send 3 sample_welcome, .registry_ensure ":1.0" 3,
              .dispatch_matches (name_owner_changed_signal ":1.0" none (some ":1.0")),
              .transaction_send 3 (name_acquired_signal (some ":1.0") ":1.0"),
              .set_prohibit_replacement ":1.0" true] }

/-- A fresh bus on which connection 5 holds a match rule. -/
def sample_subscribed : BusState :=
  { sample_state with matchmaker := [{ matches_go_to := 5, text := "type='signal'" }] }

/-- The bus after connection 3 has said `sample_hello` to `sample_subscribed`. -/
def sample_after_subscribed_hello : BusState :=
  { sample_after_hello with
    matchmaker := [{ matches_go_to := 5, text := "type='signal'" }],
    transaction := [(3, sample_welcome),
                    (5, name_owner_changed_signal ":1.0" none (some ":1.0")),
                    (3, name_acquired_signal (some ":1.0") ":1.0")] }

/-- A bus on which the eleventh fallible call, the enqueue of the welcome reply
of a Hello, fails. -/
def sample_welcome_fails : BusState :=
  { sample_state with script := List.replicate 10 none ++ [some sample_oom] }

/-- The bus after connection 3 has said `sample_hello` to
`sample_welcome_fails`. -/
def sample_after_failed_hello : BusState :=
  { sample_state with
    next_major_number := 1, next_minor_number := 1,
    connections := [{ connection := 3, name := some ":1.0", n_match_rules := 0,
                      unix_user := none, unix_process_id := none }],
    calls := [.check_limits 3, .connection_complete 3 ":1.0",
              .transaction_send 3 sample_welcome],
    error := some ⟨DBUS_ERROR_NO_MEMORY, bus_no_memory_message⟩ }

/-- A bus on which connection 4, `:1.4`, owns a registry entry named like the
bus itself. -/
def sample_bus_name_taken : BusState :=
  { sample_state with
    registry := [{ name := DBUS_SERVICE_DBUS, primary_owner := 4, prohibit_replacement := false }],
    connections := [{ connection := 4, name := some ":1.4", n_match_rules := 0,
                      unix_user := none, unix_process_id := none }] }

/-- A bus with two registered names. -/
def sample_two_names : BusState :=
  { sample_state with
    registry := [{ name := ":1.7", primary_owner := 7, prohibit_replacement := true },
                 { name := "com.example.A", primary_owner := 7, prohibit_replacement := false }] }

/-- A bus on which the inactive connection 3 already holds the two match rules
it is allowed. -/
def sample_rules_full : BusState :=
  { sample_state with
    connections := [{ connection := 3, name := none, n_match_rules := 2,
                      unix_user := none, unix_process_id := none }] }

/-- The text of the error that refuses one more match rule to the connection
of that name. -/
def match_rule_limit_message (who : String) : String :=
  "Connection \"" ++ who ++ "\" is not allowed to add more match rules " ++
    "(increase limits in configuration file if required)"

/-- The name `nm` is a candidate of `create_unique_client_name` at the position
`p` or at a later one. -/
def later_candidate (start : String) (p : Int × Int) (nm : String) : Prop :=
  ∃ M m : Int, (p = (M, m) ∨ lex_lt p (M, m)) ∧ 0 ≤ M ∧ 0 ≤ m ∧
    nm = start ++ unique_name_suffix M m

/-- The rule connection 3 asks for in the match-rule samples. -/
def sample_rule : BusMatchRule := { matches_go_to := 3, text := "type=signal" }

/-- An AddMatch or RemoveMatch call for `sample_rule`. -/
def sample_match_call (member : String) : DBusMessage :=
  sample_call member [.string "type=signal"]

/-- The acknowledgement of a `sample_match_call`. -/
def sample_ack (member : String) : DBusMessage :=
  method_return_to (sample_match_call member) []

/-- The bus `sample_state` once the rule text of a `sample_match_call` has been
parsed. -/
def sample_parsed : BusState :=
  { sample_state with calls := [.match_rule_parse 3 "type=signal"] }

/-- The bus `sample_parsed` once the acknowledgement of RemoveMatch is queued. -/
def sample_remove_acked : BusState :=
  { sample_state with
    transaction := [(3, sample_ack "RemoveMatch")],
    calls := [.match_rule_parse 3 "type=signal",
              .transaction_send 3 (sample_ack "RemoveMatch")] }

/-- The bus after connection 3 asked `sample_state` to remove a rule the
matchmaker does not hold. -/
def sample_after_remove_match : BusState :=
  { sample_state with
    transaction := [(3, sample_ack "RemoveMatch")],
    calls := [.match_rule_parse 3 "type=signal",
              .transaction_send 3 (sample_ack "RemoveMatch"),
              .matchmaker_remove_by_value sample_rule],
    error := some ⟨DBUS_ERROR_MATCH_RULE_NOT_FOUND,
      "The given match rule wasn't found and can't be removed"⟩ }

/-- The bus `sample_parsed` once the matchmaker has accepted `sample_rule`. -/
def sample_rule_added : BusState :=
  { sample_state with
    matchmaker := [sample_rule],
    connections := [{ connection := 3, name := none, n_match_rules := 1,
                      unix_user := none, unix_process_id := none }],
    calls := [.match_rule_parse 3 "type=signal", .matchmaker_add sample_rule] }

/-- The bus `sample_rule_added` once the acknowledgement of AddMatch is queued. -/
def sample_after_add_match : BusState :=
  { sample_rule_added with
    transaction := [(3, sample_ack "AddMatch")],
    calls := [.match_rule_parse 3 "type=signal", .matchmaker_add sample_rule,
              .transaction_send 3 (sample_ack "AddMatch")] }

/-- A bus on which the fifth fallible call, the enqueue of the acknowledgement
of an AddMatch, fails. -/
def sample_ack_fails : BusState :=
  { sample_state with script := [none, none, none, none, some sample_oom] }

/-- The bus `sample_ack_fails` after the failed enqueue of the acknowledgement,
before the rule is removed again. -/
def sample_ack_failed : BusState :=
  { sample_rule_added with
    calls := [.match_rule_parse 3 "type=signal", .matchmaker_add sample_rule,
              .transaction_send 3 (sample_ack "AddMatch")],
    error := some ⟨DBUS_ERROR_NO_MEMORY, bus_no_memory_message⟩ }

/-- The control-interface wire contract as the specification tabulates it:
method, in-signature, out-signature. -/
def wire_contract : List (String × String × String) :=
  [ ("Hello", "", "s"),
    ("RequestName", "su", "u"),
    ("StartServiceByName", "su", "u"),
    ("NameHasOwner", "s", "b"),
    ("ListNames", "", "as"),
    ("GetNameOwner", "s", "s"),
    ("GetConnectionUnixUser", "s", "u"),
    ("GetConnectionUnixProcessID", "s", "u"),
    ("AddMatch", "s", ""),
    ("RemoveMatch", "s", ""),
    ("ReloadConfig", "", "") ]

/-- The name, in-signature and out-signature of a table entry. -/
def MessageHandler.triple (h : MessageHandler) : String × String × String :=
  (h.name, h.in_args, h.out_args)

/-- The bus `sample_state` after connection 3 asked whether the bus's own name
has an owner. -/
def sample_after_name_has_owner : BusState :=
  { sample_state with
    transaction := [(3, method_return_to
      (sample_call "NameHasOwner" [.string DBUS_SERVICE_DBUS]) [.bool true])],
    calls := [.transaction_send 3 (method_return_to
      (sample_call "NameHasOwner" [.string DBUS_SERVICE_DBUS]) [.bool true])] }

/-- A bus on which connection 3 owns `:1.0` and has UID 1000 and PID 4242. -/
def sample_known_credentials : BusState :=
  { sample_state with
    registry := [{ name := ":1.0", primary_owner := 3, prohibit_replacement := true }],
    connections := [{ connection := 3, name := some ":1.0", n_match_rules := 0,
                      unix_user := some 1000, unix_process_id := some 4242 }] }

/-- The bus `sample_known_credentials` after connection 3 got `reply`. -/
def sample_after_credentials (reply : DBusMessage) : BusState :=
  { sample_known_credentials with
    transaction := [(3, reply)],
    calls := [.transaction_send 3 reply] }

/-- The position after `p` in the order (1,0), (1,1), ..., (1,INT_MAX), (2,0),
(2,1), ... -/
def succ_position (p : Int × Int) : Int × Int :=
  if p.2 < 2147483647 then (p.1, p.2 + 1) else (p.1 + 1, 0)

/-- The position `k` steps after `p` in that order. -/
def nth_position (p : Int × Int) : Nat → Int × Int
  | 0 => p
  | k + 1 => nth_position (succ_position p) k

/-- The current counter position: MAJOR counts one further exactly when MINOR
is at its sentinel (`≤ 0`), and MINOR then stands for 0. -/
def counter_position (w : BusState) : Int × Int :=
  if w.next_minor_number ≤ 0 then (w.next_major_number + 1, 0)
  else (w.next_major_number, w.next_minor_number)

/-- The name `create_unique_client_name` builds from `str` at a position. -/
def candidate_name (str : String) (p : Int × Int) : String :=
  str ++ unique_name_suffix p.1 p.2

/-- A bus with fresh counters whose registry already holds `:1.0`. -/
def sample_collision : BusState :=
  { sample_state with
    registry := [{ name := ":1.0", primary_owner := 5, prohibit_replacement := true }] }

/-- The bus `sample_collision` after one unique name was made on it. -/
def sample_after_collision : BusState :=
  { sample_collision with next_major_number := 1, next_minor_number := 2 }

/-- The pieces of text written one after the other. -/
def concat_all : List String → String
  | [] => ""
  | s :: rest => s ++ concat_all rest

/-- The top-level complete types of a signature, in order, at most `fuel` of
them. -/
def complete_types : Nat → List Char → List String
  | _, [] => []
  | 0, _ :: _ => []
  | fuel + 1, c :: cs =>
    String.mk (first_complete_type (c :: cs)).1 ::
      complete_types fuel (first_complete_type (c :: cs)).2

/-- The top-level complete types of a signature, in order. -/
def top_level_types (signature : String) : List String :=
  complete_types signature.data.length signature.data

/-- One `<arg>` element of a table entry. -/
def arg_element (direction type : String) : String :=
  "      <arg direction=\"" ++ direction ++ "\" type=\"" ++ type ++ "\"/>\n"

/-- The `<method>` element of a table entry: its name, one in-argument per
top-level type of the in-signature, then one out-argument per top-level type of
the out-signature. -/
def method_element (h : MessageHandler) : String :=
  "    <method name=\"" ++ h.name ++ "\">\n" ++
    (concat_all ((top_level_types h.in_args).map (arg_element "in")) ++
      (concat_all ((top_level_types h.out_args).map (arg_element "out")) ++
        "    </method>\n"))

/-- The `<method>` element of `Introspectable.Introspect`. -/
def introspect_method_element : String :=
  "    <method name=\"Introspect\">\n" ++
    ("      <arg name=\"data\" direction=\"out\" type=\"s\"/>\n" ++ "    </method>\n")

/-- The document up to the first `<method>` element of the control interface:
the Introspectable interface with its one method, and the opening of the
control interface. -/
def document_head : String :=
  DBUS_INTROSPECT_1_0_XML_DOCTYPE_DECL_NODE ++
    "<node>\n" ++
    "  <interface name=\"org.freedesktop.DBus.Introspectable\">\n" ++
    introspect_method_element ++
    "  </interface>\n" ++
    "  <interface name=\"org.freedesktop.DBus\">\n"

/-- The end of the document. -/
def document_tail : String := "  </interface>\n" ++ "</node>\n"

/-- The introspection document of a dispatch table: the Introspectable
interface with its one method, then the control interface with one `<method>`
element per table entry, in table order. -/
def introspection_document (table : List MessageHandler) : String :=
  document_head ++ (concat_all (table.map method_element) ++ document_tail)

/-- How many times the text `pat` starts in `s`. -/
def count_occurrences (pat : List Char) : List Char → Nat
  | [] => 0
  | c :: cs => (if pat.isPrefixOf (c :: cs) then 1 else 0) + count_occurrences pat cs

/-- The `<method>` element the document has for RequestName. -/
def request_name_element : String :=
  "    <method name=\"RequestName\">\n" ++
  "      <arg direction=\"in\" type=\"s\"/>\n" ++
  "      <arg direction=\"in\" type=\"u\"/>\n" ++
  "      <arg direction=\"out\" type=\"u\"/>\n" ++
  "    </method>\n"

/-- The `<method>` element the document has for ListNames. -/
def list_names_element : String :=
  "    <method name=\"ListNames\">\n" ++
  "      <arg direction=\"out\" type=\"as\"/>\n" ++
  "    </method>\n"

/-- The error contract of a handler: entered with a clear error, it returns
failure exactly when the error is set on return. -/
def error_contract
    (handler : BusState → Nat → DBusMessage → Outcome (Bool × BusState)) : Prop :=
  ∀ (w : BusState) (connection : Nat) (message : DBusMessage) (r : Bool) (w' : BusState),
    w.error = none → handler w connection message = .returned (r, w') →
    (r = false ↔ w'.error.isSome = true)

/-- The bus `sample_after_failed_hello` once the caller has reported the error
and handed the driver a clear error again. -/
def sample_retry : BusState := { sample_after_failed_hello with error := none }

/-- A bus on which the twelfth fallible call, the registry's ensure of a Hello,
fails. -/
def sample_ensure_fails : BusState :=
  { sample_state with script := List.replicate 11 none ++ [some sample_oom] }

/-- The bus after connection 3 has said `sample_hello` to
`sample_ensure_fails`. -/
def sample_after_failed_ensure : BusState :=
  { sample_state with
    next_major_number := 1, next_minor_number := 1,
    connections := [{ connection := 3, name := some ":1.0", n_match_rules := 0,
                      unix_user := none, unix_process_id := none }],
    transaction := [(3, sample_welcome)],
    calls := [.check_limits 3, .connection_complete 3 ":1.0",
              .transaction_send 3 sample_welcome, .registry_ensure ":1.0" 3],
    error := some sample_oom }

/-- What the driver's other assertions rely on: the counters of
`create_unique_client_name` can still be advanced once for each registry entry
without MAJOR leaving the range of a C `int`, and the unique name of every
primary owner in the registry starts with a colon. -/
def driver_invariant (w : BusState) : Prop :=
  int_range w.next_minor_number ∧ 0 ≤ w.next_major_number ∧
  (0 < w.next_major_number ∨ w.next_minor_number ≤ 0) ∧
  w.next_major_number + w.registry.length < 2147483647 ∧
  ∀ text serv base, bus_registry_lookup w text = some serv →
    bus_connection_get_name w serv.primary_owner = some base →
    base.data.head? = some ':'
/-! ## State bookkeeping -/

@[simp] theorem pop_next_error (w : BusState) :
    w.pop.next_error = w.script.tail.head?.join := rfl

@[simp] theorem record_next_error (w : BusState) (c : Call) :
    (w.record c).next_error = w.next_error := rfl

@[simp] theorem dbus_set_error_eq (w : BusState) (name message : String) :
    dbus_set_error w name message = w.set_error ⟨name, message⟩ := rfl

@[simp] theorem BUS_SET_OOM_eq (w : BusState) :
    BUS_SET_OOM w = w.set_error ⟨DBUS_ERROR_NO_MEMORY, bus_no_memory_message⟩ := rfl

theorem append_ok (w : BusState) (str s : String) (h : w.next_error = none) :
    _dbus_string_append w str s = (true, str ++ s, w.pop) := by
  simp [_dbus_string_append, BusState.alloc, h]

theorem append_int_ok (w : BusState) (str : String) (v : Int) (h : w.next_error = none) :
    _dbus_string_append_int w str v = (true, str ++ int_to_string v, w.pop) := by
  simp [_dbus_string_append_int, append_ok, h]

/-! ## The dispatcher: wrong signature, unknown method -/

theorem lookup_message_handlers (name in_args : String)
    (h : (name, in_args) ∈ table_signatures message_handlers) :
    (table_signatures message_handlers).lookup name = some in_args := by
  simp only [table_signatures, message_handlers, List.map, List.mem_cons, Prod.mk.injEq,
    List.mem_nil_iff, or_false] at h
  rcases h with h | h | h | h | h | h | h | h | h | h | h <;>
    (obtain ⟨rfl, rfl⟩ := h; rfl)

theorem dispatch_wrong_signature (w : BusState) (connection : Nat) (message : DBusMessage)
    (name in_args : String) (herr : w.error = none)
    (hsig : dbus_message_has_signature message in_args = false) :
    ∀ table : List MessageHandler, (table_signatures table).lookup name = some in_args →
      dispatch w connection message name table =
        .returned (false, dbus_set_error w DBUS_ERROR_INVALID_ARGS
          ("Call to " ++ name ++ " has wrong args (" ++ dbus_message_get_signature message ++
            ", expected " ++ in_args ++ ")\n")) := by
  intro table
  induction table with
  | nil => intro h; simp [table_signatures] at h
  | cons h rest ih =>
    intro hl
    simp only [table_signatures, List.map, List.lookup] at hl
    by_cases hn : h.name = name
    · have : (name == h.name) = true := by simp [hn]
      rw [this] at hl
      simp only [Option.some.injEq] at hl
      simp [dispatch, hn, hl, hsig, herr, return_failed, BusState.set_error]
    · have : (name == h.name) = false := by simp [Ne.symm hn]
      rw [this] at hl
      simp only [dispatch, hn, if_false]
      exact ih hl

theorem mem_message_handlers_ne_introspect (name in_args : String)
    (h : (name, in_args) ∈ table_signatures message_handlers) : name ≠ "Introspect" := by
  simp only [table_signatures, message_handlers, List.map, List.mem_cons, Prod.mk.injEq,
    List.mem_nil_iff, or_false] at h
  rcases h with h | h | h | h | h | h | h | h | h | h | h <;>
    (obtain ⟨rfl, rfl⟩ := h; decide)

theorem not_introspect_call (message : DBusMessage) (name : String)
    (hmember : message.member = some name) (hname : name ≠ "Introspect") :
    dbus_message_is_method_call message DBUS_INTERFACE_INTROSPECTABLE "Introspect" = false := by
  simp [dbus_message_is_method_call, hmember, hname]

/-- C1: a method call to the control interface whose member names a dispatch
table entry but whose signature differs from the entry's in-signature fails
with InvalidArgs; the result is the entry state with only the error set, and it
is the same whatever handlers the table holds, so no handler runs. -/
theorem handle_message_wrong_signature (w : BusState) (connection : Nat)
    (message : DBusMessage) (entry : MessageHandler)
    (herr : w.error = none)
    (htype : dbus_message_get_type message = DBUS_MESSAGE_TYPE_METHOD_CALL)
    (hiface : message.interface = none ∨ message.interface = some DBUS_INTERFACE_DBUS)
    (hentry : entry ∈ message_handlers)
    (hmember : message.member = some entry.name)
    (hsender : message.sender.isSome = true ∨ entry.name = "Hello")
    (hsig : dbus_message_get_signature message ≠ entry.in_args) :
    bus_driver_handle_message w connection message =
        .returned (false, { w with error := some ⟨DBUS_ERROR_INVALID_ARGS,
          "Call to " ++ entry.name ++ " has wrong args (" ++
            dbus_message_get_signature message ++ ", expected " ++ entry.in_args ++ ")\n"⟩ }) ∧
    ∀ table : List MessageHandler,
      table_signatures table = table_signatures message_handlers →
      bus_driver_handle_message_with table w connection message =
        bus_driver_handle_message w connection message := by
  have hmem : (entry.name, entry.in_args) ∈ table_signatures message_handlers :=
    List.mem_map_of_mem (fun h => (h.name, h.in_args)) hentry
  have hintro := not_introspect_call message entry.name hmember
    (mem_message_handlers_ne_introspect _ _ hmem)
  have hhas : dbus_message_has_signature message entry.in_args = false := by
    simp [dbus_message_has_signature, hsig]
  have hifc : message.interface.getD DBUS_INTERFACE_DBUS = DBUS_INTERFACE_DBUS := by
    rcases hiface with h | h <;> simp [h]
  have hsnd : (message.sender.isSome || entry.name == "Hello") = true := by
    rcases hsender with h | h <;> simp [h]
  have key : ∀ table : List MessageHandler,
      table_signatures table = table_signatures message_handlers →
      bus_driver_handle_message_with table w connection message =
        .returned (false, dbus_set_error w DBUS_ERROR_INVALID_ARGS
          ("Call to " ++ entry.name ++ " has wrong args (" ++
            dbus_message_get_signature message ++ ", expected " ++ entry.in_args ++ ")\n")) := by
    intro table htable
    have hl := lookup_message_handlers _ _ hmem
    rw [← htable] at hl
    simp only [bus_driver_handle_message_with, herr, htype, hintro, hmember, hifc, hsnd]
    simpa using dispatch_wrong_signature w connection message entry.name entry.in_args herr hhas
      table hl
  refine ⟨key message_handlers rfl, fun table htable => ?_⟩
  rw [key table htable]
  exact (key message_handlers rfl).symm

theorem handle_message_wrong_signature_witness :
    bus_driver_handle_message sample_state 3 (sample_call "RequestName" [.string "a.b"]) =
      .returned (false, { sample_state with error := some ⟨DBUS_ERROR_INVALID_ARGS,
        "Call to RequestName has wrong args (s, expected su)\n"⟩ }) :=
  (handle_message_wrong_signature sample_state 3 (sample_call "RequestName" [.string "a.b"])
    ⟨"RequestName", "su", "u", bus_driver_handle_acquire_service⟩ rfl rfl (Or.inr rfl)
    (List.mem_cons_self _ _) rfl (Or.inl rfl) (by decide)).1

theorem set_sender_ignores_interface (w : BusState) (message : DBusMessage)
    (i s : Option String) :
    (dbus_message_set_sender w { message with interface := i } s).1 =
        (dbus_message_set_sender w message s).1 ∧
    (dbus_message_set_sender w { message with interface := i } s).2.2 =
        (dbus_message_set_sender w message s).2.2 ∧
    (dbus_message_set_sender w { message with interface := i } s).2.1 =
      { (dbus_message_set_sender w message s).2.1 with interface := i } := by
  unfold dbus_message_set_sender BusState.alloc
  cases w.next_error.isNone <;> exact ⟨rfl, rfl, rfl⟩

theorem hello_ignores_interface (w : BusState) (connection : Nat) (message : DBusMessage)
    (i : Option String) :
    bus_driver_handle_hello w connection { message with interface := i } =
      bus_driver_handle_hello w connection message := by
  unfold bus_driver_handle_hello
  split
  · rfl
  split
  · rfl
  split
  · rfl
  split
  · rfl
  split
  · rfl
  · rfl
  · rfl
  split
  · rfl
  rename_i w4 _
  obtain ⟨h1, h2, h3⟩ := set_sender_ignores_interface w4 message i
    (bus_connection_get_name w4 connection)
  rcases hA : dbus_message_set_sender w4 { message with interface := i }
    (bus_connection_get_name w4 connection) with ⟨a, ma, wa⟩
  rcases hB : dbus_message_set_sender w4 message
    (bus_connection_get_name w4 connection) with ⟨b, mb, wb⟩
  rw [hA, hB] at h1 h2 h3
  simp only at h1 h2 h3
  subst h1 h2 h3
  cases a <;> rfl

theorem dispatch_no_entry (w : BusState) (connection : Nat) (message : DBusMessage)
    (name : String) :
    ∀ table : List MessageHandler, (∀ h ∈ table, h.name ≠ name) →
      dispatch w connection message name table = unknown_method w name := by
  intro table
  induction table with
  | nil => intro _; rfl
  | cons h rest ih =>
    intro hall
    have h1 : h.name ≠ name := hall h (List.mem_cons_self _ _)
    simp only [dispatch, h1, if_false]
    exact ih (fun h' hm => hall h' (List.mem_cons_of_mem _ hm))

theorem handler_ignores_interface (h : MessageHandler) (hm : h ∈ message_handlers)
    (w : BusState) (connection : Nat) (message : DBusMessage) (i : Option String) :
    h.handler w connection { message with interface := i } =
      h.handler w connection message := by
  simp only [message_handlers, List.mem_cons, List.mem_nil_iff, or_false] at hm
  rcases hm with rfl | rfl | rfl | rfl | rfl | rfl | rfl | rfl | rfl | rfl | rfl
  case inr.inr.inl => exact hello_ignores_interface w connection message i
  all_goals rfl

theorem dispatch_ignores_interface (w : BusState) (connection : Nat) (message : DBusMessage)
    (name : String) (i : Option String) :
    ∀ table : List MessageHandler, (∀ h ∈ table, h ∈ message_handlers) →
      dispatch w connection { message with interface := i } name table =
        dispatch w connection message name table := by
  intro table
  induction table with
  | nil => intro _; rfl
  | cons h rest ih =>
    intro hall
    have e1 := handler_ignores_interface h (hall h (List.mem_cons_self _ _)) w connection message i
    have e2 := ih (fun h' hm => hall h' (List.mem_cons_of_mem _ hm))
    simp only [dispatch, e1, e2]
    rfl



/-- C2: a method call other than Introspectable.Introspect (i) to an interface
other than the control interface, or (ii) to the control interface (named or
absent) with a member that is the name of no dispatch table entry, fails with
UnknownMethod whatever handlers the table holds; and (iii) a call with no
interface gets the same result as the same call naming the control interface. -/
theorem handle_message_unknown_method (w : BusState) (connection : Nat)
    (message : DBusMessage) (name : String)
    (herr : w.error = none)
    (htype : dbus_message_get_type message = DBUS_MESSAGE_TYPE_METHOD_CALL)
    (hintro : dbus_message_is_method_call message DBUS_INTERFACE_INTROSPECTABLE "Introspect"
      = false)
    (hmember : message.member = some name) :
    (∀ i, message.interface = some i → i ≠ DBUS_INTERFACE_DBUS →
      ∀ table : List MessageHandler,
        bus_driver_handle_message_with table w connection message =
          .returned (false, { w with error := some ⟨DBUS_ERROR_UNKNOWN_METHOD,
            DBUS_SERVICE_DBUS ++ " does not understand message " ++ name⟩ })) ∧
    ((message.interface = none ∨ message.interface = some DBUS_INTERFACE_DBUS) →
      message.sender.isSome = true →
      ∀ table : List MessageHandler, (∀ h ∈ table, h.name ≠ name) →
        bus_driver_handle_message_with table w connection message =
          .returned (false, { w with error := some ⟨DBUS_ERROR_UNKNOWN_METHOD,
            DBUS_SERVICE_DBUS ++ " does not understand message " ++ name⟩ })) ∧
    (message.interface = none →
      bus_driver_handle_message w connection message =
        bus_driver_handle_message w connection
          { message with interface := some DBUS_INTERFACE_DBUS }) := by
  refine ⟨?_, ?_, ?_⟩
  · intro i hi hne table
    simp [bus_driver_handle_message_with, herr, htype, hintro, hmember, hi, hne,
      unknown_method, BusState.set_error]
  · intro hiface hsender table hall
    have hifc : message.interface.getD DBUS_INTERFACE_DBUS = DBUS_INTERFACE_DBUS := by
      rcases hiface with h | h <;> simp [h]
    simp only [bus_driver_handle_message_with, herr, htype, hintro, hmember, hifc, hsender]
    simpa [unknown_method, BusState.set_error] using
      dispatch_no_entry w connection message name table hall
  · intro hnone
    obtain ⟨ty, serial, rs, iface, member, sender, dest, body⟩ := message
    simp only [dbus_message_get_type] at hnone hmember htype
    subst hnone hmember htype
    have hname : name ≠ "Introspect" := by
      intro hn
      simp [dbus_message_is_method_call, dbus_message_get_type, hn] at hintro
    have hd : dispatch w connection
        ⟨DBUS_MESSAGE_TYPE_METHOD_CALL, serial, rs, some DBUS_INTERFACE_DBUS, some name, sender,
          dest, body⟩ name message_handlers = _ :=
      dispatch_ignores_interface w connection
        ⟨DBUS_MESSAGE_TYPE_METHOD_CALL, serial, rs, none, some name, sender, dest, body⟩ name
        (some DBUS_INTERFACE_DBUS) message_handlers (fun _ h => h)
    simp only [bus_driver_handle_message, bus_driver_handle_message_with, herr,
      dbus_message_get_type, dbus_message_is_method_call, hd]
    simp [hname]

theorem handle_message_unknown_method_witness :
    bus_driver_handle_message sample_state 3
        { sample_call "ListNames" [] with interface := some "org.example.Other" } =
      .returned (false, { sample_state with error := some ⟨DBUS_ERROR_UNKNOWN_METHOD,
        "org.freedesktop.DBus does not understand message ListNames"⟩ }) ∧
    bus_driver_handle_message sample_state 3 (sample_call "listnames" []) =
      .returned (false, { sample_state with error := some ⟨DBUS_ERROR_UNKNOWN_METHOD,
        "org.freedesktop.DBus does not understand message listnames"⟩ }) ∧
    bus_driver_handle_message sample_state 3
        { sample_call "ListNames" [] with interface := none } =
      bus_driver_handle_message sample_state 3 (sample_call "ListNames" []) :=
  ⟨(handle_message_unknown_method sample_state 3
      { sample_call "ListNames" [] with interface := some "org.example.Other" } "ListNames"
      rfl rfl rfl rfl).1 "org.example.Other" rfl (by decide) message_handlers,
   (handle_message_unknown_method sample_state 3 (sample_call "listnames" []) "listnames"
      rfl rfl rfl rfl).2.1 (Or.inr rfl) rfl message_handlers (by decide),
   (handle_message_unknown_method sample_state 3
      { sample_call "ListNames" [] with interface := none } "ListNames"
      rfl rfl rfl rfl).2.2 rfl⟩

/-! ## Hello: rejected by a precheck -/

/-- C3: a Hello rejected by a precheck changes nothing. On an active connection
it fails with Failed and only the error differs from the entry state. On an
inactive connection whose limits check fails it returns the state the limits
collaborator left, with that collaborator's error, and the connection's data,
the name counters, the registry and the transaction's queue are as before. -/
theorem hello_rejected_changes_nothing (w : BusState) (connection : Nat)
    (message : DBusMessage) (herr : w.error = none) :
    (bus_connection_is_active w connection = true →
      bus_driver_handle_hello w connection message =
        .returned (false, { w with error := some ⟨DBUS_ERROR_FAILED,
          "Already handled an Hello message"⟩ })) ∧
    (∀ w1, bus_connection_is_active w connection = false →
      bus_connections_check_limits w connection = (false, w1) →
      bus_driver_handle_hello w connection message = .returned (false, w1) ∧
      (∃ e, w.next_error = some e ∧ w1.error = some e) ∧
      w1.connections = w.connections ∧
      bus_connection_is_active w1 connection = false ∧
      bus_connection_get_name w1 connection = bus_connection_get_name w connection ∧
      w1.next_major_number = w.next_major_number ∧
      w1.next_minor_number = w.next_minor_number ∧
      w1.registry = w.registry ∧
      w1.transaction = w.transaction) := by
  refine ⟨fun hact => ?_, fun w1 hact hlim => ?_⟩
  · simp [bus_driver_handle_hello, herr, hact, BusState.set_error]
  · have hw1 : ∃ e, w.next_error = some e ∧
        w1 = { (w.record (.check_limits connection)).pop with error := some e } := by
      simp only [bus_connections_check_limits, BusState.collaborator] at hlim
      have hn : (w.record (.check_limits connection)).next_error = w.next_error := rfl
      rw [hn] at hlim
      cases he : w.next_error with
      | none => rw [he] at hlim; simp at hlim
      | some e => rw [he] at hlim; simp at hlim; exact ⟨e, rfl, hlim.symm⟩
    obtain ⟨e, he, rfl⟩ := hw1
    refine ⟨?_, ⟨e, he, rfl⟩, rfl, hact, rfl, rfl, rfl, rfl, rfl⟩
    simp [bus_driver_handle_hello, herr, hact, hlim, return_failed]

theorem hello_rejected_changes_nothing_witness :
    bus_driver_handle_hello sample_active_state 3 sample_hello =
      .returned (false, { sample_active_state with error := some ⟨DBUS_ERROR_FAILED,
        "Already handled an Hello message"⟩ }) ∧
    bus_driver_handle_hello { sample_state with script := [some sample_limit_error] } 3
        sample_hello =
      .returned (false, { sample_state with error := some sample_limit_error,
                                            calls := [.check_limits 3] }) :=
  ⟨(hello_rejected_changes_nothing sample_active_state 3 sample_hello rfl).1 rfl,
   ((hello_rejected_changes_nothing { sample_state with script := [some sample_limit_error] }
      3 sample_hello rfl).2 _ rfl rfl).1⟩

/-! ## Unique names never repeat -/

theorem digitChar_value (d : Nat) (h : d < 10) : (Nat.digitChar d).toNat - 48 = d := by
  interval_cases d <;> rfl

theorem digitChar_ne_dot (d : Nat) (h : d < 10) : Nat.digitChar d ≠ '.' := by
  interval_cases d <;> decide

theorem toDigitsCore_append (fuel : Nat) :
    ∀ (n : Nat) (ds : List Char),
      Nat.toDigitsCore 10 fuel n ds = Nat.toDigitsCore 10 fuel n [] ++ ds := by
  induction fuel with
  | zero => intro n ds; simp [Nat.toDigitsCore]
  | succ f ih =>
    intro n ds
    simp only [Nat.toDigitsCore]
    split
    · simp
    · rw [ih (n / 10) (Nat.digitChar (n % 10) :: ds), ih (n / 10) [Nat.digitChar (n % 10)]]
      simp

theorem toDigitsCore_value (fuel : Nat) :
    ∀ n : Nat, n < fuel → digits_value (Nat.toDigitsCore 10 fuel n []) = n := by
  induction fuel with
  | zero => intro n h; omega
  | succ f ih =>
    intro n h
    simp only [Nat.toDigitsCore]
    split
    · rename_i h0
      have h10 : n < 10 := by omega
      have : n % 10 = n := by omega
      simp [digits_value, this, digitChar_value n h10]
    · rename_i h0
      rw [toDigitsCore_append]
      have hlt : n / 10 < f := by omega
      have := ih (n / 10) hlt
      simp only [digits_value, List.foldl_append, List.foldl_cons, List.foldl_nil] at this ⊢
      rw [this, digitChar_value (n % 10) (Nat.mod_lt _ (by decide))]
      omega

theorem toDigitsCore_no_dot (fuel : Nat) :
    ∀ (n : Nat) (ds : List Char), '.' ∉ ds → '.' ∉ Nat.toDigitsCore 10 fuel n ds := by
  induction fuel with
  | zero => intro n ds h; simpa [Nat.toDigitsCore] using h
  | succ f ih =>
    intro n ds h
    have hd : '.' ∉ Nat.digitChar (n % 10) :: ds := by
      simp only [List.mem_cons, not_or]
      exact ⟨(digitChar_ne_dot _ (Nat.mod_lt _ (by decide))).symm, h⟩
    simp only [Nat.toDigitsCore]
    split
    · exact hd
    · exact ih _ _ hd

theorem repr_injective (a b : Nat) (h : Nat.repr a = Nat.repr b) : a = b := by
  have hd : Nat.toDigits 10 a = Nat.toDigits 10 b := by
    have := congrArg String.data h
    simpa [Nat.repr, List.asString] using this
  have ha := toDigitsCore_value (a + 1) a (Nat.lt_succ_self a)
  have hb := toDigitsCore_value (b + 1) b (Nat.lt_succ_self b)
  simp only [Nat.toDigits] at hd
  rw [hd] at ha
  omega

theorem repr_no_dot (a : Nat) : '.' ∉ (Nat.repr a).data := by
  simpa [Nat.repr, List.asString, Nat.toDigits] using toDigitsCore_no_dot (a + 1) a [] (by simp)

theorem split_at_dot (l1 : List Char) :
    ∀ (l2 r1 r2 : List Char), '.' ∉ l1 → '.' ∉ l2 → l1 ++ '.' :: r1 = l2 ++ '.' :: r2 →
      l1 = l2 ∧ r1 = r2 := by
  induction l1 with
  | nil =>
    intro l2 r1 r2 _ h2 h
    cases l2 with
    | nil => simpa using h
    | cons c l2 =>
      simp only [List.nil_append, List.cons_append, List.cons.injEq] at h
      simp [← h.1] at h2
  | cons c l1 ih =>
    intro l2 r1 r2 h1 h2 h
    cases l2 with
    | nil =>
      simp only [List.nil_append, List.cons_append, List.cons.injEq] at h
      simp [h.1] at h1
    | cons d l2 =>
      simp only [List.cons_append, List.cons.injEq] at h
      simp only [List.mem_cons, not_or] at h1 h2
      obtain ⟨e1, e2⟩ := ih l2 r1 r2 h1.2 h2.2 h.2
      exact ⟨by rw [h.1, e1], e2⟩

theorem unique_name_suffix_injective (str : String) (M m M' m' : Int)
    (hM : 0 ≤ M) (hm : 0 ≤ m) (hM' : 0 ≤ M') (hm' : 0 ≤ m')
    (h : str ++ unique_name_suffix M m = str ++ unique_name_suffix M' m') :
    M = M' ∧ m = m' := by
  have e1 : int_to_string M = Nat.repr M.toNat := by simp [int_to_string, not_lt.mpr hM]
  have e2 : int_to_string m = Nat.repr m.toNat := by simp [int_to_string, not_lt.mpr hm]
  have e3 : int_to_string M' = Nat.repr M'.toNat := by simp [int_to_string, not_lt.mpr hM']
  have e4 : int_to_string m' = Nat.repr m'.toNat := by simp [int_to_string, not_lt.mpr hm']
  have hd := congrArg String.data h
  simp only [unique_name_suffix, e1, e2, e3, e4, String.data_append,
    List.append_cancel_left_eq] at hd
  have hd' : (Nat.repr M.toNat).data ++ '.' :: (Nat.repr m.toNat).data =
      (Nat.repr M'.toNat).data ++ '.' :: (Nat.repr m'.toNat).data := by
    simpa using hd
  obtain ⟨a, b⟩ := split_at_dot _ _ _ _ (repr_no_dot _) (repr_no_dot _) hd'
  have a' := repr_injective _ _ (String.ext a)
  have b' := repr_injective _ _ (String.ext b)
  omega

theorem append_true (w : BusState) (str s : String) (s1 : String) (w1 : BusState)
    (h : _dbus_string_append w str s = (true, s1, w1)) : s1 = str ++ s ∧ w1 = w.pop := by
  simp only [_dbus_string_append, BusState.alloc] at h
  cases hn : w.next_error.isNone <;> simp [hn] at h
  exact ⟨h.1.symm, h.2.symm⟩

theorem loop_succ (start : String) (fuel : Nat) (w : BusState) :
    create_unique_client_name_loop start (fuel + 1) w =
      if w.next_minor_number ≤ 0 ∧ (normalised w).next_major_number ≤ 0 then .assertion_failed
      else if ¬ ((normalised w).next_major_number > 0) then .assertion_failed
      else if ¬ ((normalised w).next_minor_number ≥ 0) then .assertion_failed
      else
        match _dbus_string_append (normalised w) start ":" with
        | (false, s1, w1) => .returned (false, s1, w1)
        | (true, s1, w1) =>
          match _dbus_string_append_int w1 s1 w1.next_major_number with
          | (false, s2, w2) => .returned (false, s2, w2)
          | (true, s2, w2) =>
            match _dbus_string_append w2 s2 "." with
            | (false, s3, w3) => .returned (false, s3, w3)
            | (true, s3, w3) =>
              match _dbus_string_append_int w3 s3 w3.next_minor_number with
              | (false, s4, w4) => .returned (false, s4, w4)
              | (true, s4, w4) =>
                if (bus_registry_lookup
                    { w4 with next_minor_number := wrap_int (w4.next_minor_number + 1) }
                    s4).isNone then
                  .returned (true, s4,
                    { w4 with next_minor_number := wrap_int (w4.next_minor_number + 1) })
                else create_unique_client_name_loop start fuel
                    { w4 with next_minor_number := wrap_int (w4.next_minor_number + 1) } := rfl

theorem normalised_counters (w : BusState) :
    ((normalised w).next_major_number, (normalised w).next_minor_number) =
      next_position w.next_major_number w.next_minor_number ∧
    (normalised w).registry = w.registry := by
  unfold normalised next_position
  split <;> exact ⟨rfl, rfl⟩

theorem wrap_int_range (x : Int) : int_range (wrap_int x) := by
  unfold wrap_int int_range
  omega

theorem lex_lt_of_next (A a M m : Int) (hA : int_range A) (ha : int_range a) (h0 : 0 ≤ a)
    (hApos : 0 < A) (h1 : 0 < (next_position A (wrap_int (a + 1))).1)
    (h2 : next_position A (wrap_int (a + 1)) = (M, m) ∨
      lex_lt (next_position A (wrap_int (a + 1))) (M, m)) :
    lex_lt (A, a) (M, m) := by
  obtain ⟨r1, r2⟩ := hA
  obtain ⟨r3, r4⟩ := ha
  unfold next_position at h1 h2
  simp only [lex_lt]
  split at h1
  · rename_i hw
    simp only [if_pos hw, Prod.mk.injEq] at h2
    unfold wrap_int at h1 h2 hw
    rcases h2 with h2 | h2 <;> omega
  · rename_i hw
    simp only [if_neg hw, Prod.mk.injEq] at h2
    unfold wrap_int at h1 h2 hw
    rcases h2 with h2 | h2 <;> omega

theorem loop_spec (start : String) :
    ∀ (fuel : Nat) (w : BusState) (name : String) (w' : BusState),
      create_unique_client_name_loop start fuel w = .returned (true, name, w') →
      ∃ M m : Int, name = start ++ unique_name_suffix M m ∧ 0 < M ∧ 0 ≤ m ∧
        w'.next_major_number = M ∧ w'.next_minor_number = wrap_int (m + 1) ∧
        bus_registry_lookup w' name = none ∧ w'.registry = w.registry ∧
        (int_range w.next_major_number → int_range w.next_minor_number →
          int_range M ∧ int_range m ∧
          0 < (next_position w.next_major_number w.next_minor_number).1 ∧
          ((next_position w.next_major_number w.next_minor_number) = (M, m) ∨
            lex_lt (next_position w.next_major_number w.next_minor_number) (M, m))) := by
  intro fuel
  induction fuel with
  | zero => intro w name w' h; simp [create_unique_client_name_loop] at h
  | succ f ih =>
    intro w name w' h
    rw [loop_succ] at h
    obtain ⟨hpos, hreg⟩ := normalised_counters w
    generalize normalised w = w0 at h hpos hreg
    split at h
    · simp at h
    split at h
    · simp at h
    split at h
    · simp at h
    rename_i hA2 hA3
    have hA0 : 0 ≤ w0.next_minor_number := by
      have hpos' := hpos
      simp only [next_position] at hpos'
      split at hpos'
      · simp only [Prod.mk.injEq] at hpos'
        rw [hpos'.2]
      · simp only [Prod.mk.injEq] at hpos'
        rw [hpos'.2]
        omega
    have hA : int_range w.next_major_number → int_range w.next_minor_number →
        int_range w0.next_major_number ∧ int_range w0.next_minor_number := by
      intro hM hm
      have hpos' := hpos
      simp only [next_position] at hpos'
      split at hpos'
      · simp only [Prod.mk.injEq] at hpos'
        rw [hpos'.1, hpos'.2]
        exact ⟨wrap_int_range _, by decide⟩
      · simp only [Prod.mk.injEq] at hpos'
        rw [hpos'.1, hpos'.2]
        exact ⟨hM, hm⟩
    split at h
    · simp at h
    rename_i s1 w1 h1
    split at h
    · simp at h
    rename_i s2 w2 h2
    split at h
    · simp at h
    rename_i s3 w3 h3
    split at h
    · simp at h
    rename_i s4 w4 h4
    obtain ⟨rfl, rfl⟩ := append_true _ _ _ _ _ h1
    obtain ⟨rfl, rfl⟩ := append_true _ _ _ _ _ h2
    obtain ⟨rfl, rfl⟩ := append_true _ _ _ _ _ h3
    obtain ⟨rfl, rfl⟩ := append_true _ _ _ _ _ h4
    have hname : start ++ ":" ++ int_to_string w0.next_major_number ++ "." ++
        int_to_string w0.next_minor_number =
        start ++ unique_name_suffix w0.next_major_number w0.next_minor_number := by
      simp [unique_name_suffix, String.append_assoc]
    have hApos : 0 < w0.next_major_number := by simpa using hA2
    split at h
    · rename_i hfree
      simp only [Outcome.returned.injEq, Prod.mk.injEq] at h
      obtain ⟨-, hn, hw⟩ := h
      refine ⟨w0.next_major_number, w0.next_minor_number, ?_, hApos, hA0, ?_, ?_, ?_, ?_, ?_⟩
      · rw [← hn]; exact hname
      · rw [← hw]; rfl
      · rw [← hw]; rfl
      · rw [← hw, ← hn]; simpa using hfree
      · rw [← hw]; simpa using hreg
      · intro hM hm
        refine ⟨(hA hM hm).1, (hA hM hm).2, ?_, Or.inl hpos.symm⟩
        rw [← hpos]; exact hApos
    · obtain ⟨M, m, e1, e2, e3, e6, e7, e10, e11, e12⟩ := ih _ name w' h
      refine ⟨M, m, e1, e2, e3, e6, e7, e10, ?_, ?_⟩
      · rw [e11]; simpa using hreg
      · intro hM hm
        obtain ⟨e4, e5, e8, e9⟩ := e12 (hA hM hm).1 (wrap_int_range _)
        refine ⟨e4, e5, ?_, Or.inr ?_⟩
        · rw [← hpos]; exact hApos
        · rw [← hpos]
          simp only [BusState.pop_next_major_number, BusState.pop_next_minor_number] at e8 e9
          exact lex_lt_of_next _ _ _ _ (hA hM hm).1 (hA hM hm).2 hA0 hApos e8 e9

theorem allocations_aux (str : String) :
    ∀ run : List (BusState × String × BusState),
      (∀ t ∈ run, create_unique_client_name t.1 str = .returned (true, t.2.1, t.2.2)) →
      (∀ t ∈ run, int_range t.1.next_major_number ∧ int_range t.1.next_minor_number) →
      run.Chain' (fun a b => b.1.next_major_number = a.2.2.next_major_number ∧
        b.1.next_minor_number = a.2.2.next_minor_number) →
      ∃ pairs : List (Int × Int),
        run.map (fun t => t.2.1) = pairs.map (fun p => str ++ unique_name_suffix p.1 p.2) ∧
        pairs.Pairwise lex_lt ∧
        (∀ p ∈ pairs, 0 ≤ p.1 ∧ 0 ≤ p.2) ∧
        (∀ t, run.head? = some t → ∀ p ∈ pairs,
          next_position t.1.next_major_number t.1.next_minor_number = p ∨
          lex_lt (next_position t.1.next_major_number t.1.next_minor_number) p) := by
  intro run
  induction run with
  | nil => intro _ _ _; exact ⟨[], rfl, List.Pairwise.nil, by simp, by simp⟩
  | cons t rest ih =>
    intro hcalls hrange hchain
    obtain ⟨pairs, hnames, hpw, hnn, hhead⟩ := ih
      (fun t' ht' => hcalls t' (List.mem_cons_of_mem _ ht'))
      (fun t' ht' => hrange t' (List.mem_cons_of_mem _ ht'))
      (List.Chain'.tail hchain)
    obtain ⟨M, m, e1, e2, e3, e6, e7, -, -, e12⟩ :=
      loop_spec str _ t.1 t.2.1 t.2.2 (hcalls t (List.mem_cons_self _ _))
    obtain ⟨e4, e5, e8, e9⟩ := e12 (hrange t (List.mem_cons_self _ _)).1
      (hrange t (List.mem_cons_self _ _)).2
    have hlt : ∀ p ∈ pairs, lex_lt (M, m) p := by
      intro p hp
      cases rest with
      | nil =>
        simp only [List.map_nil] at hnames
        have : pairs = [] := by simpa using hnames.symm
        simp [this] at hp
      | cons t2 rest' =>
        have hc := List.Chain'.rel_head hchain
        obtain ⟨M2, m2, -, -, -, -, -, -, -, f12⟩ :=
          loop_spec str _ t2.1 t2.2.1 t2.2.2
            (hcalls t2 (List.mem_cons_of_mem _ (List.mem_cons_self _ _)))
        obtain ⟨-, -, f8, -⟩ := f12
          (hrange t2 (List.mem_cons_of_mem _ (List.mem_cons_self _ _))).1
          (hrange t2 (List.mem_cons_of_mem _ (List.mem_cons_self _ _))).2
        have hh := hhead t2 rfl p hp
        rw [hc.1, hc.2, e6, e7] at f8 hh
        exact lex_lt_of_next M m p.1 p.2 e4 e5 e3 e2 f8 hh
    refine ⟨(M, m) :: pairs, ?_, ?_, ?_, ?_⟩
    · simp only [List.map_cons, hnames, e1]
    · exact List.Pairwise.cons hlt hpw
    · intro p hp
      rcases List.mem_cons.mp hp with rfl | hp
      · exact ⟨le_of_lt e2, e3⟩
      · exact hnn p hp
    · intro t' ht' p hp
      simp only [List.head?_cons, Option.some.injEq] at ht'
      subst ht'
      rcases List.mem_cons.mp hp with rfl | hp
      · exact e9
      · right
        have h1 := hlt p hp
        simp only [lex_lt] at h1 ⊢
        rcases e9 with e9 | e9
        · rw [e9]; exact h1
        · simp only [lex_lt] at e9
          omega

/-- C4: in every sequence of successful calls of `create_unique_client_name`,
each starting from the counters the previous call left and each with a registry
of its own, the returned names are `str` followed by `:MAJOR.MINOR` for pairs
that strictly increase in lexicographic order, and no name is returned twice. -/
theorem unique_names_strictly_increasing (str : String)
    (run : List (BusState × String × BusState))
    (hcalls : ∀ t ∈ run, create_unique_client_name t.1 str = .returned (true, t.2.1, t.2.2))
    (hrange : ∀ t ∈ run, int_range t.1.next_major_number ∧ int_range t.1.next_minor_number)
    (hchain : run.Chain' (fun a b => b.1.next_major_number = a.2.2.next_major_number ∧
      b.1.next_minor_number = a.2.2.next_minor_number)) :
    ∃ pairs : List (Int × Int),
      run.map (fun t => t.2.1) = pairs.map (fun p => str ++ unique_name_suffix p.1 p.2) ∧
      pairs.Pairwise lex_lt ∧
      (run.map (fun t => t.2.1)).Nodup := by
  obtain ⟨pairs, hnames, hpw, hnn, -⟩ := allocations_aux str run hcalls hrange hchain
  refine ⟨pairs, hnames, hpw, ?_⟩
  rw [hnames, List.Nodup, List.pairwise_map]
  refine List.Pairwise.imp_of_mem ?_ hpw
  intro p q hp hq hlt heq
  obtain ⟨a, b⟩ := unique_name_suffix_injective str p.1 p.2 q.1 q.2 (hnn p hp).1 (hnn p hp).2
    (hnn q hq).1 (hnn q hq).2 heq
  simp only [lex_lt] at hlt
  omega

theorem unique_names_strictly_increasing_witness :
    ∃ pairs : List (Int × Int),
      [":1.0", ":1.2", ":1.3"] = pairs.map (fun p => "" ++ unique_name_suffix p.1 p.2) ∧
      pairs.Pairwise lex_lt ∧ [":1.0", ":1.2", ":1.3"].Nodup :=
  unique_names_strictly_increasing "" sample_run (by decide) (by decide)
    (List.chain'_cons.2 ⟨⟨rfl, rfl⟩, List.chain'_cons.2 ⟨⟨rfl, rfl⟩, List.chain'_singleton _⟩⟩)

/-! ## The allocation loop terminates -/

theorem countP_lt_of_witness {α : Type} (p q : α → Bool) :
    ∀ (l : List α) (x : α), x ∈ l → (∀ y ∈ l, p y = true → q y = true) →
      q x = true → p x = false → l.countP p < l.countP q := by
  intro l
  induction l with
  | nil => intro x hx; simp at hx
  | cons a t ih =>
    intro x hx hsub hq hp
    have hmono : t.countP p ≤ t.countP q :=
      List.countP_mono_left (fun y hy h => hsub y (List.mem_cons_of_mem _ hy) h)
    rcases List.mem_cons.mp hx with rfl | hxt
    · rw [List.countP_cons_of_neg _ _ (by simp [hp]), List.countP_cons_of_pos _ _ hq]
      omega
    · have := ih x hxt (fun y hy h => hsub y (List.mem_cons_of_mem _ hy) h) hq hp
      by_cases hpa : p a = true
      · rw [List.countP_cons_of_pos _ _ hpa,
          List.countP_cons_of_pos _ _ (hsub a (List.mem_cons_self _ _) hpa)]
        omega
      · rw [List.countP_cons_of_neg _ _ hpa]
        by_cases hqa : q a = true
        · rw [List.countP_cons_of_pos _ _ hqa]; omega
        · rw [List.countP_cons_of_neg _ _ hqa]; exact this

open Classical in
theorem loop_has_fuel (start : String) :
    ∀ (fuel : Nat) (w : BusState),
      int_range w.next_major_number → int_range w.next_minor_number →
      w.registry.countP (fun s => decide (later_candidate start
        (next_position w.next_major_number w.next_minor_number) s.name)) < fuel →
      create_unique_client_name_loop start fuel w ≠ .out_of_fuel := by
  intro fuel
  induction fuel with
  | zero => intro w _ _ h; omega
  | succ f ih =>
    intro w hM hm hcount
    rw [loop_succ]
    obtain ⟨hpos, hreg⟩ := normalised_counters w
    have hpos1 : (normalised w).next_major_number =
        (next_position w.next_major_number w.next_minor_number).1 := by rw [← hpos]
    have hpos2 : (normalised w).next_minor_number =
        (next_position w.next_major_number w.next_minor_number).2 := by rw [← hpos]
    have hA : int_range (normalised w).next_major_number ∧
        int_range (normalised w).next_minor_number ∧ 0 ≤ (normalised w).next_minor_number := by
      rw [hpos1, hpos2]
      unfold next_position
      split
      · exact ⟨wrap_int_range _, ⟨by simp, by simp⟩, le_refl _⟩
      · exact ⟨hM, hm, by simp only; omega⟩
    generalize normalised w = w0 at hpos hreg hpos1 hpos2 hA
    split
    · simp
    split
    · simp
    split
    · simp
    rename_i hA2 hA3
    have hApos : 0 < w0.next_major_number := by simpa using hA2
    split
    · simp
    rename_i s1 w1 h1
    split
    · simp
    rename_i s2 w2 h2
    split
    · simp
    rename_i s3 w3 h3
    split
    · simp
    rename_i s4 w4 h4
    obtain ⟨rfl, rfl⟩ := append_true _ _ _ _ _ h1
    obtain ⟨rfl, rfl⟩ := append_true _ _ _ _ _ h2
    obtain ⟨rfl, rfl⟩ := append_true _ _ _ _ _ h3
    obtain ⟨rfl, rfl⟩ := append_true _ _ _ _ _ h4
    split
    · simp
    rename_i hcoll
    -- the colliding registry entry
    have hname : start ++ ":" ++ int_to_string w0.next_major_number ++ "." ++
        int_to_string w0.next_minor_number =
        start ++ unique_name_suffix w0.next_major_number w0.next_minor_number := by
      simp [unique_name_suffix, String.append_assoc]
    simp only [BusState.pop_next_major_number, BusState.pop_next_minor_number, hname] at hcoll ⊢
    have hfound : ∃ s0 ∈ w.registry,
        s0.name = start ++ unique_name_suffix w0.next_major_number w0.next_minor_number := by
      cases hl : List.find? (fun s => s.name ==
          start ++ unique_name_suffix w0.next_major_number w0.next_minor_number) w.registry with
      | none =>
        exfalso
        apply hcoll
        simp [bus_registry_lookup, hreg, hl]
      | some s0 =>
        exact ⟨s0, List.mem_of_find?_eq_some hl, by simpa using List.find?_some hl⟩
    obtain ⟨s0, hs0, hs0n⟩ := hfound
    have hin : later_candidate start (next_position w.next_major_number w.next_minor_number)
        s0.name :=
      ⟨w0.next_major_number, w0.next_minor_number, Or.inl hpos.symm, le_of_lt hApos, hA.2.2,
        hs0n⟩
    by_cases hvalid : 0 < (next_position w0.next_major_number
        (wrap_int (w0.next_minor_number + 1))).1
    · apply ih
      · exact hA.1
      · exact wrap_int_range _
      · have hlt : w.registry.countP (fun s => decide (later_candidate start
            (next_position w0.next_major_number (wrap_int (w0.next_minor_number + 1))) s.name))
            < w.registry.countP (fun s => decide (later_candidate start
              (next_position w.next_major_number w.next_minor_number) s.name)) := by
          refine countP_lt_of_witness _ _ w.registry s0 hs0 ?_ (by simpa using hin) ?_
          · intro y _ hy
            simp only [decide_eq_true_eq] at hy ⊢
            obtain ⟨M, m, hge, h1, h2, h3⟩ := hy
            have := lex_lt_of_next _ _ M m hA.1 hA.2.1 hA.2.2 hApos hvalid hge
            exact ⟨M, m, Or.inr (by rw [← hpos]; exact this), h1, h2, h3⟩
          · simp only [decide_eq_false_iff_not]
            rintro ⟨M, m, hge, h1, h2, h3⟩
            have hlt := lex_lt_of_next _ _ M m hA.1 hA.2.1 hA.2.2 hApos hvalid hge
            rw [hs0n] at h3
            obtain ⟨e1, e2⟩ := unique_name_suffix_injective start _ _ _ _ (le_of_lt hApos)
              hA.2.2 h1 h2 h3
            simp only [lex_lt] at hlt
            omega
        simp only [BusState.pop_registry, hreg]
        omega
    · -- the next attempt stops at the overflow assertion
      have hf : 0 < f := by
        have : 0 < w.registry.countP (fun s => decide (later_candidate start
            (next_position w.next_major_number w.next_minor_number) s.name)) :=
          List.countP_pos_iff.mpr ⟨s0, hs0, by simpa using hin⟩
        omega
      obtain ⟨f', rfl⟩ : ∃ f', f = f' + 1 := ⟨f - 1, by omega⟩
      rw [loop_succ]
      have hnv : wrap_int (w0.next_minor_number + 1) ≤ 0 ∧
          wrap_int (w0.next_major_number + 1) ≤ 0 := by
        unfold next_position at hvalid
        split at hvalid
        · rename_i hw
          exact ⟨hw, by simpa using hvalid⟩
        · exact absurd hApos hvalid
      simp [normalised, hnv.1, hnv.2]

/-- The run of `create_unique_client_name` never exhausts the attempts the
embedding allows: a registry of `k` entries causes at most `k` collisions. -/
theorem create_unique_client_name_terminates (w : BusState) (str : String)
    (hM : int_range w.next_major_number) (hm : int_range w.next_minor_number) :
    create_unique_client_name w str ≠ .out_of_fuel := by
  classical
  unfold create_unique_client_name
  apply loop_has_fuel str _ w hM hm
  exact Nat.lt_succ_of_le (List.countP_le_length _)

/-! ## Hello: failure and success -/

theorem append_frame (w : BusState) (str s : String) (b : Bool) (s1 : String) (w1 : BusState)
    (h : _dbus_string_append w str s = (b, s1, w1)) : w1 = w.pop := by
  simp only [_dbus_string_append, BusState.alloc] at h
  cases hn : w.next_error.isNone <;> simp [hn] at h <;> exact h.2.2.symm

theorem loop_frame (start : String) :
    ∀ (fuel : Nat) (w : BusState) (b : Bool) (name : String) (w' : BusState),
      create_unique_client_name_loop start fuel w = .returned (b, name, w') →
      w'.registry = w.registry ∧ w'.connections = w.connections ∧
      w'.matchmaker = w.matchmaker ∧ w'.activation = w.activation ∧
      w'.max_match_rules_per_connection = w.max_match_rules_per_connection ∧
      w'.reloads = w.reloads ∧ w'.transaction = w.transaction ∧ w'.calls = w.calls ∧
      w'.error = w.error := by
  intro fuel
  induction fuel with
  | zero => intro w b name w' h; simp [create_unique_client_name_loop] at h
  | succ f ih =>
    intro w b name w' h
    rw [loop_succ] at h
    have hn : (normalised w).registry = w.registry ∧ (normalised w).connections = w.connections ∧
        (normalised w).matchmaker = w.matchmaker ∧ (normalised w).activation = w.activation ∧
        (normalised w).max_match_rules_per_connection = w.max_match_rules_per_connection ∧
        (normalised w).reloads = w.reloads ∧ (normalised w).transaction = w.transaction ∧
        (normalised w).calls = w.calls ∧ (normalised w).error = w.error := by
      unfold normalised
      split <;> simp
    generalize normalised w = w0 at h hn
    obtain ⟨n1, n2, n3, n4, n5, n6, n7, n8, n9⟩ := hn
    split at h
    · simp at h
    split at h
    · simp at h
    split at h
    · simp at h
    split at h
    · rename_i s1 w1 h1
      have := append_frame _ _ _ _ _ _ h1
      simp only [Outcome.returned.injEq, Prod.mk.injEq] at h
      obtain ⟨-, -, rfl⟩ := h
      subst this
      simp [n1, n2, n3, n4, n5, n6, n7, n8, n9]
    rename_i s1 w1 h1
    have e1 := append_frame _ _ _ _ _ _ h1
    subst e1
    split at h
    · rename_i s2 w2 h2
      have := append_frame _ _ _ _ _ _ h2
      simp only [Outcome.returned.injEq, Prod.mk.injEq] at h
      obtain ⟨-, -, rfl⟩ := h
      subst this
      simp [n1, n2, n3, n4, n5, n6, n7, n8, n9]
    rename_i s2 w2 h2
    have e2 := append_frame _ _ _ _ _ _ h2
    subst e2
    split at h
    · rename_i s3 w3 h3
      have := append_frame _ _ _ _ _ _ h3
      simp only [Outcome.returned.injEq, Prod.mk.injEq] at h
      obtain ⟨-, -, rfl⟩ := h
      subst this
      simp [n1, n2, n3, n4, n5, n6, n7, n8, n9]
    rename_i s3 w3 h3
    have e3 := append_frame _ _ _ _ _ _ h3
    subst e3
    split at h
    · rename_i s4 w4 h4
      have := append_frame _ _ _ _ _ _ h4
      simp only [Outcome.returned.injEq, Prod.mk.injEq] at h
      obtain ⟨-, -, rfl⟩ := h
      subst this
      simp [n1, n2, n3, n4, n5, n6, n7, n8, n9]
    rename_i s4 w4 h4
    have e4 := append_frame _ _ _ _ _ _ h4
    subst e4
    split at h
    · simp only [Outcome.returned.injEq, Prod.mk.injEq] at h
      obtain ⟨-, -, rfl⟩ := h
      simp [n1, n2, n3, n4, n5, n6, n7, n8, n9]
    · obtain ⟨m1, m2, m3, m4, m5, m6, m7, m8, m9⟩ := ih _ b name w' h
      simp only [BusState.pop_registry, BusState.pop_connections, BusState.pop_matchmaker, BusState.pop_activation,
        BusState.pop_max_match_rules_per_connection, BusState.pop_reloads, BusState.pop_transaction, BusState.pop_calls,
        BusState.pop_error] at m1 m2 m3 m4 m5 m6 m7 m8 m9
      exact ⟨m1.trans n1, m2.trans n2, m3.trans n3, m4.trans n4, m5.trans n5, m6.trans n6,
        m7.trans n7, m8.trans n8, m9.trans n9⟩

theorem collaborator_true (w w1 : BusState) (h : w.collaborator = (true, w1)) :
    w.next_error = none ∧ w1 = w.pop := by
  unfold BusState.collaborator at h
  split at h
  · rename_i he
    simp only [Prod.mk.injEq, true_and] at h
    exact ⟨he, h.symm⟩
  · simp at h

theorem collaborator_false (w w1 : BusState) (h : w.collaborator = (false, w1)) :
    ∃ e, w.next_error = some e ∧ w1 = w.pop.set_error e := by
  unfold BusState.collaborator at h
  split at h
  · simp at h
  · rename_i e he
    simp only [Prod.mk.injEq, true_and] at h
    exact ⟨e, he, h.symm⟩

theorem alloc_eq (w : BusState) (b : Bool) (w1 : BusState) (h : w.alloc = (b, w1)) :
    b = w.next_error.isNone ∧ w1 = w.pop := by
  simp only [BusState.alloc, Prod.mk.injEq] at h
  exact ⟨h.1.symm, h.2.symm⟩

theorem check_limits_true (w : BusState) (c : Nat) (w1 : BusState)
    (h : bus_connections_check_limits w c = (true, w1)) :
    w1 = (w.record (.check_limits c)).pop :=
  (collaborator_true _ _ h).2

theorem check_limits_false (w : BusState) (c : Nat) (w1 : BusState)
    (h : bus_connections_check_limits w c = (false, w1)) :
    ∃ e, w1 = (w.record (.check_limits c)).pop.set_error e := by
  obtain ⟨e, -, h2⟩ := collaborator_false _ _ h
  exact ⟨e, h2⟩

theorem complete_true (w : BusState) (c : Nat) (n : String) (w1 : BusState)
    (h : bus_connection_complete w c n = (true, w1)) :
    w1 = (w.record (.connection_complete c n)).pop.put_connection
           { bus_connection_data w c with name := some n } := by
  unfold bus_connection_complete at h
  split at h
  · simp at h
  · rename_i w2 h2
    obtain ⟨-, rfl⟩ := collaborator_true _ _ h2
    simp only [Prod.mk.injEq, true_and] at h
    rw [← h]
    rfl

theorem complete_false (w : BusState) (c : Nat) (n : String) (w1 : BusState)
    (h : bus_connection_complete w c n = (false, w1)) :
    ∃ e, w1 = (w.record (.connection_complete c n)).pop.set_error e := by
  unfold bus_connection_complete at h
  split at h
  · rename_i w2 h2
    obtain ⟨e, -, rfl⟩ := collaborator_false _ _ h2
    simp only [Prod.mk.injEq, true_and] at h
    exact ⟨e, h.symm⟩
  · simp at h

theorem set_sender_eq (w : BusState) (m : DBusMessage) (s : Option String) (b : Bool)
    (m1 : DBusMessage) (w1 : BusState) (h : dbus_message_set_sender w m s = (b, m1, w1)) :
    w1 = w.pop ∧ (b = true → m1 = { m with sender := s }) := by
  unfold dbus_message_set_sender BusState.alloc at h
  cases hn : w.next_error.isNone <;> simp only [hn, Prod.mk.injEq] at h <;>
    obtain ⟨h1, h2, h3⟩ := h <;> subst h1 h2 h3 <;> simp

theorem new_method_return_eq (w : BusState) (m : DBusMessage) (r : Option DBusMessage)
    (w1 : BusState) (h : dbus_message_new_method_return w m = (r, w1)) :
    w1 = w.pop ∧ ∀ reply, r = some reply → reply = method_return_to m [] := by
  unfold dbus_message_new_method_return BusState.alloc at h
  cases hn : w.next_error.isNone <;> simp only [hn, Prod.mk.injEq] at h <;>
    obtain ⟨h1, h2⟩ := h <;> subst h1 h2 <;> simp [method_return_to]

theorem append_args_eq (w : BusState) (m : DBusMessage) (args : List DBusValue) (b : Bool)
    (m1 : DBusMessage) (w1 : BusState) (h : dbus_message_append_args w m args = (b, m1, w1)) :
    w1 = w.pop ∧ (b = true → m1 = { m with body := m.body ++ args }) := by
  unfold dbus_message_append_args BusState.alloc at h
  cases hn : w.next_error.isNone <;> simp only [hn, Prod.mk.injEq] at h <;>
    obtain ⟨h1, h2, h3⟩ := h <;> subst h1 h2 h3 <;> simp

theorem send_true (w : BusState) (c : Nat) (m : DBusMessage) (w1 : BusState)
    (h : bus_transaction_send_from_driver w c m = (true, w1)) :
    w1 = (w.record (.transaction_send c m)).pop.enqueue c m := by
  unfold bus_transaction_send_from_driver BusState.alloc at h
  cases hn : (w.record (.transaction_send c m)).next_error.isNone <;>
    simp only [hn, Prod.mk.injEq] at h
  · simp at h
  · rw [← h.2]

theorem send_false (w : BusState) (c : Nat) (m : DBusMessage) (w1 : BusState)
    (h : bus_transaction_send_from_driver w c m = (false, w1)) :
    w1 = (w.record (.transaction_send c m)).pop := by
  unfold bus_transaction_send_from_driver BusState.alloc at h
  cases hn : (w.record (.transaction_send c m)).next_error.isNone <;>
    simp only [hn, Prod.mk.injEq] at h
  · exact h.2.symm
  · simp at h

theorem welcome_true (w : BusState) (c : Nat) (m : DBusMessage) (w' : BusState)
    (h : bus_driver_send_welcome_message w c m = .returned (true, w')) :
    ∃ n, bus_connection_get_name w c = some n ∧
      w' = (((w.pop.pop).record (.transaction_send c (method_return_to m [.string n]))).pop).enqueue
             c (method_return_to m [.string n]) := by
  unfold bus_driver_send_welcome_message at h
  split at h
  · simp at h
  split at h
  · simp at h
  rename_i n hn
  split at h
  · simp at h
  rename_i welcome w1 h1
  obtain ⟨rfl, hr⟩ := new_method_return_eq _ _ _ _ h1
  have hw := hr welcome rfl
  subst hw
  split at h
  · simp at h
  rename_i welcome1 w2 h2
  obtain ⟨rfl, hr2⟩ := append_args_eq _ _ _ _ _ _ h2
  have hw2 := hr2 rfl
  subst hw2
  split at h
  · simp at h
  split at h
  · simp at h
  rename_i w3 h3
  have := send_true _ _ _ _ h3
  subst this
  simp only [Outcome.returned.injEq, Prod.mk.injEq, true_and] at h
  exact ⟨n, hn, h.symm⟩

theorem welcome_false (w : BusState) (c : Nat) (m : DBusMessage) (w' : BusState)
    (h : bus_driver_send_welcome_message w c m = .returned (false, w')) :
    w'.registry = w.registry ∧ w'.connections = w.connections ∧ w'.error.isSome = true ∧
    ∀ x ∈ w.calls, x ∈ w'.calls := by
  unfold bus_driver_send_welcome_message at h
  split at h
  · simp at h
  split at h
  · simp at h
  split at h
  · rename_i w1 h1
    obtain ⟨rfl, -⟩ := new_method_return_eq _ _ _ _ h1
    simp only [Outcome.returned.injEq, Prod.mk.injEq, true_and] at h
    subst h
    simp +contextual
  rename_i welcome w1 h1
  obtain ⟨rfl, -⟩ := new_method_return_eq _ _ _ _ h1
  split at h
  · rename_i x w2 h2
    obtain ⟨rfl, -⟩ := append_args_eq _ _ _ _ _ _ h2
    simp only [Outcome.returned.injEq, Prod.mk.injEq, true_and] at h
    subst h
    simp +contextual
  rename_i welcome1 w2 h2
  obtain ⟨rfl, -⟩ := append_args_eq _ _ _ _ _ _ h2
  split at h
  · simp at h
  split at h
  · rename_i w3 h3
    have := send_false _ _ _ _ h3
    subst this
    simp only [Outcome.returned.injEq, Prod.mk.injEq, true_and] at h
    subst h
    simp +contextual
  · simp at h

theorem lookup_after_ensure (c : Nat) (n : String) :
    ∀ l : List BusService, l.find? (fun s => s.name == n) = none →
      ((l ++ [({ name := n, primary_owner := c, prohibit_replacement := false } :
          BusService)]).map
        (fun s : BusService =>
          if s.name = n then { s with prohibit_replacement := true } else s)).find?
          (fun s => s.name == n) =
        some { name := n, primary_owner := c, prohibit_replacement := true } := by
  intro l
  induction l with
  | nil => intro _; simp
  | cons a l ih =>
    intro h
    simp only [List.find?_cons] at h
    split at h
    · simp at h
    · rename_i hne
      have hne' : ¬ a.name = n := by simpa using hne
      simp only [List.cons_append, List.map_cons, hne', if_false, List.find?_cons, hne]
      exact ih h

theorem get_name_of_head (w : BusState) (c : Nat) (d : BusConnectionData)
    (hd : d.connection = c) (rest : List BusConnectionData)
    (h : w.connections = d :: rest) : bus_connection_get_name w c = d.name := by
  simp [bus_connection_get_name, bus_connection_data, h, hd]

theorem connection_data_connection (w : BusState) (c : Nat) :
    (bus_connection_data w c).connection = c := by
  unfold bus_connection_data
  cases h : w.connections.find? (fun d => d.connection == c) with
  | none => rfl
  | some d => simpa using List.find?_some h

theorem get_name_bound (w w1 : BusState) (c : Nat) (n : String)
    (rest : List BusConnectionData)
    (h : w1.connections = { bus_connection_data w c with name := some n } :: rest) :
    bus_connection_get_name w1 c = some n :=
  get_name_of_head w1 c { bus_connection_data w c with name := some n }
    (connection_data_connection w c) rest h

theorem get_name_of_connections (w w1 : BusState) (c : Nat)
    (h : w1.connections = w.connections) :
    bus_connection_get_name w1 c = bus_connection_get_name w c := by
  simp [bus_connection_get_name, bus_connection_data, h]

theorem create_false_frame (w : BusState) (str s : String) (w' : BusState)
    (h : create_unique_client_name w str = .returned (false, s, w')) :
    w'.registry = w.registry ∧ w'.connections = w.connections ∧
    w'.transaction = w.transaction := by
  obtain ⟨f1, f2, -, -, -, -, f7, -, -⟩ := loop_frame _ _ _ _ _ _ h
  exact ⟨f1, f2, f7⟩

theorem is_active_of_connections (w w1 : BusState) (c : Nat)
    (h : w1.connections = w.connections) :
    bus_connection_is_active w1 c = bus_connection_is_active w c := by
  simp [bus_connection_is_active, get_name_of_connections w w1 c h]

theorem new_signal_eq (w : BusState) (path iface name : String) (r : Option DBusMessage)
    (w1 : BusState) (h : dbus_message_new_signal w path iface name = (r, w1)) :
    w1 = w.pop ∧ ∀ m, r = some m →
      m = { type := DBUS_MESSAGE_TYPE_SIGNAL, serial := 0, reply_serial := none,
            interface := some iface, member := some name, sender := none,
            destination := none, body := [] } := by
  unfold dbus_message_new_signal BusState.alloc at h
  cases hn : w.next_error.isNone <;> simp only [hn, Prod.mk.injEq] at h <;>
    obtain ⟨h1, h2⟩ := h <;> subst h1 h2 <;> simp

theorem set_destination_eq (w : BusState) (m : DBusMessage) (d : Option String) (b : Bool)
    (m1 : DBusMessage) (w1 : BusState)
    (h : dbus_message_set_destination w m d = (b, m1, w1)) :
    w1 = w.pop ∧ (b = true → m1 = { m with destination := d }) := by
  unfold dbus_message_set_destination BusState.alloc at h
  cases hn : w.next_error.isNone <;> simp only [hn, Prod.mk.injEq] at h <;>
    obtain ⟨h1, h2, h3⟩ := h <;> subst h1 h2 h3 <;> simp

theorem dispatch_matches_true (w : BusState) (m : DBusMessage) (w1 : BusState)
    (h : bus_dispatch_matches w m = (true, w1)) :
    w1 = ((w.record (.dispatch_matches m)).pop).enqueue_all (matching_subscribers w m) m := by
  unfold bus_dispatch_matches at h
  split at h
  · simp at h
  · rename_i w2 h2
    obtain ⟨-, rfl⟩ := collaborator_true _ _ h2
    simp only [Prod.mk.injEq, true_and] at h
    rw [← h]
    rfl

theorem dispatch_matches_false (w : BusState) (m : DBusMessage) (w1 : BusState)
    (h : bus_dispatch_matches w m = (false, w1)) :
    ∃ e, w1 = (w.record (.dispatch_matches m)).pop.set_error e := by
  unfold bus_dispatch_matches at h
  split at h
  · rename_i w2 h2
    obtain ⟨e, -, rfl⟩ := collaborator_false _ _ h2
    simp only [Prod.mk.injEq, true_and] at h
    exact ⟨e, h.symm⟩
  · simp at h

theorem owner_changed_signature (n : String) (o nw : Option String) :
    dbus_message_has_signature (name_owner_changed_signal n o nw) "sss" = true := by
  simp [dbus_message_has_signature, dbus_message_get_signature, name_owner_changed_signal,
    DBusValue.signature, String.join]

theorem owner_changed_cases (w : BusState) (n : String) (o nw : Option String)
    (herr : w.error = none) :
    bus_driver_send_service_owner_changed w n o nw ≠ .assertion_failed ∧
    ∀ r w', bus_driver_send_service_owner_changed w n o nw = .returned (r, w') →
      w'.registry = w.registry ∧ w'.connections = w.connections ∧
      w'.matchmaker = w.matchmaker ∧
      (r = false → w'.error.isSome = true ∧ ∀ x ∈ w.calls, x ∈ w'.calls) ∧
      (r = true → w'.error = w.error ∧
        w'.transaction = w.transaction ++
          (matching_subscribers w (name_owner_changed_signal n o nw)).map
            (fun c => (c, name_owner_changed_signal n o nw)) ∧
        w'.calls = w.calls ++ [.dispatch_matches (name_owner_changed_signal n o nw)]) := by
  unfold bus_driver_send_service_owner_changed
  simp only [herr, Option.isSome_none, Bool.false_eq_true, if_false]
  split
  · rename_i w1 h1
    obtain ⟨rfl, -⟩ := new_signal_eq _ _ _ _ _ _ h1
    refine ⟨by simp, fun r w' h => ?_⟩
    simp only [Outcome.returned.injEq, Prod.mk.injEq] at h
    obtain ⟨rfl, rfl⟩ := h
    simp +contextual
  rename_i message w1 h1
  obtain ⟨rfl, hm⟩ := new_signal_eq _ _ _ _ _ _ h1
  have := hm message rfl
  subst this
  split
  · rename_i x w2 h2
    obtain ⟨rfl, -⟩ := set_sender_eq _ _ _ _ _ _ h2
    refine ⟨by simp, fun r w' h => ?_⟩
    simp only [Outcome.returned.injEq, Prod.mk.injEq] at h
    obtain ⟨rfl, rfl⟩ := h
    simp +contextual
  rename_i message1 w2 h2
  obtain ⟨rfl, hm1⟩ := set_sender_eq _ _ _ _ _ _ h2
  have := hm1 rfl
  subst this
  split
  · rename_i x w3 h3
    obtain ⟨rfl, -⟩ := append_args_eq _ _ _ _ _ _ h3
    refine ⟨by simp, fun r w' h => ?_⟩
    simp only [Outcome.returned.injEq, Prod.mk.injEq] at h
    obtain ⟨rfl, rfl⟩ := h
    simp +contextual
  rename_i message2 w3 h3
  obtain ⟨rfl, hm2⟩ := append_args_eq _ _ _ _ _ _ h3
  have := hm2 rfl
  subst this
  have hsig :
      ({ type := DBUS_MESSAGE_TYPE_SIGNAL, serial := 0, reply_serial := none,
         interface := some DBUS_INTERFACE_DBUS, member := some "NameOwnerChanged",
         sender := some DBUS_SERVICE_DBUS, destination := none,
         body := [] ++ [.string n, .string (o.getD ""), .string (nw.getD "")] } :
        DBusMessage) = name_owner_changed_signal n o nw := rfl
  simp only [hsig, owner_changed_signature, Bool.not_true, Bool.false_eq_true, if_false]
  refine ⟨by simp, fun r w' h => ?_⟩
  simp only [Outcome.returned.injEq] at h
  cases r with
  | false =>
    obtain ⟨e, rfl⟩ := dispatch_matches_false _ _ _ h
    simp +contextual
  | true =>
    have := dispatch_matches_true _ _ _ h
    subst this
    simp [matching_subscribers, herr]

theorem acquired_cases (w : BusState) (c : Nat) (n : String) (herr : w.error = none) :
    bus_driver_send_service_acquired w c n ≠ .assertion_failed ∧
    ∀ r w', bus_driver_send_service_acquired w c n = .returned (r, w') →
      w'.registry = w.registry ∧ w'.connections = w.connections ∧
      w'.matchmaker = w.matchmaker ∧
      (r = false → w'.error.isSome = true ∧ ∀ x ∈ w.calls, x ∈ w'.calls) ∧
      (r = true → w'.error = w.error ∧
        w'.transaction = w.transaction ++
          [(c, name_acquired_signal (bus_connection_get_name w c) n)] ∧
        w'.calls = w.calls ++
          [.transaction_send c (name_acquired_signal (bus_connection_get_name w c) n)]) := by
  unfold bus_driver_send_service_acquired
  simp only [herr, Option.isSome_none, Bool.false_eq_true, if_false]
  split
  · rename_i w1 h1
    obtain ⟨rfl, -⟩ := new_signal_eq _ _ _ _ _ _ h1
    refine ⟨by simp, fun r w' h => ?_⟩
    simp only [Outcome.returned.injEq, Prod.mk.injEq] at h
    obtain ⟨rfl, rfl⟩ := h
    simp +contextual
  rename_i message w1 h1
  obtain ⟨rfl, hm⟩ := new_signal_eq _ _ _ _ _ _ h1
  have := hm message rfl
  subst this
  split
  · rename_i x w2 h2
    obtain ⟨rfl, -⟩ := set_destination_eq _ _ _ _ _ _ h2
    refine ⟨by simp, fun r w' h => ?_⟩
    simp only [Outcome.returned.injEq, Prod.mk.injEq] at h
    obtain ⟨rfl, rfl⟩ := h
    simp +contextual
  rename_i message1 w2 h2
  obtain ⟨rfl, hm1⟩ := set_destination_eq _ _ _ _ _ _ h2
  have := hm1 rfl
  subst this
  split
  · rename_i x w3 h3
    obtain ⟨rfl, -⟩ := append_args_eq _ _ _ _ _ _ h3
    refine ⟨by simp, fun r w' h => ?_⟩
    simp only [Outcome.returned.injEq, Prod.mk.injEq] at h
    obtain ⟨rfl, rfl⟩ := h
    simp +contextual
  rename_i message2 w3 h3
  obtain ⟨rfl, hm2⟩ := append_args_eq _ _ _ _ _ _ h3
  have := hm2 rfl
  subst this
  have hg : bus_connection_get_name w.pop c = bus_connection_get_name w c := rfl
  split
  · rename_i w4 h4
    have := send_false _ _ _ _ h4
    subst this
    refine ⟨by simp, fun r w' h => ?_⟩
    simp only [Outcome.returned.injEq, Prod.mk.injEq] at h
    obtain ⟨rfl, rfl⟩ := h
    simp +contextual
  · rename_i w4 h4
    have := send_true _ _ _ _ h4
    subst this
    refine ⟨by simp, fun r w' h => ?_⟩
    simp only [Outcome.returned.injEq, Prod.mk.injEq] at h
    obtain ⟨rfl, rfl⟩ := h
    simp [hg, name_acquired_signal, herr]

theorem add_service_cases (w : BusState) (n : String) (c : Nat) (herr : w.error = none) :
    registry_add_service w n c ≠ .assertion_failed ∧
    ∀ r w', registry_add_service w n c = .returned (r, w') →
      w'.connections = w.connections ∧ w'.matchmaker = w.matchmaker ∧
      (r = false → w'.error.isSome = true ∧ w'.registry = w.registry ∧
        ∀ x ∈ w.calls, x ∈ w'.calls) ∧
      (r = true → w'.error = w.error ∧
        w'.registry = w.registry ++
          [{ name := n, primary_owner := c, prohibit_replacement := false }] ∧
        w'.transaction = w.transaction ++
          name_gained_signals w c (bus_connection_get_name w c) n ∧
        w'.calls = w.calls ++ name_gained_calls c (bus_connection_get_name w c) n) := by
  obtain ⟨a1, a2⟩ := owner_changed_cases w n none (bus_connection_get_name w c) herr
  unfold registry_add_service
  split
  · rename_i h1; exact absurd h1 a1
  · exact ⟨by simp, fun r w' h => by simp at h⟩
  · rename_i w1 h1
    obtain ⟨b1, b2, b3, b4, -⟩ := a2 _ _ h1
    refine ⟨by simp, fun r w' h => ?_⟩
    simp only [Outcome.returned.injEq, Prod.mk.injEq] at h
    obtain ⟨rfl, rfl⟩ := h
    exact ⟨b2, b3, fun _ => ⟨(b4 rfl).1, b1, (b4 rfl).2⟩, fun hr => by simp at hr⟩
  rename_i w1 h1
  obtain ⟨b1, b2, b3, -, b5⟩ := a2 _ _ h1
  obtain ⟨e1, t1, k1⟩ := b5 rfl
  have hg : bus_connection_get_name w1 c = bus_connection_get_name w c :=
    get_name_of_connections w w1 c b2
  obtain ⟨c1, c2⟩ := acquired_cases w1 c n (by rw [e1]; exact herr)
  split
  · rename_i h2; exact absurd h2 c1
  · exact ⟨by simp, fun r w' h => by simp at h⟩
  · rename_i w2 h2
    obtain ⟨d1, d2, d3, d4, -⟩ := c2 _ _ h2
    refine ⟨by simp, fun r w' h => ?_⟩
    simp only [Outcome.returned.injEq, Prod.mk.injEq] at h
    obtain ⟨rfl, rfl⟩ := h
    refine ⟨by rw [d2, b2], by rw [d3, b3], fun _ => ⟨(d4 rfl).1, by rw [d1, b1], ?_⟩,
      fun hr => by simp at hr⟩
    intro x hx
    apply (d4 rfl).2
    rw [k1]
    exact List.mem_append_left _ hx
  · rename_i w2 h2
    obtain ⟨d1, d2, d3, -, d5⟩ := c2 _ _ h2
    obtain ⟨e2, t2, k2⟩ := d5 rfl
    refine ⟨by simp, fun r w' h => ?_⟩
    simp only [Outcome.returned.injEq, Prod.mk.injEq] at h
    obtain ⟨rfl, rfl⟩ := h
    refine ⟨by simp [d2, b2], by simp [d3, b3], fun hr => by simp at hr, fun _ => ?_⟩
    refine ⟨by simp [e2, e1], by simp [d1, b1], ?_, ?_⟩
    · simp [t2, t1, hg, name_gained_signals]
    · simp [k2, k1, hg, name_gained_calls]

theorem ensure_cases (w : BusState) (n : String) (c : Nat) (herr : w.error = none) :
    bus_registry_ensure w n c ≠ .assertion_failed ∧
    ∀ r w', bus_registry_ensure w n c = .returned (r, w') →
      w'.connections = w.connections ∧ w'.matchmaker = w.matchmaker ∧
      (r = none → w'.error.isSome = true ∧ w'.registry = w.registry ∧
        ∀ x ∈ w.calls, x ∈ w'.calls) ∧
      (∀ s, r = some s → w'.error = w.error ∧
        (bus_registry_lookup w n = none →
          s = { name := n, primary_owner := c, prohibit_replacement := false } ∧
          w'.registry = w.registry ++
            [{ name := n, primary_owner := c, prohibit_replacement := false }] ∧
          w'.transaction = w.transaction ++
            name_gained_signals w c (bus_connection_get_name w c) n ∧
          w'.calls = w.calls ++ Call.registry_ensure n c ::
            name_gained_calls c (bus_connection_get_name w c) n)) := by
  unfold bus_registry_ensure
  split
  · rename_i w1 h1
    obtain ⟨e, -, rfl⟩ := collaborator_false _ _ h1
    refine ⟨by simp, fun r w' h => ?_⟩
    simp only [Outcome.returned.injEq, Prod.mk.injEq] at h
    obtain ⟨rfl, rfl⟩ := h
    simp +contextual
  rename_i w1 h1
  obtain ⟨-, rfl⟩ := collaborator_true _ _ h1
  have hl : bus_registry_lookup (w.record (.registry_ensure n c)).pop n =
      bus_registry_lookup w n := rfl
  have hg : bus_connection_get_name (w.record (.registry_ensure n c)).pop c =
      bus_connection_get_name w c := rfl
  split
  · rename_i s hs
    rw [hl] at hs
    refine ⟨by simp, fun r w' h => ?_⟩
    simp only [Outcome.returned.injEq, Prod.mk.injEq] at h
    obtain ⟨rfl, rfl⟩ := h
    simp [hs]
  rename_i hs
  obtain ⟨a1, a2⟩ := add_service_cases (w.record (.registry_ensure n c)).pop n c
    (by simpa using herr)
  split
  · rename_i h2; exact absurd h2 a1
  · exact ⟨by simp, fun r w' h => by simp at h⟩
  · rename_i w2 h2
    obtain ⟨b1, b2, b3, -⟩ := a2 _ _ h2
    obtain ⟨e1, r1, k1⟩ := b3 rfl
    refine ⟨by simp, fun r w' h => ?_⟩
    simp only [Outcome.returned.injEq, Prod.mk.injEq] at h
    obtain ⟨rfl, rfl⟩ := h
    refine ⟨by simpa using b1, by simpa using b2, fun _ => ⟨e1, by simpa using r1, ?_⟩,
      fun s hs => by simp at hs⟩
    intro x hx
    exact k1 x (by simp [hx])
  · rename_i w2 h2
    obtain ⟨b1, b2, -, b4⟩ := a2 _ _ h2
    obtain ⟨e1, r1, t1, k1⟩ := b4 rfl
    refine ⟨by simp, fun r w' h => ?_⟩
    simp only [Outcome.returned.injEq, Prod.mk.injEq] at h
    obtain ⟨rfl, rfl⟩ := h
    refine ⟨by simpa using b1, by simpa using b2, fun hr => by simp at hr, fun s hs => ?_⟩
    simp only [Option.some.injEq] at hs
    subst hs
    refine ⟨by simpa using e1, fun _ => ⟨rfl, by simpa using r1, ?_, ?_⟩⟩
    · rw [t1, hg]; simp [name_gained_signals, matching_subscribers]
    · rw [k1, hg]; simp

/-- Once `bus_connection_complete` has succeeded, every failure of Hello leaves
the connection active and bound to the candidate name, for which the registry
holds no entry. -/
theorem hello_failure_after_complete (w : BusState) (connection : Nat)
    (message : DBusMessage) (w1 w2 : BusState) (n : String) (w3 w4 w' : BusState)
    (herr : w.error = none)
    (hinactive : bus_connection_is_active w connection = false)
    (h1 : bus_connections_check_limits w connection = (true, w1))
    (h2 : _dbus_string_init w1 = (true, w2))
    (h3 : create_unique_client_name w2 "" = .returned (true, n, w3))
    (h4 : bus_connection_complete w3 connection n = (true, w4))
    (h : bus_driver_handle_hello w connection message = .returned (false, w')) :
    w'.error.isSome = true ∧
    bus_connection_is_active w' connection = true ∧
    bus_connection_get_name w' connection = some n ∧
    bus_registry_lookup w' n = none := by
  obtain ⟨M, m, -, -, -, -, -, hfree, -, -⟩ := loop_spec _ _ _ _ _ h3
  have e1 := check_limits_true _ _ _ h1
  subst e1
  obtain ⟨-, rfl⟩ := alloc_eq _ _ _ h2
  have e4 := complete_true _ _ _ _ h4
  subst e4
  have bound : ∀ v : BusState,
      v.connections = { bus_connection_data w3 connection with name := some n }
        :: w3.connections →
      v.registry = w3.registry → v.error.isSome = true →
      v.error.isSome = true ∧ bus_connection_is_active v connection = true ∧
        bus_connection_get_name v connection = some n ∧
        bus_registry_lookup v n = none := by
    intro v hc hr he
    have hg := get_name_bound w3 v connection n _ hc
    refine ⟨he, by simp [bus_connection_is_active, hg], hg, ?_⟩
    simpa [bus_registry_lookup, hr] using hfree
  have herr4 : ((w3.record (.connection_complete connection n)).pop.put_connection
      { bus_connection_data w3 connection with name := some n }).error = none := by
    have := (loop_frame _ _ _ _ _ _ h3).2.2.2.2.2.2.2.2
    simpa [herr] using this
  unfold bus_driver_handle_hello at h
  simp only [herr, Option.isSome_none, Bool.false_eq_true, if_false, hinactive, h1, h2, h3,
    h4] at h
  split at h
  · rename_i x w5 h5
    obtain ⟨rfl, -⟩ := set_sender_eq _ _ _ _ _ _ h5
    simp only [Outcome.returned.injEq, Prod.mk.injEq, true_and] at h
    subst h
    exact bound _ (by simp) (by simp) (by simp)
  rename_i message1 w5 h5
  obtain ⟨rfl, -⟩ := set_sender_eq _ _ _ _ _ _ h5
  split at h
  · simp at h
  · simp at h
  · rename_i w6 h6
    obtain ⟨k1, k2, k3, -⟩ := welcome_false _ _ _ _ h6
    simp only [Outcome.returned.injEq, Prod.mk.injEq, true_and] at h
    subst h
    exact bound _ (by simpa using k2) (by simpa using k1) k3
  rename_i w6 h6
  obtain ⟨n', hn', rfl⟩ := welcome_true _ _ _ _ h6
  split at h
  · simp at h
  · simp at h
  · rename_i w7 h7
    obtain ⟨c1, -, c3, -⟩ := (ensure_cases _ n connection (by simpa using herr4)).2 _ _ h7
    obtain ⟨d1, d2, -⟩ := c3 rfl
    simp only [Outcome.returned.injEq, Prod.mk.injEq, true_and] at h
    subst h
    exact bound _ (by simpa using c1) (by simpa using d2) d1
  · split at h <;> simp at h

/-- C5: connection 3 is inactive and says Hello; the enqueue of the welcome
reply fails for lack of memory. Hello returns failure with the connection left
active and bound to `:1.0`, a name the registry has no entry for: the
completion of the connection is not undone. A second Hello of the connection,
the retry the handler's comment allows, is then refused as already handled.
The same state is left when it is the registry's ensure that fails. -/
theorem hello_failure_leaves_connection_active :
    bus_connection_is_active sample_welcome_fails 3 = false ∧
    bus_connection_get_name sample_welcome_fails 3 = none ∧
    bus_driver_handle_hello sample_welcome_fails 3 sample_hello =
      .returned (false, sample_after_failed_hello) ∧
    bus_connection_is_active sample_after_failed_hello 3 = true ∧
    bus_connection_get_name sample_after_failed_hello 3 = some ":1.0" ∧
    bus_registry_lookup sample_after_failed_hello ":1.0" = none ∧
    sample_after_failed_hello.transaction = [] ∧
    bus_driver_handle_hello sample_retry 3 sample_hello =
      .returned (false, sample_retry.set_error
        ⟨DBUS_ERROR_FAILED, "Already handled an Hello message"⟩) ∧
    bus_connection_is_active sample_ensure_fails 3 = false ∧
    bus_driver_handle_hello sample_ensure_fails 3 sample_hello =
      .returned (false, sample_after_failed_ensure) ∧
    bus_connection_is_active sample_after_failed_ensure 3 = true ∧
    bus_connection_get_name sample_after_failed_ensure 3 = some ":1.0" ∧
    bus_registry_lookup sample_after_failed_ensure ":1.0" = none := by
  decide

/-! ## Hello: success -/

/-- C6 fails as stated: after the successful Hello of connection 3 on a fresh
bus the transaction holds two messages for that connection, the welcome reply
and, queued by the registry's ensure, the NameAcquired signal. -/
theorem hello_success_queues_name_acquired :
    bus_connection_is_active sample_state 3 = false ∧
    bus_driver_handle_hello sample_state 3 sample_hello =
      .returned (true, sample_after_hello) ∧
    sample_state.transaction = [] ∧
    sample_after_hello.transaction.filter (fun p => p.1 == 3) =
      [(3, sample_welcome), (3, name_acquired_signal (some ":1.0") ":1.0")] ∧
    (sample_after_hello.transaction.filter (fun p => p.1 == 3)).length ≠ 1 := by
  decide

/-- C6 (amended): a successful Hello on an inactive connection leaves the
connection active and bound to a fresh name `n` of the form `:MAJOR.MINOR` that
the registry did not hold. The driver itself enqueues exactly one message, the
method return to the Hello call carrying the string `n`, and does so before it
calls the registry's ensure; what follows it in the queue is what the registry
queues for the new name, NameOwnerChanged for each matching subscriber and
NameAcquired for the connection. The registry then maps `n` to a service owned
by the connection with replacement prohibited. The collaborator calls were, in
order: limits check, connection complete, the enqueue of the welcome reply,
registry ensure with its two sends, set-prohibit-replacement. -/
theorem hello_success (w : BusState) (connection : Nat) (message : DBusMessage)
    (w' : BusState) (hinactive : bus_connection_is_active w connection = false)
    (h : bus_driver_handle_hello w connection message = .returned (true, w')) :
    ∃ (n : String) (M m : Int),
      n = unique_name_suffix M m ∧ 0 < M ∧ 0 ≤ m ∧
      bus_registry_lookup w n = none ∧
      bus_connection_is_active w' connection = true ∧
      bus_connection_get_name w' connection = some n ∧
      w'.transaction = w.transaction ++
        (connection, method_return_to { message with sender := some n } [.string n]) ::
          name_gained_signals w connection (some n) n ∧
      bus_registry_lookup w' n =
        some { name := n, primary_owner := connection, prohibit_replacement := true } ∧
      w'.calls = w.calls ++
        [.check_limits connection, .connection_complete connection n,
         .transaction_send connection
           (method_return_to { message with sender := some n } [.string n]),
         .registry_ensure n connection] ++ name_gained_calls connection (some n) n ++
        [.set_prohibit_replacement n true] := by
  unfold bus_driver_handle_hello at h
  split at h
  · simp at h
  rename_i hclear
  have herr : w.error = none := by simpa using hclear
  simp only [hinactive, Bool.false_eq_true, if_false] at h
  split at h
  · simp only [return_failed] at h
    split at h <;> simp at h
  rename_i w1 h1
  have e1 := check_limits_true _ _ _ h1
  subst e1
  split at h
  · simp at h
  rename_i w2 h2
  obtain ⟨-, rfl⟩ := alloc_eq _ _ _ h2
  split at h
  · simp at h
  · simp at h
  · simp at h
  rename_i n w3 h3
  obtain ⟨M, m, hn, hM, hm, -, -, hfree, hreg, -⟩ := loop_spec _ _ _ _ _ h3
  obtain ⟨-, f2, f3, -, -, -, f7, f8, f9⟩ := loop_frame _ _ _ _ _ _ h3
  simp only [BusState.pop_registry, BusState.record_registry, BusState.pop_connections,
    BusState.record_connections, BusState.pop_transaction, BusState.record_transaction,
    BusState.pop_calls, BusState.record_calls, BusState.pop_matchmaker,
    BusState.record_matchmaker, BusState.pop_error, BusState.record_error] at hreg f2 f3 f7 f8 f9
  split at h
  · simp only [return_failed] at h
    split at h <;> simp at h
  rename_i w4 h4
  have e4 := complete_true _ _ _ _ h4
  subst e4
  have hg4 : bus_connection_get_name
      ((w3.record (.connection_complete connection n)).pop.put_connection
        { bus_connection_data w3 connection with name := some n }) connection = some n :=
    get_name_bound w3 _ connection n _ rfl
  rw [hg4] at h
  split at h
  · simp at h
  rename_i message1 w5 h5
  obtain ⟨rfl, hm1⟩ := set_sender_eq _ _ _ _ _ _ h5
  have hm1' := hm1 rfl
  subst hm1'
  split at h
  · simp at h
  · simp at h
  · simp at h
  rename_i w6 h6
  obtain ⟨n', hn', rfl⟩ := welcome_true _ _ _ _ h6
  have hname : n' = n := by
    rw [get_name_of_connections _ _ connection (BusState.pop_connections _), hg4] at hn'
    simpa using hn'.symm
  subst hname
  split at h
  · simp at h
  · simp at h
  · simp at h
  rename_i service w7 h7
  obtain ⟨c1, -, -, c4⟩ := (ensure_cases _ n' connection
    (by simpa [herr] using f9)).2 _ _ h7
  obtain ⟨-, c5⟩ := c4 service rfl
  obtain ⟨rfl, r7, t7, k7⟩ := c5 (by simpa [bus_registry_lookup] using hfree)
  have hg6 : bus_connection_get_name
      (((((w3.record (.connection_complete connection n')).pop.put_connection
        { bus_connection_data w3 connection with name := some n' }).pop.pop.pop.record
          (.transaction_send connection
            (method_return_to { message with sender := some n' } [.string n']))).pop).enqueue
        connection (method_return_to { message with sender := some n' } [.string n']))
      connection = some n' :=
    get_name_bound w3 _ connection n' _ rfl
  rw [hg6] at t7 k7
  simp only [BusState.enqueue_connections, BusState.pop_connections,
    BusState.record_connections, BusState.put_connection_connections,
    BusState.enqueue_registry, BusState.pop_registry, BusState.record_registry,
    BusState.put_connection_registry, BusState.enqueue_transaction, BusState.pop_transaction,
    BusState.record_transaction, BusState.put_connection_transaction,
    BusState.enqueue_calls, BusState.pop_calls, BusState.record_calls,
    BusState.put_connection_calls] at c1 r7 t7 k7
  have hsig : name_gained_signals
      (((((w3.record (.connection_complete connection n')).pop.put_connection
        { bus_connection_data w3 connection with name := some n' }).pop.pop.pop.record
          (.transaction_send connection
            (method_return_to { message with sender := some n' } [.string n']))).pop).enqueue
        connection (method_return_to { message with sender := some n' } [.string n']))
      connection (some n') n' = name_gained_signals w connection (some n') n' := by
    simp [name_gained_signals, matching_subscribers, f3]
  rw [hsig] at t7
  split at h
  · rename_i hact
    simp only [Outcome.returned.injEq, Prod.mk.injEq, true_and] at h
    subst h
    have hs : n' = unique_name_suffix M m := by simpa using hn
    refine ⟨n', M, m, hs, hM, hm, ?_, hact, ?_, ?_, ?_, ?_⟩
    · simpa [bus_registry_lookup, hreg] using hfree
    · exact get_name_bound w3 _ connection n' w3.connections
        (by simp [bus_service_set_prohibit_replacement, c1])
    · simp [bus_service_set_prohibit_replacement, t7, f7]
    · simp only [bus_registry_lookup, bus_service_set_prohibit_replacement,
        BusState.set_registry_registry, BusState.record_registry, r7]
      exact lookup_after_ensure connection n' w3.registry hfree
    · simp [bus_service_set_prohibit_replacement, k7, f8]
  · simp at h

theorem hello_success_witness :
    ∃ (n : String) (M m : Int),
      n = unique_name_suffix M m ∧ 0 < M ∧ 0 ≤ m ∧
      bus_registry_lookup sample_subscribed n = none ∧
      bus_connection_is_active sample_after_subscribed_hello 3 = true ∧
      bus_connection_get_name sample_after_subscribed_hello 3 = some n ∧
      sample_after_subscribed_hello.transaction = sample_subscribed.transaction ++
        (3, method_return_to { sample_hello with sender := some n } [.string n]) ::
          name_gained_signals sample_subscribed 3 (some n) n ∧
      bus_registry_lookup sample_after_subscribed_hello n =
        some { name := n, primary_owner := 3, prohibit_replacement := true } ∧
      sample_after_subscribed_hello.calls = sample_subscribed.calls ++
        [.check_limits 3, .connection_complete 3 n,
         .transaction_send 3 (method_return_to { sample_hello with sender := some n } [.string n]),
         .registry_ensure n 3] ++ name_gained_calls 3 (some n) n ++
        [.set_prohibit_replacement n true] :=
  hello_success sample_subscribed 3 sample_hello sample_after_subscribed_hello (by decide)
    (by decide)

/-! ## GetNameOwner for the bus itself -/

theorem no_failure_next (w : BusState) (h : w.no_failure) : w.next_error = none := by
  unfold BusState.next_error
  cases hs : w.script with
  | nil => rfl
  | cons o rest =>
    have := h o (by simp [hs])
    simp [this]

theorem no_failure_of_script (w w1 : BusState) (h : w.no_failure)
    (hs : w1.script = w.script.tail) : w1.no_failure := by
  intro o ho
  rw [hs] at ho
  exact h o (List.mem_of_mem_tail ho)

theorem no_failure_same (w w1 : BusState) (h : w.no_failure)
    (hs : w1.script = w.script) : w1.no_failure := by
  intro o ho
  rw [hs] at ho
  exact h o ho

/-- C7 (amended): when the registry holds no entry for the bus's own name and no
library call fails, GetNameOwner asked for the bus's own name succeeds and
enqueues one method return whose only argument is the bus's own name. -/
theorem get_service_owner_of_bus (w : BusState) (connection : Nat) (message : DBusMessage)
    (rest : List DBusValue) (herr : w.error = none)
    (hbody : message.body = .string DBUS_SERVICE_DBUS :: rest)
    (hfree : bus_registry_lookup w DBUS_SERVICE_DBUS = none)
    (hok : w.no_failure) :
    ∃ w', bus_driver_handle_get_service_owner w connection message = .returned (true, w') ∧
      w'.transaction = w.transaction ++
        [(connection, method_return_to message [.string DBUS_SERVICE_DBUS])] ∧
      w'.registry = w.registry ∧ w'.error = none := by
  have h0 := no_failure_next w hok
  have ok1 := no_failure_of_script w w.pop hok rfl
  have h1 := no_failure_next _ ok1
  have ok2 := no_failure_of_script w.pop w.pop.pop ok1 rfl
  have h2 := no_failure_next _ ok2
  have ok3 := no_failure_of_script w.pop.pop w.pop.pop.pop ok2 rfl
  have h3 := no_failure_next _ ok3
  have hfree1 : bus_registry_lookup w.pop DBUS_SERVICE_DBUS = none := hfree
  refine ⟨(w.pop.pop.pop.record (.transaction_send connection
    (method_return_to message [.string DBUS_SERVICE_DBUS]))).pop.enqueue connection
    (method_return_to message [.string DBUS_SERVICE_DBUS]), ?_, by simp, by simp, by simp [herr]⟩
  simp [bus_driver_handle_get_service_owner, herr, dbus_message_get_args_string,
    BusState.collaborator, h0, hbody, hfree1, dbus_message_new_method_return, BusState.alloc,
    h1, append_and_send, dbus_message_append_args, h2, bus_transaction_send_from_driver, h3,
    method_return_to]

/-- C7 fails as stated: the registry holds an entry named `org.freedesktop.DBus`
owned by `:1.4`, and GetNameOwner asked for `org.freedesktop.DBus` replies
`:1.4`, not the bus's own name. -/
theorem get_service_owner_of_bus_taken :
    bus_driver_handle_get_service_owner sample_bus_name_taken 3
        (sample_call "GetNameOwner" [.string DBUS_SERVICE_DBUS]) =
      .returned (true, { sample_bus_name_taken with
        transaction := [(3, method_return_to
          (sample_call "GetNameOwner" [.string DBUS_SERVICE_DBUS]) [.string ":1.4"])],
        calls := [.transaction_send 3 (method_return_to
          (sample_call "GetNameOwner" [.string DBUS_SERVICE_DBUS]) [.string ":1.4"])] }) := by
  decide

theorem get_service_owner_of_bus_witness :
    ∃ w', bus_driver_handle_get_service_owner sample_state 3
        (sample_call "GetNameOwner" [.string DBUS_SERVICE_DBUS]) = .returned (true, w') ∧
      w'.transaction = sample_state.transaction ++
        [(3, method_return_to (sample_call "GetNameOwner" [.string DBUS_SERVICE_DBUS])
          [.string DBUS_SERVICE_DBUS])] ∧
      w'.registry = sample_state.registry ∧ w'.error = none :=
  get_service_owner_of_bus sample_state 3
    (sample_call "GetNameOwner" [.string DBUS_SERVICE_DBUS]) [] rfl rfl rfl
    (by intro o ho; simp [sample_state] at ho)

/-! ## ReloadConfig and ListNames -/

/-- C8: on a bus whose configuration reload succeeds, a ReloadConfig call
returns success with the reload done and nothing enqueued on the transaction. -/
theorem reload_config_sends_no_reply :
    bus_driver_handle_message sample_state 3 (sample_call "ReloadConfig" []) =
      .returned (true, { sample_state with reloads := 1, calls := [.reload_config] }) ∧
    ({ sample_state with reloads := 1, calls := [.reload_config] } : BusState).transaction
      = [] := by
  decide

theorem alloc_cases (w : BusState) :
    w.alloc = (true, w.pop) ∨ w.alloc = (false, w.pop) := by
  unfold BusState.alloc
  cases w.next_error.isNone <;> simp

theorem append_services_some (names : List String) :
    ∀ (w : BusState) (sub sub' : List String) (w' : BusState),
      append_services w sub names = (some sub', w') →
      sub' = sub ++ names ∧ w'.transaction = w.transaction ∧ w'.calls = w.calls ∧
      w'.registry = w.registry := by
  induction names with
  | nil =>
    intro w sub sub' w' h
    simp only [append_services, Prod.mk.injEq, Option.some.injEq] at h
    obtain ⟨rfl, rfl⟩ := h
    simp
  | cons s rest ih =>
    intro w sub sub' w' h
    rcases alloc_cases w with ha | ha <;>
      simp only [append_services, dbus_message_iter_append_basic, ha] at h
    · obtain ⟨e1, e2, e3, e4⟩ := ih _ _ _ _ h
      exact ⟨by simp [e1], by simpa using e2, by simpa using e3, by simpa using e4⟩
    · simp at h

/-- C9: a successful ListNames enqueues exactly one reply, a method return to
the call whose only argument is the string array made of the bus's own name
followed by the registry's names in the registry's order; the array has one
element more than the registry has entries. -/
theorem list_services_reply (w : BusState) (connection : Nat) (message : DBusMessage)
    (w' : BusState)
    (h : bus_driver_handle_list_services w connection message = .returned (true, w')) :
    w'.transaction = w.transaction ++
      [(connection, method_return_to message
        [.string_array (DBUS_SERVICE_DBUS :: w.registry.map (fun s => s.name))])] ∧
    (DBUS_SERVICE_DBUS :: w.registry.map (fun s => s.name)).length = w.registry.length + 1 ∧
    w'.registry = w.registry := by
  unfold bus_driver_handle_list_services at h
  split at h
  · simp at h
  split at h
  · simp at h
  rename_i reply w1 h1
  obtain ⟨rfl, hr⟩ := new_method_return_eq _ _ _ _ h1
  have hreply := hr reply rfl
  subst hreply
  split at h
  · simp at h
  rename_i services w2 h2
  have hs : services = w.registry.map (fun s => s.name) ∧
      w2 = (w.pop.record .registry_list).pop := by
    rcases alloc_cases (w.pop.record .registry_list) with ha | ha <;>
      simp only [bus_registry_list_services, ha, Prod.mk.injEq, Option.some.injEq] at h2
    · exact ⟨by rw [← h2.1]; simp, h2.2.symm⟩
    · simp at h2
  obtain ⟨rfl, rfl⟩ := hs
  split at h
  · simp at h
  rename_i sub w3 h3
  have hs3 : sub = [] ∧ w3 = (w.pop.record .registry_list).pop.pop := by
    rcases alloc_cases (w.pop.record .registry_list).pop with ha | ha <;>
      simp only [dbus_message_iter_open_container, ha, Prod.mk.injEq, Option.some.injEq] at h3
    · exact ⟨h3.1.symm, h3.2.symm⟩
    · simp at h3
  obtain ⟨rfl, rfl⟩ := hs3
  split at h
  · simp at h
  rename_i sub1 w4 h4
  have hs4 : sub1 = [DBUS_SERVICE_DBUS] ∧ w4 = (w.pop.record .registry_list).pop.pop.pop := by
    rcases alloc_cases (w.pop.record .registry_list).pop.pop with ha | ha <;>
      simp only [dbus_message_iter_append_basic, ha, Prod.mk.injEq, Option.some.injEq] at h4
    · exact ⟨by rw [← h4.1]; simp, h4.2.symm⟩
    · simp at h4
  obtain ⟨rfl, rfl⟩ := hs4
  split at h
  · simp at h
  rename_i sub2 w5 h5
  obtain ⟨rfl, t5, c5, r5⟩ := append_services_some _ _ _ _ _ h5
  split at h
  · simp at h
  rename_i reply1 w6 h6
  have hs6 : reply1 = method_return_to message
      [.string_array (DBUS_SERVICE_DBUS :: w.registry.map (fun s => s.name))] ∧
      w6 = w5.pop := by
    rcases alloc_cases w5 with ha | ha <;>
      simp only [dbus_message_iter_close_container, ha, Prod.mk.injEq, Option.some.injEq] at h6
    · exact ⟨by rw [← h6.1]; simp [method_return_to], h6.2.symm⟩
    · simp at h6
  obtain ⟨rfl, rfl⟩ := hs6
  split at h
  · simp at h
  rename_i w7 h7
  have e7 := send_true _ _ _ _ h7
  subst e7
  simp only [Outcome.returned.injEq, Prod.mk.injEq, true_and] at h
  subst h
  refine ⟨?_, by simp, ?_⟩
  · simpa using t5
  · simpa using r5

theorem list_services_reply_witness :
    bus_driver_handle_list_services sample_two_names 3 (sample_call "ListNames" []) =
      .returned (true, { sample_two_names with
        transaction := [(3, method_return_to (sample_call "ListNames" [])
          [.string_array [DBUS_SERVICE_DBUS, ":1.7", "com.example.A"]])],
        calls := [.registry_list, .transaction_send 3 (method_return_to
          (sample_call "ListNames" [])
          [.string_array [DBUS_SERVICE_DBUS, ":1.7", "com.example.A"]])] }) ∧
    ({ sample_two_names with
        transaction := [(3, method_return_to (sample_call "ListNames" [])
          [.string_array [DBUS_SERVICE_DBUS, ":1.7", "com.example.A"]])],
        calls := [.registry_list, .transaction_send 3 (method_return_to
          (sample_call "ListNames" [])
          [.string_array [DBUS_SERVICE_DBUS, ":1.7", "com.example.A"]])] } :
          BusState).transaction =
      sample_two_names.transaction ++
        [(3, method_return_to (sample_call "ListNames" [])
          [.string_array (DBUS_SERVICE_DBUS :: sample_two_names.registry.map (fun s => s.name))])] :=
  ⟨by decide, (list_services_reply sample_two_names 3 (sample_call "ListNames" []) _
    (by decide)).1⟩

/-! ## AddMatch: the per-connection limit -/

theorem next_error_mem (w : BusState) (e : DBusError) (h : w.next_error = some e) :
    some e ∈ w.script := by
  unfold BusState.next_error at h
  cases hs : w.script with
  | nil => simp [hs] at h
  | cons o rest =>
    simp only [hs, List.head?_cons] at h
    simp at h
    simp [h]

theorem get_args_string_none (w : BusState) (m : DBusMessage) (w1 : BusState)
    (h : dbus_message_get_args_string w m = (none, w1)) :
    ∃ e, w1 = w.pop.set_error e ∧ (some e ∈ w.script ∨ e.name = DBUS_ERROR_INVALID_ARGS) := by
  unfold dbus_message_get_args_string at h
  split at h
  · rename_i w2 h2
    obtain ⟨e, he, rfl⟩ := collaborator_false _ _ h2
    simp only [Prod.mk.injEq, true_and] at h
    exact ⟨e, h.symm, Or.inl (next_error_mem w e he)⟩
  · rename_i w2 h2
    obtain ⟨-, rfl⟩ := collaborator_true _ _ h2
    split at h
    · simp at h
    · simp only [Prod.mk.injEq, true_and] at h
      exact ⟨_, h.symm, Or.inr rfl⟩

theorem get_args_string_some (w : BusState) (m : DBusMessage) (s : String) (w1 : BusState)
    (h : dbus_message_get_args_string w m = (some s, w1)) :
    w1 = w.pop ∧ ∃ rest, m.body = .string s :: rest := by
  unfold dbus_message_get_args_string at h
  split at h
  · simp at h
  · rename_i w2 h2
    obtain ⟨-, rfl⟩ := collaborator_true _ _ h2
    split at h
    · rename_i s' rest hb
      simp only [Prod.mk.injEq, Option.some.injEq] at h
      exact ⟨h.2.symm, rest, by rw [hb, h.1]⟩
    · simp at h

theorem parse_none (w : BusState) (c : Nat) (text : String) (w1 : BusState)
    (h : bus_match_rule_parse w c text = (none, w1)) :
    ∃ e, w1 = (w.record (.match_rule_parse c text)).pop.set_error e ∧ some e ∈ w.script := by
  unfold bus_match_rule_parse at h
  split at h
  · rename_i w2 h2
    obtain ⟨e, he, rfl⟩ := collaborator_false _ _ h2
    simp only [Prod.mk.injEq, true_and] at h
    exact ⟨e, h.symm, next_error_mem w e he⟩
  · simp at h

theorem parse_some (w : BusState) (c : Nat) (text : String) (rule : BusMatchRule)
    (w1 : BusState) (h : bus_match_rule_parse w c text = (some rule, w1)) :
    rule = { matches_go_to := c, text := text } ∧
    w1 = (w.record (.match_rule_parse c text)).pop := by
  unfold bus_match_rule_parse at h
  split at h
  · simp at h
  · rename_i w2 h2
    obtain ⟨-, rfl⟩ := collaborator_true _ _ h2
    simp only [Prod.mk.injEq, Option.some.injEq] at h
    exact ⟨h.1.symm, h.2.symm⟩

theorem add_rule_eq (w : BusState) (rule : BusMatchRule) (b : Bool) (w1 : BusState)
    (h : bus_matchmaker_add_rule w rule = (b, w1)) :
    w1.error = w.error ∧ w1.script = w.script.tail := by
  rcases alloc_cases (w.record (.matchmaker_add rule)) with ha | ha <;>
    simp only [bus_matchmaker_add_rule, ha, Prod.mk.injEq] at h <;>
    obtain ⟨-, rfl⟩ := h <;> simp

theorem send_ack_reply_false (w : BusState) (c : Nat) (m : DBusMessage) (w1 : BusState)
    (h : send_ack_reply w c m = (false, w1)) :
    w1.error = some ⟨DBUS_ERROR_NO_MEMORY, bus_no_memory_message⟩ := by
  unfold send_ack_reply at h
  split at h
  · simp only [Prod.mk.injEq, true_and] at h
    rw [← h]; simp
  · split at h
    · simp only [Prod.mk.injEq, true_and] at h
      rw [← h]; simp
    · simp at h

theorem send_ack_reply_true (w : BusState) (c : Nat) (m : DBusMessage) (w1 : BusState)
    (h : send_ack_reply w c m = (true, w1)) :
    w1 = (w.pop.record (.transaction_send c (method_return_to m []))).pop.enqueue c
      (method_return_to m []) := by
  unfold send_ack_reply at h
  split at h
  · simp at h
  · rename_i reply w2 h2
    obtain ⟨rfl, hr⟩ := new_method_return_eq _ _ _ _ h2
    have := hr reply rfl
    subst this
    split at h
    · simp at h
    · rename_i w3 h3
      have := send_true _ _ _ _ h3
      subst this
      simp only [Prod.mk.injEq, true_and] at h
      exact h.symm

/-- C10: with `n` rules held and a maximum of `L`: if `n >= L`, AddMatch fails
with LimitsExceeded, the message naming the connection by its unique name when
it is active and by `(inactive)` otherwise, and the state differs from the
entry state in the error only (nothing parsed, inserted or enqueued); if
`n < L` and no collaborator reports a LimitsExceeded error of its own, AddMatch
never ends with a LimitsExceeded error. -/
theorem add_match_limit (w : BusState) (connection : Nat) (message : DBusMessage)
    (herr : w.error = none) :
    (bus_connection_get_n_match_rules w connection ≥
        bus_context_get_max_match_rules_per_connection w →
      bus_driver_handle_add_match w connection message =
        .returned (false, w.set_error ⟨DBUS_ERROR_LIMITS_EXCEEDED,
          match_rule_limit_message
            (match bus_connection_get_name w connection with
              | some name => name
              | none => "(inactive)")⟩)) ∧
    (bus_connection_get_n_match_rules w connection <
        bus_context_get_max_match_rules_per_connection w →
      (∀ e, some e ∈ w.script → e.name ≠ DBUS_ERROR_LIMITS_EXCEEDED) →
      ∀ (r : Bool) (w' : BusState),
        bus_driver_handle_add_match w connection message = .returned (r, w') →
        ∀ e, w'.error = some e → e.name ≠ DBUS_ERROR_LIMITS_EXCEEDED) := by
  refine ⟨fun hfull => ?_, fun hroom hscript r w' h e he => ?_⟩
  · cases hname : bus_connection_get_name w connection <;>
      simp [bus_driver_handle_add_match, herr, hfull, return_failed, bus_connection_is_active,
        hname, match_rule_limit_message]
  · have hnot : ¬ (bus_connection_get_n_match_rules w connection ≥
        bus_context_get_max_match_rules_per_connection w) := not_le.mpr hroom
    have hoom : ∀ x : DBusError, x = ⟨DBUS_ERROR_NO_MEMORY, bus_no_memory_message⟩ →
        x.name ≠ DBUS_ERROR_LIMITS_EXCEEDED := by
      intro x hx; rw [hx]; decide
    unfold bus_driver_handle_add_match at h
    simp only [herr, Option.isSome_none, Bool.false_eq_true, if_false, hnot] at h
    split at h
    · rename_i w1 h1
      obtain ⟨e1, rfl, hsrc⟩ := get_args_string_none _ _ _ h1
      simp only [return_failed, BusState.set_error_error, Option.isSome_some, if_true,
        Outcome.returned.injEq, Prod.mk.injEq] at h
      obtain ⟨-, rfl⟩ := h
      simp only [BusState.set_error_error, Option.some.injEq] at he
      subst he
      rcases hsrc with hsrc | hsrc
      · exact hscript _ hsrc
      · rw [hsrc]; decide
    rename_i text w1 h1
    obtain ⟨rfl, -⟩ := get_args_string_some _ _ _ _ h1
    split at h
    · rename_i w2 h2
      obtain ⟨e2, rfl, hsrc⟩ := parse_none _ _ _ _ h2
      simp only [return_failed, BusState.set_error_error, Option.isSome_some, if_true,
        Outcome.returned.injEq, Prod.mk.injEq] at h
      obtain ⟨-, rfl⟩ := h
      simp only [BusState.set_error_error, Option.some.injEq] at he
      subst he
      exact hscript _ (List.mem_of_mem_tail hsrc)
    rename_i rule w2 h2
    obtain ⟨rfl, rfl⟩ := parse_some _ _ _ _ _ h2
    split at h
    · rename_i w3 h3
      simp only [return_failed, BUS_SET_OOM_eq, BusState.set_error_error, Option.isSome_some,
        if_true, Outcome.returned.injEq, Prod.mk.injEq] at h
      obtain ⟨-, rfl⟩ := h
      simp only [BusState.set_error_error, Option.some.injEq] at he
      exact hoom e he.symm
    rename_i w3 h3
    obtain ⟨g1, -⟩ := add_rule_eq _ _ _ _ h3
    split at h
    · rename_i w4 h4
      have h4e := send_ack_reply_false _ _ _ _ h4
      have hrem : (bus_matchmaker_remove_rule w4
          { matches_go_to := connection, text := text }).error = w4.error := by
        simp [bus_matchmaker_remove_rule]
      simp only [return_failed, hrem, h4e, Option.isSome_some, if_true,
        Outcome.returned.injEq, Prod.mk.injEq] at h
      obtain ⟨-, rfl⟩ := h
      rw [hrem, h4e] at he
      simp only [Option.some.injEq] at he
      exact hoom e he.symm
    · rename_i w4 h4
      have := send_ack_reply_true _ _ _ _ h4
      subst this
      simp only [Outcome.returned.injEq, Prod.mk.injEq] at h
      obtain ⟨-, rfl⟩ := h
      simp [g1, herr] at he

theorem add_match_limit_witness :
    bus_driver_handle_add_match sample_rules_full 3
        (sample_call "AddMatch" [.string "type=signal"]) =
      .returned (false, { sample_rules_full with error := some ⟨DBUS_ERROR_LIMITS_EXCEEDED,
        "Connection \"(inactive)\" is not allowed to add more match rules " ++
          "(increase limits in configuration file if required)"⟩ }) ∧
    (∀ e, ({ sample_state with error := some sample_oom } : BusState).error = some e →
      e.name ≠ DBUS_ERROR_LIMITS_EXCEEDED) :=
  ⟨(add_match_limit sample_rules_full 3 (sample_call "AddMatch" [.string "type=signal"])
      rfl).1 (by decide),
   (add_match_limit { sample_state with script := [some sample_oom] } 3
      (sample_call "AddMatch" [.string "type=signal"]) rfl).2 (by decide)
      (by
        intro e he
        have : e = sample_oom := by simpa [sample_state] using he
        rw [this]; decide)
      false { sample_state with error := some sample_oom } (by decide)⟩

/-! ## RemoveMatch: acknowledge, then remove -/

theorem send_ack_reply_false_frame (w : BusState) (c : Nat) (m : DBusMessage) (w1 : BusState)
    (h : send_ack_reply w c m = (false, w1)) :
    w1.transaction = w.transaction ∧ w1.matchmaker = w.matchmaker ∧
    w1.connections = w.connections ∧ w1.registry = w.registry ∧
    (w1.calls = w.calls ∨
      w1.calls = w.calls ++ [.transaction_send c (method_return_to m [])]) := by
  unfold send_ack_reply at h
  split at h
  · rename_i w2 h2
    obtain ⟨rfl, -⟩ := new_method_return_eq _ _ _ _ h2
    simp only [Prod.mk.injEq, true_and] at h
    subst h
    simp
  · rename_i reply w2 h2
    obtain ⟨rfl, hr⟩ := new_method_return_eq _ _ _ _ h2
    have := hr reply rfl
    subst this
    split at h
    · rename_i w3 h3
      have := send_false _ _ _ _ h3
      subst this
      simp only [Prod.mk.injEq, true_and] at h
      subst h
      simp
    · simp at h

theorem remove_by_value_eq (w : BusState) (rule : BusMatchRule) (b : Bool) (w1 : BusState)
    (h : bus_matchmaker_remove_rule_by_value w rule = (b, w1)) :
    w1.calls = w.calls ++ [.matchmaker_remove_by_value rule] ∧
    w1.transaction = w.transaction ∧
    (b = false → w1.error.isSome = true ∧ w1.matchmaker = w.matchmaker ∧
      w1.connections = w.connections) ∧
    (b = true → w1.error = w.error ∧ rule ∈ w.matchmaker ∧
      w1.matchmaker = remove_last_rule w.matchmaker rule) := by
  unfold bus_matchmaker_remove_rule_by_value at h
  split at h
  · rename_i w2 h2
    obtain ⟨e, -, rfl⟩ := collaborator_false _ _ h2
    simp only [Prod.mk.injEq] at h
    obtain ⟨rfl, rfl⟩ := h
    simp
  · rename_i w2 h2
    obtain ⟨-, rfl⟩ := collaborator_true _ _ h2
    split at h
    · rename_i hmem
      simp only [Prod.mk.injEq] at h
      obtain ⟨rfl, rfl⟩ := h
      simp only [BusState.pop_matchmaker, BusState.record_matchmaker] at hmem
      simp [hmem]
    · simp only [Prod.mk.injEq] at h
      obtain ⟨rfl, rfl⟩ := h
      simp

/-- C11: for a RemoveMatch call whose arguments are read and whose rule text
parses to `rule`: if enqueueing the acknowledgement fails the handler fails
without any call to the matchmaker; if it succeeds the acknowledgement (an
empty-bodied method return) is on the queue before `remove-by-value` is called,
and whatever that call returns is the handler's result: when it fails the
handler fails with the matchmaker's error and state, the acknowledgement still
queued and the rules untouched. -/
theorem remove_match_order (w : BusState) (connection : Nat) (message : DBusMessage)
    (text : String) (w1 : BusState) (rule : BusMatchRule) (w2 : BusState)
    (herr : w.error = none)
    (hargs : dbus_message_get_args_string w message = (some text, w1))
    (hparse : bus_match_rule_parse w1 connection text = (some rule, w2)) :
    (∀ w3, send_ack_reply w2 connection message = (false, w3) →
      bus_driver_handle_remove_match w connection message = .returned (false, w3) ∧
      w3.transaction = w.transaction ∧ w3.matchmaker = w.matchmaker ∧
      (w3.calls = w.calls ++ [.match_rule_parse connection text] ∨
        w3.calls = w.calls ++ [.match_rule_parse connection text,
          .transaction_send connection (method_return_to message [])])) ∧
    (∀ w3, send_ack_reply w2 connection message = (true, w3) →
      w3.transaction = w.transaction ++ [(connection, method_return_to message [])] ∧
      w3.calls = w.calls ++ [.match_rule_parse connection text,
        .transaction_send connection (method_return_to message [])] ∧
      ∀ b w4, bus_matchmaker_remove_rule_by_value w3 rule = (b, w4) →
        bus_driver_handle_remove_match w connection message = .returned (b, w4) ∧
        w4.calls = w.calls ++ [.match_rule_parse connection text,
          .transaction_send connection (method_return_to message []),
          .matchmaker_remove_by_value rule] ∧
        w4.transaction = w.transaction ++ [(connection, method_return_to message [])] ∧
        (b = false → w4.error.isSome = true ∧ w4.matchmaker = w.matchmaker)) := by
  obtain ⟨rfl, -⟩ := get_args_string_some _ _ _ _ hargs
  obtain ⟨rfl, rfl⟩ := parse_some _ _ _ _ _ hparse
  refine ⟨fun w3 hack => ?_, fun w3 hack => ?_⟩
  · obtain ⟨f1, f2, -, -, f5⟩ := send_ack_reply_false_frame _ _ _ _ hack
    have herr3 := send_ack_reply_false _ _ _ _ hack
    refine ⟨?_, by simpa using f1, by simpa using f2, ?_⟩
    · simp [bus_driver_handle_remove_match, herr, hargs, hparse, hack, return_failed, herr3]
    · rcases f5 with f5 | f5
      · left; simpa using f5
      · right; simpa using f5
  · have := send_ack_reply_true _ _ _ _ hack
    subst this
    refine ⟨by simp, by simp, fun b w4 hrem => ?_⟩
    obtain ⟨g1, g2, g3, g4⟩ := remove_by_value_eq _ _ _ _ hrem
    refine ⟨?_, by simpa using g1, by simpa using g2, fun hb => ?_⟩
    · cases b
      · have := (g3 rfl).1
        simp [bus_driver_handle_remove_match, herr, hargs, hparse, hack, hrem, return_failed,
          this]
      · simp [bus_driver_handle_remove_match, herr, hargs, hparse, hack, hrem]
    · exact ⟨(g3 hb).1, by simpa using (g3 hb).2.1⟩

theorem remove_match_order_witness :
    bus_driver_handle_remove_match sample_state 3 (sample_match_call "RemoveMatch") =
      .returned (false, sample_after_remove_match) ∧
    sample_after_remove_match.calls = sample_state.calls ++
      [.match_rule_parse 3 "type=signal", .transaction_send 3 (sample_ack "RemoveMatch"),
       .matchmaker_remove_by_value sample_rule] ∧
    sample_after_remove_match.transaction =
      sample_state.transaction ++ [(3, sample_ack "RemoveMatch")] ∧
    (false = false → sample_after_remove_match.error.isSome = true ∧
      sample_after_remove_match.matchmaker = sample_state.matchmaker) :=
  ((remove_match_order sample_state 3 (sample_match_call "RemoveMatch") "type=signal"
    sample_state sample_rule sample_parsed rfl (by decide) (by decide)).2
    sample_remove_acked (by decide)).2.2 false sample_after_remove_match (by decide)

/-! ## Introspection -/

theorem append_all_true : ∀ (l : List String) (w : BusState) (xml xml' : String)
    (w' : BusState), append_all w xml l = (true, xml', w') →
    xml' = xml ++ concat_all l ∧ w'.transaction = w.transaction ∧ w'.error = w.error ∧
      w'.calls = w.calls := by
  intro l
  induction l with
  | nil =>
    intro w xml xml' w' h
    simp only [append_all, Prod.mk.injEq, true_and] at h
    obtain ⟨rfl, rfl⟩ := h
    simp [concat_all]
  | cons s rest ih =>
    intro w xml xml' w' h
    simp only [append_all] at h
    split at h
    · simp at h
    rename_i xml1 w1 h1
    obtain ⟨rfl, rfl⟩ := append_true _ _ _ _ _ h1
    obtain ⟨e1, e2, e3, e4⟩ := ih _ _ _ _ h
    refine ⟨?_, by simpa using e2, by simpa using e3, by simpa using e4⟩
    rw [e1]
    simp [concat_all, String.append_assoc]

theorem write_args_loop_true (is_in : Bool) : ∀ (fuel : Nat) (w : BusState) (xml : String)
    (sig : List Char) (xml' : String) (w' : BusState),
    write_args_loop is_in fuel w xml sig = .returned (true, xml', w') →
    xml' = xml ++ concat_all
        ((complete_types fuel sig).map (arg_element (if is_in then "in" else "out"))) ∧
      w'.transaction = w.transaction ∧ w'.error = w.error ∧ w'.calls = w.calls := by
  intro fuel
  induction fuel with
  | zero =>
    intro w xml sig xml' w' h
    cases sig with
    | nil =>
      simp only [write_args_loop, Outcome.returned.injEq, Prod.mk.injEq, true_and] at h
      obtain ⟨rfl, rfl⟩ := h
      simp [complete_types, concat_all]
    | cons c cs => simp [write_args_loop] at h
  | succ f ih =>
    intro w xml sig xml' w' h
    cases sig with
    | nil =>
      simp only [write_args_loop, Outcome.returned.injEq, Prod.mk.injEq, true_and] at h
      obtain ⟨rfl, rfl⟩ := h
      simp [complete_types, concat_all]
    | cons c cs =>
      simp only [write_args_loop] at h
      split at h
      · simp at h
      rename_i xml1 w1 h1
      split at h
      · simp at h
      rename_i xml2 w2 h2
      split at h
      · simp at h
      rename_i xml3 w3 h3
      obtain ⟨rfl, rfl⟩ := append_true _ _ _ _ _ h1
      obtain ⟨rfl, rfl⟩ := append_true _ _ _ _ _ h2
      obtain ⟨rfl, rfl⟩ := append_true _ _ _ _ _ h3
      obtain ⟨e1, e2, e3, e4⟩ := ih _ _ _ _ _ h
      refine ⟨?_, by simpa using e2, by simpa using e3, by simpa using e4⟩
      rw [e1]
      simp [complete_types, concat_all, arg_element, String.append_assoc]

theorem write_methods_true : ∀ (table : List MessageHandler) (w : BusState) (xml xml' : String)
    (w' : BusState), write_methods w xml table = .returned (true, xml', w') →
    xml' = xml ++ concat_all (table.map method_element) ∧
      w'.transaction = w.transaction ∧ w'.error = w.error ∧ w'.calls = w.calls := by
  intro table
  induction table with
  | nil =>
    intro w xml xml' w' h
    simp only [write_methods, Outcome.returned.injEq, Prod.mk.injEq, true_and] at h
    obtain ⟨rfl, rfl⟩ := h
    simp [concat_all]
  | cons hd rest ih =>
    intro w xml xml' w' h
    simp only [write_methods] at h
    split at h
    · simp at h
    rename_i xml1 w1 h1
    obtain ⟨rfl, rfl⟩ := append_true _ _ _ _ _ h1
    split at h
    · simp at h
    · simp at h
    · simp at h
    rename_i xml2 w2 h2
    obtain ⟨a1, a2, a3, a4⟩ := write_args_loop_true _ _ _ _ _ _ _ h2
    split at h
    · simp at h
    · simp at h
    · simp at h
    rename_i xml3 w3 h3
    obtain ⟨b1, b2, b3, b4⟩ := write_args_loop_true _ _ _ _ _ _ _ h3
    split at h
    · simp at h
    rename_i xml4 w4 h4
    obtain ⟨rfl, rfl⟩ := append_true _ _ _ _ _ h4
    obtain ⟨e1, e2, e3, e4⟩ := ih _ _ _ _ h
    refine ⟨?_, ?_, ?_, ?_⟩
    · rw [e1, b1, a1]
      simp [concat_all, method_element, top_level_types, String.append_assoc]
    · rw [e2]; simp [b2, a2]
    · rw [e3]; simp [b3, a3]
    · rw [e4]; simp [b4, a4]

theorem introspect_xml_true (w : BusState) (xml : String) (w' : BusState)
    (h : introspect_xml w = .returned (true, xml, w')) :
    xml = introspection_document message_handlers ∧
      w'.transaction = w.transaction ∧ w'.error = w.error ∧ w'.calls = w.calls := by
  unfold introspect_xml at h
  split at h
  · simp at h
  rename_i w1 h1
  obtain ⟨-, rfl⟩ := alloc_eq _ _ _ h1
  split at h
  · simp at h
  rename_i xml1 w2 h2
  obtain ⟨a1, a2, a3, a4⟩ := append_all_true _ _ _ _ _ h2
  split at h
  · simp at h
  · simp at h
  · simp at h
  rename_i xml2 w3 h3
  obtain ⟨b1, b2, b3, b4⟩ := write_methods_true _ _ _ _ _ h3
  simp only [Outcome.returned.injEq] at h
  obtain ⟨c1, c2, c3, c4⟩ := append_all_true _ _ _ _ _ h
  refine ⟨?_, ?_, ?_, ?_⟩
  · have hhead : "" ++ concat_all
        [ DBUS_INTROSPECT_1_0_XML_DOCTYPE_DECL_NODE,
          "<node>\n",
          "  <interface name=\"" ++ DBUS_INTERFACE_INTROSPECTABLE ++ "\">\n",
          "    <method name=\"Introspect\">\n",
          "      <arg name=\"data\" direction=\"out\" type=\"" ++ "s" ++ "\"/>\n",
          "    </method>\n",
          "  </interface>\n",
          "  <interface name=\"" ++ DBUS_INTERFACE_DBUS ++ "\">\n" ] = document_head := by
      simp [concat_all, document_head, DBUS_INTROSPECT_1_0_XML_DOCTYPE_DECL_NODE,
        DBUS_INTERFACE_INTROSPECTABLE, DBUS_INTERFACE_DBUS, introspect_method_element]
    have htail : concat_all ["  </interface>\n", "</node>\n"] = document_tail := by
      simp [concat_all, document_tail]
    rw [c1, b1, a1, hhead, htail, introspection_document, String.append_assoc]
  · rw [c2, b2, a2]; rfl
  · rw [c3, b3, a3]; rfl
  · rw [c4, b4, a4]; rfl

theorem append_all_frame : ∀ (l : List String) (w : BusState) (xml : String) (b : Bool)
    (xml' : String) (w' : BusState), append_all w xml l = (b, xml', w') →
    w'.transaction = w.transaction ∧ w'.error = w.error := by
  intro l
  induction l with
  | nil =>
    intro w xml b xml' w' h
    simp only [append_all, Prod.mk.injEq] at h
    obtain ⟨-, -, rfl⟩ := h
    exact ⟨rfl, rfl⟩
  | cons s rest ih =>
    intro w xml b xml' w' h
    simp only [append_all] at h
    split at h
    · rename_i xml1 w1 h1
      have := append_frame _ _ _ _ _ _ h1
      subst this
      simp only [Prod.mk.injEq] at h
      obtain ⟨-, -, rfl⟩ := h
      exact ⟨rfl, rfl⟩
    · rename_i xml1 w1 h1
      have := append_frame _ _ _ _ _ _ h1
      subst this
      obtain ⟨e1, e2⟩ := ih _ _ _ _ _ h
      exact ⟨by simpa using e1, by simpa using e2⟩

theorem write_args_loop_frame (is_in : Bool) : ∀ (fuel : Nat) (w : BusState) (xml : String)
    (sig : List Char) (b : Bool) (xml' : String) (w' : BusState),
    write_args_loop is_in fuel w xml sig = .returned (b, xml', w') →
    w'.transaction = w.transaction ∧ w'.error = w.error := by
  intro fuel
  induction fuel with
  | zero =>
    intro w xml sig b xml' w' h
    cases sig with
    | nil =>
      simp only [write_args_loop, Outcome.returned.injEq, Prod.mk.injEq] at h
      obtain ⟨-, -, rfl⟩ := h
      exact ⟨rfl, rfl⟩
    | cons c cs => simp [write_args_loop] at h
  | succ f ih =>
    intro w xml sig b xml' w' h
    cases sig with
    | nil =>
      simp only [write_args_loop, Outcome.returned.injEq, Prod.mk.injEq] at h
      obtain ⟨-, -, rfl⟩ := h
      exact ⟨rfl, rfl⟩
    | cons c cs =>
      simp only [write_args_loop] at h
      split at h
      · rename_i xml1 w1 h1
        have := append_frame _ _ _ _ _ _ h1
        subst this
        simp only [Outcome.returned.injEq, Prod.mk.injEq] at h
        obtain ⟨-, -, rfl⟩ := h
        exact ⟨rfl, rfl⟩
      rename_i xml1 w1 h1
      have := append_frame _ _ _ _ _ _ h1
      subst this
      split at h
      · rename_i xml2 w2 h2
        have := append_frame _ _ _ _ _ _ h2
        subst this
        simp only [Outcome.returned.injEq, Prod.mk.injEq] at h
        obtain ⟨-, -, rfl⟩ := h
        exact ⟨rfl, rfl⟩
      rename_i xml2 w2 h2
      have := append_frame _ _ _ _ _ _ h2
      subst this
      split at h
      · rename_i xml3 w3 h3
        have := append_frame _ _ _ _ _ _ h3
        subst this
        simp only [Outcome.returned.injEq, Prod.mk.injEq] at h
        obtain ⟨-, -, rfl⟩ := h
        exact ⟨rfl, rfl⟩
      rename_i xml3 w3 h3
      have := append_frame _ _ _ _ _ _ h3
      subst this
      obtain ⟨e1, e2⟩ := ih _ _ _ _ _ _ h
      exact ⟨by simpa using e1, by simpa using e2⟩

theorem write_methods_frame : ∀ (table : List MessageHandler) (w : BusState) (xml : String)
    (b : Bool) (xml' : String) (w' : BusState),
    write_methods w xml table = .returned (b, xml', w') →
    w'.transaction = w.transaction ∧ w'.error = w.error := by
  intro table
  induction table with
  | nil =>
    intro w xml b xml' w' h
    simp only [write_methods, Outcome.returned.injEq, Prod.mk.injEq] at h
    obtain ⟨-, -, rfl⟩ := h
    exact ⟨rfl, rfl⟩
  | cons hd rest ih =>
    intro w xml b xml' w' h
    simp only [write_methods] at h
    split at h
    · rename_i xml1 w1 h1
      have := append_frame _ _ _ _ _ _ h1
      subst this
      simp only [Outcome.returned.injEq, Prod.mk.injEq] at h
      obtain ⟨-, -, rfl⟩ := h
      exact ⟨rfl, rfl⟩
    rename_i xml1 w1 h1
    have := append_frame _ _ _ _ _ _ h1
    subst this
    split at h
    · simp at h
    · simp at h
    · rename_i xml2 w2 h2
      obtain ⟨a1, a2⟩ := write_args_loop_frame _ _ _ _ _ _ _ _ h2
      simp only [Outcome.returned.injEq, Prod.mk.injEq] at h
      obtain ⟨-, -, rfl⟩ := h
      exact ⟨by simpa using a1, by simpa using a2⟩
    rename_i xml2 w2 h2
    obtain ⟨a1, a2⟩ := write_args_loop_frame _ _ _ _ _ _ _ _ h2
    split at h
    · simp at h
    · simp at h
    · rename_i xml3 w3 h3
      obtain ⟨b1, b2⟩ := write_args_loop_frame _ _ _ _ _ _ _ _ h3
      simp only [Outcome.returned.injEq, Prod.mk.injEq] at h
      obtain ⟨-, -, rfl⟩ := h
      exact ⟨by rw [b1]; simpa using a1, by rw [b2]; simpa using a2⟩
    rename_i xml3 w3 h3
    obtain ⟨b1, b2⟩ := write_args_loop_frame _ _ _ _ _ _ _ _ h3
    split at h
    · rename_i xml4 w4 h4
      have := append_frame _ _ _ _ _ _ h4
      subst this
      simp only [Outcome.returned.injEq, Prod.mk.injEq] at h
      obtain ⟨-, -, rfl⟩ := h
      exact ⟨by simp [b1, a1], by simp [b2, a2]⟩
    rename_i xml4 w4 h4
    have := append_frame _ _ _ _ _ _ h4
    subst this
    obtain ⟨e1, e2⟩ := ih _ _ _ _ _ h
    exact ⟨by rw [e1]; simp [b1, a1], by rw [e2]; simp [b2, a2]⟩

theorem introspect_xml_frame (w : BusState) (b : Bool) (xml : String) (w' : BusState)
    (h : introspect_xml w = .returned (b, xml, w')) :
    w'.transaction = w.transaction ∧ w'.error = w.error := by
  unfold introspect_xml at h
  split at h
  · rename_i w1 h1
    obtain ⟨-, rfl⟩ := alloc_eq _ _ _ h1
    simp only [Outcome.returned.injEq, Prod.mk.injEq] at h
    obtain ⟨-, -, rfl⟩ := h
    exact ⟨rfl, rfl⟩
  rename_i w1 h1
  obtain ⟨-, rfl⟩ := alloc_eq _ _ _ h1
  split at h
  · rename_i xml1 w2 h2
    obtain ⟨a1, a2⟩ := append_all_frame _ _ _ _ _ _ h2
    simp only [Outcome.returned.injEq, Prod.mk.injEq] at h
    obtain ⟨-, -, rfl⟩ := h
    exact ⟨by simpa using a1, by simpa using a2⟩
  rename_i xml1 w2 h2
  obtain ⟨a1, a2⟩ := append_all_frame _ _ _ _ _ _ h2
  split at h
  · simp at h
  · simp at h
  · rename_i xml2 w3 h3
    obtain ⟨b1, b2⟩ := write_methods_frame _ _ _ _ _ _ h3
    simp only [Outcome.returned.injEq, Prod.mk.injEq] at h
    obtain ⟨-, -, rfl⟩ := h
    exact ⟨by rw [b1]; simpa using a1, by rw [b2]; simpa using a2⟩
  rename_i xml2 w3 h3
  obtain ⟨b1, b2⟩ := write_methods_frame _ _ _ _ _ _ h3
  simp only [Outcome.returned.injEq] at h
  obtain ⟨c1, c2⟩ := append_all_frame _ _ _ _ _ _ h
  exact ⟨by rw [c1, b1]; simpa using a1, by rw [c2, b2]; simpa using a2⟩

theorem scan_to_close_length (o c : Char) : ∀ (l : List Char) (depth : Nat),
    (scan_to_close o c depth l).2.length ≤ l.length := by
  intro l
  induction l with
  | nil => intro depth; simp [scan_to_close]
  | cons x xs ih =>
    intro depth
    simp only [scan_to_close]
    split
    · cases depth with
      | zero => simp
      | succ d => simp only [List.length_cons]; exact Nat.le_succ_of_le (ih d)
    · split
      · simp only [List.length_cons]; exact Nat.le_succ_of_le (ih _)
      · simp only [List.length_cons]; exact Nat.le_succ_of_le (ih _)

theorem first_complete_type_length : ∀ (l : List Char),
    (first_complete_type l).2.length ≤ l.length - 1 := by
  intro l
  induction l with
  | nil => simp [first_complete_type]
  | cons c rest ih =>
    simp only [first_complete_type]
    split
    · simp only [List.length_cons, Nat.add_sub_cancel]; omega
    · split
      · simp only [List.length_cons, Nat.add_sub_cancel]
        exact scan_to_close_length _ _ _ _
      · split
        · simp only [List.length_cons, Nat.add_sub_cancel]
          exact scan_to_close_length _ _ _ _
        · simp

theorem write_args_loop_ok (is_in : Bool) : ∀ (fuel : Nat) (w : BusState) (xml : String)
    (sig : List Char), w.no_failure → sig.length ≤ fuel →
    ∃ xml' w', write_args_loop is_in fuel w xml sig = .returned (true, xml', w') ∧
      w'.no_failure := by
  intro fuel
  induction fuel with
  | zero =>
    intro w xml sig hok hlen
    cases sig with
    | nil => exact ⟨xml, w, by simp [write_args_loop], hok⟩
    | cons c cs => simp at hlen
  | succ f ih =>
    intro w xml sig hok hlen
    cases sig with
    | nil => exact ⟨xml, w, by simp [write_args_loop], hok⟩
    | cons c cs =>
      have n0 := no_failure_next _ hok
      have ok1 := no_failure_of_script w w.pop hok rfl
      have n1 := no_failure_next _ ok1
      have ok2 := no_failure_of_script w.pop w.pop.pop ok1 rfl
      have n2 := no_failure_next _ ok2
      have ok3 := no_failure_of_script w.pop.pop w.pop.pop.pop ok2 rfl
      simp only [write_args_loop, append_ok _ _ _ n0, append_ok _ _ _ n1, append_ok _ _ _ n2]
      apply ih _ _ _ ok3
      have := first_complete_type_length (c :: cs)
      simp only [List.length_cons, Nat.add_sub_cancel] at this hlen
      omega

theorem write_methods_ok : ∀ (table : List MessageHandler) (w : BusState) (xml : String),
    w.no_failure →
    ∃ xml' w', write_methods w xml table = .returned (true, xml', w') ∧ w'.no_failure := by
  intro table
  induction table with
  | nil => intro w xml hok; exact ⟨xml, w, by simp [write_methods], hok⟩
  | cons hd rest ih =>
    intro w xml hok
    have n0 := no_failure_next _ hok
    have ok1 := no_failure_of_script w w.pop hok rfl
    obtain ⟨x2, w2, h2, ok2⟩ := write_args_loop_ok true hd.in_args.data.length w.pop
      (xml ++ ("    <method name=\"" ++ hd.name ++ "\">\n")) hd.in_args.data ok1 (le_refl _)
    obtain ⟨x3, w3, h3, ok3⟩ := write_args_loop_ok false hd.out_args.data.length w2 x2
      hd.out_args.data ok2 (le_refl _)
    have n3 := no_failure_next _ ok3
    have ok4 := no_failure_of_script w3 w3.pop ok3 rfl
    simp only [write_methods, append_ok _ _ _ n0, write_args_for_direction, h2, h3,
      append_ok _ _ _ n3]
    exact ih _ _ ok4

theorem append_all_ok : ∀ (l : List String) (w : BusState) (xml : String), w.no_failure →
    ∃ xml' w', append_all w xml l = (true, xml', w') ∧ w'.no_failure := by
  intro l
  induction l with
  | nil => intro w xml hok; exact ⟨xml, w, rfl, hok⟩
  | cons s rest ih =>
    intro w xml hok
    have n0 := no_failure_next _ hok
    have ok1 := no_failure_of_script w w.pop hok rfl
    simp only [append_all, append_ok _ _ _ n0]
    exact ih _ _ ok1

theorem introspect_xml_ok (w : BusState) (hok : w.no_failure) :
    ∃ xml w', introspect_xml w = .returned (true, xml, w') ∧ w'.no_failure := by
  have n0 := no_failure_next _ hok
  have ok1 := no_failure_of_script w w.pop hok rfl
  obtain ⟨x2, w2, h2, ok2⟩ := append_all_ok
    [ DBUS_INTROSPECT_1_0_XML_DOCTYPE_DECL_NODE,
      "<node>\n",
      "  <interface name=\"" ++ DBUS_INTERFACE_INTROSPECTABLE ++ "\">\n",
      "    <method name=\"Introspect\">\n",
      "      <arg name=\"data\" direction=\"out\" type=\"" ++ "s" ++ "\"/>\n",
      "    </method>\n",
      "  </interface>\n",
      "  <interface name=\"" ++ DBUS_INTERFACE_DBUS ++ "\">\n" ] w.pop "" ok1
  obtain ⟨x3, w3, h3, ok3⟩ := write_methods_ok message_handlers w2 x2 ok2
  obtain ⟨x4, w4, h4, ok4⟩ := append_all_ok ["  </interface>\n", "</node>\n"] w3 x3 ok3
  refine ⟨x4, w4, ?_, ok4⟩
  unfold introspect_xml
  simp only [_dbus_string_init, BusState.alloc, n0, Option.isNone_none, h2, h3, h4]

set_option maxRecDepth 1000000 in
theorem document_method_count :
    count_occurrences "<method ".data (introspection_document message_handlers).data =
      message_handlers.length + 1 ∧
    count_occurrences "<method ".data document_head.data = 1 ∧
    count_occurrences "<method ".data document_tail.data = 0 ∧
    ∀ h ∈ message_handlers, count_occurrences "<method ".data (method_element h).data = 1 := by
  decide

set_option maxRecDepth 100000 in
theorem document_elements :
    top_level_types "su" = ["s", "u"] ∧ top_level_types "as" = ["as"] ∧
    top_level_types "sas" = ["s", "as"] ∧
    (message_handlers.find? (fun h => h.name == "RequestName")).map method_element =
      some request_name_element ∧
    (message_handlers.find? (fun h => h.name == "ListNames")).map method_element =
      some list_names_element := by
  decide

theorem introspect_cases (w : BusState) (c : Nat) (m : DBusMessage) (r : Bool) (w' : BusState)
    (h : bus_driver_handle_introspect w c m = .returned (r, w')) :
    (r = false → w'.transaction = w.transaction ∧ w'.error.isSome = true) ∧
    (r = true → w'.error = w.error ∧ w'.transaction = w.transaction ++
      [(c, method_return_to m [.string (introspection_document message_handlers)])]) := by
  unfold bus_driver_handle_introspect at h
  split at h
  · simp at h
  split at h
  · rename_i w1 h1
    obtain ⟨e, -, rfl⟩ := collaborator_false _ _ h1
    simp only [return_failed, BusState.set_error_error, Option.isSome_some, if_true,
      Outcome.returned.injEq, Prod.mk.injEq] at h
    obtain ⟨rfl, rfl⟩ := h
    simp
  rename_i w1 h1
  obtain ⟨-, rfl⟩ := collaborator_true _ _ h1
  split at h
  · simp at h
  · simp at h
  · rename_i xml w2 h2
    obtain ⟨t2, -⟩ := introspect_xml_frame _ _ _ _ h2
    simp only [BUS_SET_OOM_eq, Outcome.returned.injEq, Prod.mk.injEq] at h
    obtain ⟨rfl, rfl⟩ := h
    simp [t2]
  rename_i xml w2 h2
  obtain ⟨rfl, t2, e2, -⟩ := introspect_xml_true _ _ _ h2
  split at h
  · rename_i w3 h3
    obtain ⟨rfl, -⟩ := new_method_return_eq _ _ _ _ h3
    simp only [BUS_SET_OOM_eq, Outcome.returned.injEq, Prod.mk.injEq] at h
    obtain ⟨rfl, rfl⟩ := h
    simp [t2]
  rename_i reply w3 h3
  obtain ⟨rfl, hr⟩ := new_method_return_eq _ _ _ _ h3
  have := hr reply rfl
  subst this
  split at h
  · rename_i x w4 h4
    obtain ⟨rfl, -⟩ := append_args_eq _ _ _ _ _ _ h4
    simp only [BUS_SET_OOM_eq, Outcome.returned.injEq, Prod.mk.injEq] at h
    obtain ⟨rfl, rfl⟩ := h
    simp [t2]
  rename_i reply1 w4 h4
  obtain ⟨rfl, hm⟩ := append_args_eq _ _ _ _ _ _ h4
  have := hm rfl
  subst this
  split at h
  · rename_i w5 h5
    have := send_false _ _ _ _ h5
    subst this
    simp only [BUS_SET_OOM_eq, Outcome.returned.injEq, Prod.mk.injEq] at h
    obtain ⟨rfl, rfl⟩ := h
    simp [t2]
  · rename_i w5 h5
    have := send_true _ _ _ _ h5
    subst this
    simp only [Outcome.returned.injEq, Prod.mk.injEq] at h
    obtain ⟨rfl, rfl⟩ := h
    simp [t2, e2, method_return_to]

theorem introspect_ok (w : BusState) (c : Nat) (m : DBusMessage) (herr : w.error = none)
    (hok : w.no_failure) :
    ∃ w', bus_driver_handle_introspect w c m = .returned (true, w') := by
  have n0 := no_failure_next _ hok
  have ok1 := no_failure_of_script w w.pop hok rfl
  obtain ⟨xml, w2, h2, ok2⟩ := introspect_xml_ok w.pop ok1
  have n2 := no_failure_next _ ok2
  have ok3 := no_failure_of_script w2 w2.pop ok2 rfl
  have n3 := no_failure_next _ ok3
  have ok4 := no_failure_of_script w2.pop w2.pop.pop ok3 rfl
  unfold bus_driver_handle_introspect
  simp only [herr, Option.isSome_none, Bool.false_eq_true, if_false, dbus_message_get_args_none,
    BusState.collaborator, n0, h2, dbus_message_new_method_return, BusState.alloc, n2,
    Option.isNone_none, if_true, dbus_message_append_args, n3,
    bus_transaction_send_from_driver]
  have n5 : w2.pop.pop.next_error = none := no_failure_next _ ok4
  simp [n5]

/-- C12: the XML document a successful Introspect builds and sends is the
introspection document of the dispatch table: the `<method>` element of
`Introspectable.Introspect`, then one `<method>` element per table entry, in
table order and carrying the entry's name, each holding one in-argument per
top-level complete type of the in-signature and then one out-argument per
top-level complete type of the out-signature. The document has one `<method `
per table entry plus one; in-signature `su` gives the two in-arguments `s`
then `u`, out-signature `as` gives the one out-argument `as`. When no library
call fails, Introspect does succeed. -/
theorem introspect_document (w : BusState) (connection : Nat) (message : DBusMessage) :
    (∀ xml w', introspect_xml w = .returned (true, xml, w') →
      xml = introspection_document message_handlers) ∧
    (∀ w', bus_driver_handle_introspect w connection message = .returned (true, w') →
      w'.transaction = w.transaction ++
        [(connection, method_return_to message
          [.string (introspection_document message_handlers)])]) ∧
    (w.error = none → w.no_failure →
      ∃ w', bus_driver_handle_introspect w connection message = .returned (true, w')) ∧
    (count_occurrences "<method ".data (introspection_document message_handlers).data =
        message_handlers.length + 1 ∧
      count_occurrences "<method ".data document_head.data = 1 ∧
      count_occurrences "<method ".data document_tail.data = 0 ∧
      ∀ h ∈ message_handlers,
        count_occurrences "<method ".data (method_element h).data = 1) ∧
    (top_level_types "su" = ["s", "u"] ∧ top_level_types "as" = ["as"] ∧
      top_level_types "sas" = ["s", "as"] ∧
      (message_handlers.find? (fun h => h.name == "RequestName")).map method_element =
        some request_name_element ∧
      (message_handlers.find? (fun h => h.name == "ListNames")).map method_element =
        some list_names_element) :=
  ⟨fun xml w' h => (introspect_xml_true w xml w' h).1,
   fun w' h => ((introspect_cases w connection message true w' h).2 rfl).2,
   introspect_ok w connection message,
   document_method_count, document_elements⟩

theorem introspect_document_witness :
    ∃ w', bus_driver_handle_introspect sample_state 3 (sample_call "Introspect" []) =
        .returned (true, w') ∧
      w'.transaction = sample_state.transaction ++
        [(3, method_return_to (sample_call "Introspect" [])
          [.string (introspection_document message_handlers)])] :=
  match (introspect_document sample_state 3 (sample_call "Introspect" [])).2.2.1 rfl
      (by intro o ho; simp [sample_state] at ho) with
  | ⟨w', h⟩ =>
    ⟨w', h, (introspect_document sample_state 3 (sample_call "Introspect" [])).2.1 w' h⟩

/-! ## The dispatch table and the wire contract -/

/-- C13: the table `message_handlers` has exactly 11 entries, their names are
pairwise distinct, its (name, in-signature, out-signature) triples are exactly
those of the wire contract, and for each of them the first entry the
dispatcher finds under that name is the entry with that triple. -/
theorem message_handlers_contract :
    message_handlers.length = 11 ∧
    (message_handlers.map (fun h => h.name)).Nodup ∧
    (∀ t ∈ message_handlers.map MessageHandler.triple, t ∈ wire_contract) ∧
    (∀ t ∈ wire_contract, t ∈ message_handlers.map MessageHandler.triple) ∧
    (∀ t ∈ wire_contract,
      (message_handlers.find? (fun h => h.name = t.1)).map MessageHandler.triple = some t) := by
  refine ⟨rfl, by decide, by decide, by decide, by decide⟩

/-! ## GetNameOwner for other names -/

theorem append_and_send_cases (w : BusState) (c : Nat) (reply : DBusMessage) (v : DBusValue) :
    append_and_send w c reply v ≠ .assertion_failed ∧
    ∀ r w', append_and_send w c reply v = .returned (r, w') →
      (r = true → w'.transaction = w.transaction ++
          [(c, { reply with body := reply.body ++ [v] })] ∧ w'.error = w.error) ∧
      (r = false → w'.transaction = w.transaction ∧
        w'.error = some ⟨DBUS_ERROR_NO_MEMORY, bus_no_memory_message⟩) := by
  unfold append_and_send
  split
  · rename_i x w1 h1
    obtain ⟨rfl, -⟩ := append_args_eq _ _ _ _ _ _ h1
    simp only [return_failed, BUS_SET_OOM_eq, BusState.set_error_error, Option.isSome_some,
      if_true]
    refine ⟨by simp, fun r w' h => ?_⟩
    simp only [Outcome.returned.injEq, Prod.mk.injEq] at h
    obtain ⟨rfl, rfl⟩ := h
    simp
  · rename_i reply1 w1 h1
    obtain ⟨rfl, hr⟩ := append_args_eq _ _ _ _ _ _ h1
    have := hr rfl
    subst this
    split
    · rename_i w2 h2
      have := send_false _ _ _ _ h2
      subst this
      simp only [return_failed, BUS_SET_OOM_eq, BusState.set_error_error, Option.isSome_some,
        if_true]
      refine ⟨by simp, fun r w' h => ?_⟩
      simp only [Outcome.returned.injEq, Prod.mk.injEq] at h
      obtain ⟨rfl, rfl⟩ := h
      simp
    · rename_i w2 h2
      have := send_true _ _ _ _ h2
      subst this
      refine ⟨by simp, fun r w' h => ?_⟩
      simp only [Outcome.returned.injEq, Prod.mk.injEq] at h
      obtain ⟨rfl, rfl⟩ := h
      simp

theorem reply_with_cases (w : BusState) (c : Nat) (m : DBusMessage) (v : DBusValue) :
    (match dbus_message_new_method_return w m with
      | (none, w2) => return_failed (BUS_SET_OOM w2)
      | (some reply, w2) => append_and_send w2 c reply v) ≠ .assertion_failed ∧
    ∀ r w', (match dbus_message_new_method_return w m with
      | (none, w2) => return_failed (BUS_SET_OOM w2)
      | (some reply, w2) => append_and_send w2 c reply v) = .returned (r, w') →
      (r = true → w'.transaction = w.transaction ++ [(c, method_return_to m [v])] ∧
        w'.error = w.error) ∧
      (r = false → w'.transaction = w.transaction ∧
        w'.error = some ⟨DBUS_ERROR_NO_MEMORY, bus_no_memory_message⟩) := by
  split
  · rename_i w2 h2
    obtain ⟨rfl, -⟩ := new_method_return_eq _ _ _ _ h2
    simp only [return_failed, BUS_SET_OOM_eq, BusState.set_error_error, Option.isSome_some,
      if_true]
    refine ⟨by simp, fun r w' h => ?_⟩
    simp only [Outcome.returned.injEq, Prod.mk.injEq] at h
    obtain ⟨rfl, rfl⟩ := h
    simp
  · rename_i reply w2 h2
    obtain ⟨rfl, hr⟩ := new_method_return_eq _ _ _ _ h2
    have := hr reply rfl
    subst this
    obtain ⟨a1, a2⟩ := append_and_send_cases w.pop c (method_return_to m []) v
    refine ⟨a1, fun r w' h => ?_⟩
    obtain ⟨b1, b2⟩ := a2 r w' h
    exact ⟨fun hr => by simpa [method_return_to] using b1 hr, fun hr => by simpa using b2 hr⟩

theorem get_args_string_ok (w : BusState) (m : DBusMessage) (name : String)
    (rest : List DBusValue) (hok : w.next_error = none)
    (hbody : m.body = .string name :: rest) :
    dbus_message_get_args_string w m = (some name, w.pop) := by
  simp [dbus_message_get_args_string, BusState.collaborator, hok, hbody]

theorem unix_user_cases (w : BusState) (c : Nat) (m : DBusMessage) (r : Bool) (w' : BusState)
    (h : bus_driver_handle_get_connection_unix_user w c m = .returned (r, w')) :
    (r = false → w'.transaction = w.transaction ∧ w'.error.isSome = true) ∧
    (r = true → w'.error = w.error ∧
      ∃ name rest serv uid, m.body = .string name :: rest ∧
        bus_registry_lookup w name = some serv ∧
        dbus_connection_get_unix_user w serv.primary_owner = some uid ∧
        w'.transaction = w.transaction ++
          [(c, method_return_to m [.uint32 (uid % 4294967296)])]) := by
  unfold bus_driver_handle_get_connection_unix_user at h
  split at h
  · simp at h
  split at h
  · rename_i w1 h1
    obtain ⟨e, rfl, -⟩ := get_args_string_none _ _ _ h1
    simp only [return_failed, BusState.set_error_error, Option.isSome_some, if_true,
      Outcome.returned.injEq, Prod.mk.injEq] at h
    obtain ⟨rfl, rfl⟩ := h
    simp
  rename_i name w1 h1
  obtain ⟨rfl, rest, hbody⟩ := get_args_string_some _ _ _ _ h1
  split at h
  · simp only [return_failed, dbus_set_error_eq, BusState.set_error_error, Option.isSome_some,
      if_true, Outcome.returned.injEq, Prod.mk.injEq] at h
    obtain ⟨rfl, rfl⟩ := h
    simp
  rename_i serv hserv
  split at h
  · rename_i w2 h2
    obtain ⟨rfl, -⟩ := new_method_return_eq _ _ _ _ h2
    simp only [return_failed, BUS_SET_OOM_eq, BusState.set_error_error, Option.isSome_some,
      if_true, Outcome.returned.injEq, Prod.mk.injEq] at h
    obtain ⟨rfl, rfl⟩ := h
    simp
  rename_i reply w2 h2
  obtain ⟨rfl, hr⟩ := new_method_return_eq _ _ _ _ h2
  have := hr reply rfl
  subst this
  split at h
  · simp only [return_failed, dbus_set_error_eq, BusState.set_error_error, Option.isSome_some,
      if_true, Outcome.returned.injEq, Prod.mk.injEq] at h
    obtain ⟨rfl, rfl⟩ := h
    simp
  rename_i uid huid
  obtain ⟨-, a2⟩ := append_and_send_cases _ _ _ _
  obtain ⟨b1, b2⟩ := a2 r w' h
  refine ⟨fun hr => ?_, fun hr => ?_⟩
  · obtain ⟨t, e⟩ := b2 hr
    exact ⟨by simpa using t, by simp [e]⟩
  · obtain ⟨t, e⟩ := b1 hr
    exact ⟨by simpa using e, name, rest, serv, uid, hbody, hserv, huid,
      by simpa [method_return_to] using t⟩

theorem unix_process_id_cases (w : BusState) (c : Nat) (m : DBusMessage) (r : Bool)
    (w' : BusState)
    (h : bus_driver_handle_get_connection_unix_process_id w c m = .returned (r, w')) :
    (r = false → w'.transaction = w.transaction ∧ w'.error.isSome = true) ∧
    (r = true → w'.error = w.error ∧
      ∃ name rest serv pid, m.body = .string name :: rest ∧
        bus_registry_lookup w name = some serv ∧
        dbus_connection_get_unix_process_id w serv.primary_owner = some pid ∧
        w'.transaction = w.transaction ++
          [(c, method_return_to m [.uint32 (pid % 4294967296)])]) := by
  unfold bus_driver_handle_get_connection_unix_process_id at h
  split at h
  · simp at h
  split at h
  · rename_i w1 h1
    obtain ⟨e, rfl, -⟩ := get_args_string_none _ _ _ h1
    simp only [return_failed, BusState.set_error_error, Option.isSome_some, if_true,
      Outcome.returned.injEq, Prod.mk.injEq] at h
    obtain ⟨rfl, rfl⟩ := h
    simp
  rename_i name w1 h1
  obtain ⟨rfl, rest, hbody⟩ := get_args_string_some _ _ _ _ h1
  split at h
  · simp only [return_failed, dbus_set_error_eq, BusState.set_error_error, Option.isSome_some,
      if_true, Outcome.returned.injEq, Prod.mk.injEq] at h
    obtain ⟨rfl, rfl⟩ := h
    simp
  rename_i serv hserv
  split at h
  · rename_i w2 h2
    obtain ⟨rfl, -⟩ := new_method_return_eq _ _ _ _ h2
    simp only [return_failed, BUS_SET_OOM_eq, BusState.set_error_error, Option.isSome_some,
      if_true, Outcome.returned.injEq, Prod.mk.injEq] at h
    obtain ⟨rfl, rfl⟩ := h
    simp
  rename_i reply w2 h2
  obtain ⟨rfl, hr⟩ := new_method_return_eq _ _ _ _ h2
  have := hr reply rfl
  subst this
  split at h
  · simp only [return_failed, dbus_set_error_eq, BusState.set_error_error, Option.isSome_some,
      if_true, Outcome.returned.injEq, Prod.mk.injEq] at h
    obtain ⟨rfl, rfl⟩ := h
    simp
  rename_i pid hpid
  obtain ⟨-, a2⟩ := append_and_send_cases _ _ _ _
  obtain ⟨b1, b2⟩ := a2 r w' h
  refine ⟨fun hr => ?_, fun hr => ?_⟩
  · obtain ⟨t, e⟩ := b2 hr
    exact ⟨by simpa using t, by simp [e]⟩
  · obtain ⟨t, e⟩ := b1 hr
    exact ⟨by simpa using e, name, rest, serv, pid, hbody, hserv, hpid,
      by simpa [method_return_to] using t⟩

theorem reply_with_ok (w : BusState) (c : Nat) (m : DBusMessage) (v : DBusValue)
    (hok : w.no_failure) :
    ∃ w', (match dbus_message_new_method_return w m with
      | (none, w2) => return_failed (BUS_SET_OOM w2)
      | (some reply, w2) => append_and_send w2 c reply v) = .returned (true, w') := by
  have n0 := no_failure_next _ hok
  have ok1 := no_failure_of_script w w.pop hok rfl
  have n1 := no_failure_next _ ok1
  have ok2 := no_failure_of_script w.pop w.pop.pop ok1 rfl
  have n2 := no_failure_next _ ok2
  simp only [dbus_message_new_method_return, BusState.alloc, n0, Option.isNone_none,
    append_and_send, dbus_message_append_args, n1, bus_transaction_send_from_driver]
  simp [n2]

theorem unix_user_ok (w : BusState) (c : Nat) (m : DBusMessage) (name : String)
    (rest : List DBusValue) (serv : BusService) (uid : Nat) (herr : w.error = none)
    (hok : w.no_failure) (hbody : m.body = .string name :: rest)
    (hserv : bus_registry_lookup w name = some serv)
    (huid : dbus_connection_get_unix_user w serv.primary_owner = some uid) :
    ∃ w', bus_driver_handle_get_connection_unix_user w c m = .returned (true, w') ∧
      w'.transaction = w.transaction ++
        [(c, method_return_to m [.uint32 (uid % 4294967296)])] := by
  have n0 := no_failure_next _ hok
  have ok1 := no_failure_of_script w w.pop hok rfl
  have n1 := no_failure_next _ ok1
  have ok2 := no_failure_of_script w.pop w.pop.pop ok1 rfl
  have n2 := no_failure_next _ ok2
  have ok3 := no_failure_of_script w.pop.pop w.pop.pop.pop ok2 rfl
  have n3 := no_failure_next _ ok3
  have hargs := get_args_string_ok w m name rest n0 hbody
  have hl : bus_registry_lookup w.pop name = some serv := hserv
  have hu : dbus_connection_get_unix_user w.pop.pop serv.primary_owner = some uid := huid
  have hex : ∃ w', bus_driver_handle_get_connection_unix_user w c m = .returned (true, w') := by
    unfold bus_driver_handle_get_connection_unix_user
    simp only [herr, Option.isSome_none, Bool.false_eq_true, if_false, hargs, hl,
      dbus_message_new_method_return, BusState.alloc, n1, Option.isNone_none, hu,
      append_and_send, dbus_message_append_args, n2, bus_transaction_send_from_driver]
    simp [n3]
  obtain ⟨w', h⟩ := hex
  refine ⟨w', h, ?_⟩
  obtain ⟨name', rest', serv', uid', hb, hs, hq, ht⟩ := ((unix_user_cases _ _ _ _ _ h).2 rfl).2
  rw [hbody] at hb
  simp only [List.cons.injEq, DBusValue.string.injEq] at hb
  obtain ⟨rfl, -⟩ := hb
  rw [hserv] at hs
  simp only [Option.some.injEq] at hs
  subst hs
  rw [huid] at hq
  simp only [Option.some.injEq] at hq
  subst hq
  exact ht

theorem unix_process_id_ok (w : BusState) (c : Nat) (m : DBusMessage) (name : String)
    (rest : List DBusValue) (serv : BusService) (pid : Nat) (herr : w.error = none)
    (hok : w.no_failure) (hbody : m.body = .string name :: rest)
    (hserv : bus_registry_lookup w name = some serv)
    (hpid : dbus_connection_get_unix_process_id w serv.primary_owner = some pid) :
    ∃ w', bus_driver_handle_get_connection_unix_process_id w c m = .returned (true, w') ∧
      w'.transaction = w.transaction ++
        [(c, method_return_to m [.uint32 (pid % 4294967296)])] := by
  have n0 := no_failure_next _ hok
  have ok1 := no_failure_of_script w w.pop hok rfl
  have n1 := no_failure_next _ ok1
  have ok2 := no_failure_of_script w.pop w.pop.pop ok1 rfl
  have n2 := no_failure_next _ ok2
  have ok3 := no_failure_of_script w.pop.pop w.pop.pop.pop ok2 rfl
  have n3 := no_failure_next _ ok3
  have hargs := get_args_string_ok w m name rest n0 hbody
  have hl : bus_registry_lookup w.pop name = some serv := hserv
  have hu : dbus_connection_get_unix_process_id w.pop.pop serv.primary_owner = some pid :=
    hpid
  have hex : ∃ w', bus_driver_handle_get_connection_unix_process_id w c m =
      .returned (true, w') := by
    unfold bus_driver_handle_get_connection_unix_process_id
    simp only [herr, Option.isSome_none, Bool.false_eq_true, if_false, hargs, hl,
      dbus_message_new_method_return, BusState.alloc, n1, Option.isNone_none, hu,
      append_and_send, dbus_message_append_args, n2, bus_transaction_send_from_driver]
    simp [n3]
  obtain ⟨w', h⟩ := hex
  refine ⟨w', h, ?_⟩
  obtain ⟨name', rest', serv', pid', hb, hs, hq, ht⟩ :=
    ((unix_process_id_cases _ _ _ _ _ h).2 rfl).2
  rw [hbody] at hb
  simp only [List.cons.injEq, DBusValue.string.injEq] at hb
  obtain ⟨rfl, -⟩ := hb
  rw [hserv] at hs
  simp only [Option.some.injEq] at hs
  subst hs
  rw [hpid] at hq
  simp only [Option.some.injEq] at hq
  subst hq
  exact ht

/-- C15: GetConnectionUnixUser and GetConnectionUnixProcessID. In every failing
case nothing is enqueued, and a successful call enqueues one method return
whose only argument is the credential of the primary owner as a uint32. Once
the argument is read, a name with no registry entry makes both fail with
NameHasNoOwner; and once the reply message is allocated, an owner without known
UID makes GetConnectionUnixUser fail with Failed, an owner without known PID
makes GetConnectionUnixProcessID fail with UnixProcessIdUnknown, which is not
Failed. When no library call fails and the credential is known, each handler
does succeed with that reply. -/
theorem unix_credentials (w : BusState) (connection : Nat) (message : DBusMessage) :
    (∀ w', bus_driver_handle_get_connection_unix_user w connection message =
        .returned (false, w') → w'.transaction = w.transaction) ∧
    (∀ w', bus_driver_handle_get_connection_unix_process_id w connection message =
        .returned (false, w') → w'.transaction = w.transaction) ∧
    (∀ w', bus_driver_handle_get_connection_unix_user w connection message =
        .returned (true, w') →
      ∃ name rest serv uid, message.body = .string name :: rest ∧
        bus_registry_lookup w name = some serv ∧
        dbus_connection_get_unix_user w serv.primary_owner = some uid ∧
        w'.transaction = w.transaction ++
          [(connection, method_return_to message [.uint32 (uid % 4294967296)])]) ∧
    (∀ w', bus_driver_handle_get_connection_unix_process_id w connection message =
        .returned (true, w') →
      ∃ name rest serv pid, message.body = .string name :: rest ∧
        bus_registry_lookup w name = some serv ∧
        dbus_connection_get_unix_process_id w serv.primary_owner = some pid ∧
        w'.transaction = w.transaction ++
          [(connection, method_return_to message [.uint32 (pid % 4294967296)])]) ∧
    (∀ name rest, w.error = none → w.next_error = none →
      message.body = .string name :: rest →
      (bus_registry_lookup w name = none →
        bus_driver_handle_get_connection_unix_user w connection message =
          .returned (false, w.pop.set_error ⟨DBUS_ERROR_NAME_HAS_NO_OWNER,
            "Could not get UID of name '" ++ name ++ "': no such name"⟩) ∧
        bus_driver_handle_get_connection_unix_process_id w connection message =
          .returned (false, w.pop.set_error ⟨DBUS_ERROR_NAME_HAS_NO_OWNER,
            "Could not get PID of name '" ++ name ++ "': no such name"⟩)) ∧
      (∀ serv, bus_registry_lookup w name = some serv → w.pop.next_error = none →
        (dbus_connection_get_unix_user w serv.primary_owner = none →
          bus_driver_handle_get_connection_unix_user w connection message =
            .returned (false, w.pop.pop.set_error ⟨DBUS_ERROR_FAILED,
              "Could not determine UID for '" ++ name ++ "'"⟩)) ∧
        (dbus_connection_get_unix_process_id w serv.primary_owner = none →
          bus_driver_handle_get_connection_unix_process_id w connection message =
            .returned (false, w.pop.pop.set_error ⟨DBUS_ERROR_UNIX_PROCESS_ID_UNKNOWN,
              "Could not determine PID for '" ++ name ++ "'"⟩) ∧
          DBUS_ERROR_UNIX_PROCESS_ID_UNKNOWN ≠ DBUS_ERROR_FAILED))) ∧
    (∀ name rest serv, w.error = none → w.no_failure →
      message.body = .string name :: rest → bus_registry_lookup w name = some serv →
      (∀ uid, dbus_connection_get_unix_user w serv.primary_owner = some uid →
        ∃ w', bus_driver_handle_get_connection_unix_user w connection message =
            .returned (true, w') ∧
          w'.transaction = w.transaction ++
            [(connection, method_return_to message [.uint32 (uid % 4294967296)])]) ∧
      (∀ pid, dbus_connection_get_unix_process_id w serv.primary_owner = some pid →
        ∃ w', bus_driver_handle_get_connection_unix_process_id w connection message =
            .returned (true, w') ∧
          w'.transaction = w.transaction ++
            [(connection, method_return_to message [.uint32 (pid % 4294967296)])])) := by
  refine ⟨fun w' h => ((unix_user_cases _ _ _ _ _ h).1 rfl).1,
    fun w' h => ((unix_process_id_cases _ _ _ _ _ h).1 rfl).1,
    fun w' h => ((unix_user_cases _ _ _ _ _ h).2 rfl).2,
    fun w' h => ((unix_process_id_cases _ _ _ _ _ h).2 rfl).2,
    fun name rest herr hok hbody => ?_,
    fun name rest serv herr hok hbody hserv =>
      ⟨fun uid huid => unix_user_ok w connection message name rest serv uid herr hok hbody
          hserv huid,
       fun pid hpid => unix_process_id_ok w connection message name rest serv pid herr hok
          hbody hserv hpid⟩⟩
  have hargs := get_args_string_ok w message name rest hok hbody
  have hl : bus_registry_lookup w.pop name = bus_registry_lookup w name := rfl
  refine ⟨fun hnone => ⟨?_, ?_⟩, fun serv hserv hok2 => ⟨fun hno => ?_, fun hno => ⟨?_, by decide⟩⟩⟩
  · simp [bus_driver_handle_get_connection_unix_user, herr, hargs, hl, hnone, return_failed]
  · simp [bus_driver_handle_get_connection_unix_process_id, herr, hargs, hl, hnone,
      return_failed]
  · have hu : dbus_connection_get_unix_user w.pop.pop serv.primary_owner = none := hno
    simp [bus_driver_handle_get_connection_unix_user, herr, hargs, hl, hserv,
      dbus_message_new_method_return, BusState.alloc, hok2, hu, return_failed]
  · have hu : dbus_connection_get_unix_process_id w.pop.pop serv.primary_owner = none := hno
    simp [bus_driver_handle_get_connection_unix_process_id, herr, hargs, hl, hserv,
      dbus_message_new_method_return, BusState.alloc, hok2, hu, return_failed]

theorem unix_credentials_witness :
    bus_driver_handle_get_connection_unix_user sample_after_hello 3
        (sample_call "GetConnectionUnixUser" [.string ":1.0"]) =
      .returned (false, sample_after_hello.pop.pop.set_error ⟨DBUS_ERROR_FAILED,
        "Could not determine UID for ':1.0'"⟩) ∧
    bus_driver_handle_get_connection_unix_process_id sample_after_hello 3
        (sample_call "GetConnectionUnixProcessID" [.string ":1.0"]) =
      .returned (false, sample_after_hello.pop.pop.set_error
        ⟨DBUS_ERROR_UNIX_PROCESS_ID_UNKNOWN, "Could not determine PID for ':1.0'"⟩) ∧
    (∃ name rest serv uid,
      (sample_call "GetConnectionUnixUser" [.string ":1.0"]).body = .string name :: rest ∧
      bus_registry_lookup sample_known_credentials name = some serv ∧
      dbus_connection_get_unix_user sample_known_credentials serv.primary_owner = some uid ∧
      (sample_after_credentials (method_return_to
          (sample_call "GetConnectionUnixUser" [.string ":1.0"]) [.uint32 1000])).transaction =
        sample_known_credentials.transaction ++
          [(3, method_return_to (sample_call "GetConnectionUnixUser" [.string ":1.0"])
            [.uint32 (uid % 4294967296)])]) ∧
    (∃ w', bus_driver_handle_get_connection_unix_user sample_known_credentials 3
          (sample_call "GetConnectionUnixUser" [.string ":1.0"]) = .returned (true, w') ∧
      w'.transaction = sample_known_credentials.transaction ++
        [(3, method_return_to (sample_call "GetConnectionUnixUser" [.string ":1.0"])
          [.uint32 (1000 % 4294967296)])]) ∧
    (∃ w', bus_driver_handle_get_connection_unix_process_id sample_known_credentials 3
          (sample_call "GetConnectionUnixProcessID" [.string ":1.0"]) = .returned (true, w') ∧
      w'.transaction = sample_known_credentials.transaction ++
        [(3, method_return_to (sample_call "GetConnectionUnixProcessID" [.string ":1.0"])
          [.uint32 (4242 % 4294967296)])]) :=
  ⟨(((unix_credentials sample_after_hello 3
        (sample_call "GetConnectionUnixUser" [.string ":1.0"])).2.2.2.2.1 ":1.0" [] rfl rfl rfl).2
      ⟨":1.0", 3, true⟩ rfl rfl).1 rfl,
   ((((unix_credentials sample_after_hello 3
        (sample_call "GetConnectionUnixProcessID" [.string ":1.0"])).2.2.2.2.1 ":1.0" [] rfl rfl
        rfl).2 ⟨":1.0", 3, true⟩ rfl rfl).2 rfl).1,
   (unix_credentials sample_known_credentials 3
        (sample_call "GetConnectionUnixUser" [.string ":1.0"])).2.2.1 _ (by decide),
   ((unix_credentials sample_known_credentials 3
        (sample_call "GetConnectionUnixUser" [.string ":1.0"])).2.2.2.2.2 ":1.0" []
        ⟨":1.0", 3, true⟩ rfl (by intro o ho; simp [sample_known_credentials, sample_state] at ho)
        rfl rfl).1 1000 rfl,
   ((unix_credentials sample_known_credentials 3
        (sample_call "GetConnectionUnixProcessID" [.string ":1.0"])).2.2.2.2.2 ":1.0" []
        ⟨":1.0", 3, true⟩ rfl (by intro o ho; simp [sample_known_credentials, sample_state] at ho)
        rfl rfl).2 4242 rfl⟩

/-! ## NameHasOwner -/

theorem service_exists_success (w : BusState) (connection : Nat) (message : DBusMessage)
    (w' : BusState)
    (h : bus_driver_handle_service_exists w connection message = .returned (true, w')) :
    ∃ name rest, message.body = .string name :: rest ∧
      w'.transaction = w.transaction ++ [(connection, method_return_to message
        [.bool (if name = DBUS_SERVICE_DBUS then true
                else (bus_registry_lookup w name).isSome)])] := by
  unfold bus_driver_handle_service_exists at h
  split at h
  · simp at h
  split at h
  · simp at h
  rename_i name w1 h1
  obtain ⟨rfl, rest, hbody⟩ := get_args_string_some _ _ _ _ h1
  simp only at h
  split at h
  · simp at h
  rename_i reply w2 h2
  obtain ⟨rfl, hr⟩ := new_method_return_eq _ _ _ _ h2
  have := hr reply rfl
  subst this
  split at h
  · simp at h
  rename_i reply1 w3 h3
  obtain ⟨rfl, hr3⟩ := append_args_eq _ _ _ _ _ _ h3
  have := hr3 rfl
  subst this
  split at h
  · simp at h
  rename_i w4 h4
  have := send_true _ _ _ _ h4
  subst this
  simp only [Outcome.returned.injEq, Prod.mk.injEq, true_and] at h
  subst h
  have hl : bus_registry_lookup w.pop name = bus_registry_lookup w name := rfl
  exact ⟨name, rest, hbody, by simp [method_return_to, hl]⟩

theorem service_exists_ok (w : BusState) (connection : Nat) (message : DBusMessage)
    (name : String) (rest : List DBusValue) (herr : w.error = none) (hok : w.no_failure)
    (hbody : message.body = .string name :: rest) :
    ∃ w', bus_driver_handle_service_exists w connection message = .returned (true, w') := by
  have n0 := no_failure_next _ hok
  have ok1 := no_failure_of_script w w.pop hok rfl
  have n1 := no_failure_next _ ok1
  have ok2 := no_failure_of_script w.pop w.pop.pop ok1 rfl
  have n2 := no_failure_next _ ok2
  have ok3 := no_failure_of_script w.pop.pop w.pop.pop.pop ok2 rfl
  have n3 := no_failure_next _ ok3
  have hargs := get_args_string_ok w message name rest n0 hbody
  unfold bus_driver_handle_service_exists
  simp only [herr, Option.isSome_none, Bool.false_eq_true, if_false, hargs,
    dbus_message_new_method_return, BusState.alloc, n1, Option.isNone_none,
    dbus_message_append_args, n2, bus_transaction_send_from_driver]
  simp [n3]

/-- C16: a successful NameHasOwner enqueues exactly one reply, a method return
carrying a single boolean: true when the queried name is the bus's own name,
whatever the registry holds, and otherwise true exactly when the registry
lookup of the name finds a service. A call that carries a name does succeed
when no library call fails. -/
theorem service_exists_reply (w : BusState) (connection : Nat) (message : DBusMessage) :
    (∀ w', bus_driver_handle_service_exists w connection message = .returned (true, w') →
      ∃ name rest, message.body = .string name :: rest ∧
        w'.transaction = w.transaction ++ [(connection, method_return_to message
          [.bool (if name = DBUS_SERVICE_DBUS then true
                  else (bus_registry_lookup w name).isSome)])]) ∧
    (∀ name rest, w.error = none → w.no_failure → message.body = .string name :: rest →
      ∃ w', bus_driver_handle_service_exists w connection message = .returned (true, w') ∧
        w'.transaction = w.transaction ++ [(connection, method_return_to message
          [.bool (if name = DBUS_SERVICE_DBUS then true
                  else (bus_registry_lookup w name).isSome)])]) := by
  refine ⟨fun w' h => service_exists_success w connection message w' h,
    fun name rest herr hok hbody => ?_⟩
  obtain ⟨w', h⟩ := service_exists_ok w connection message name rest herr hok hbody
  obtain ⟨name', rest', hb, ht⟩ := service_exists_success w connection message w' h
  rw [hbody] at hb
  simp only [List.cons.injEq, DBusValue.string.injEq] at hb
  obtain ⟨rfl, -⟩ := hb
  exact ⟨w', h, ht⟩

theorem service_exists_reply_witness :
    (∃ w', bus_driver_handle_service_exists sample_two_names 3
        (sample_call "NameHasOwner" [.string ":1.7"]) = .returned (true, w') ∧
      w'.transaction = sample_two_names.transaction ++
        [(3, method_return_to (sample_call "NameHasOwner" [.string ":1.7"])
          [.bool (if ":1.7" = DBUS_SERVICE_DBUS then true
                  else (bus_registry_lookup sample_two_names ":1.7").isSome)])]) ∧
    (∃ w', bus_driver_handle_service_exists sample_two_names 3
        (sample_call "NameHasOwner" [.string "com.example.B"]) = .returned (true, w') ∧
      w'.transaction = sample_two_names.transaction ++
        [(3, method_return_to (sample_call "NameHasOwner" [.string "com.example.B"])
          [.bool (if "com.example.B" = DBUS_SERVICE_DBUS then true
                  else (bus_registry_lookup sample_two_names "com.example.B").isSome)])]) ∧
    (∃ w', bus_driver_handle_service_exists sample_two_names 3
        (sample_call "NameHasOwner" [.string DBUS_SERVICE_DBUS]) = .returned (true, w') ∧
      w'.transaction = sample_two_names.transaction ++
        [(3, method_return_to (sample_call "NameHasOwner" [.string DBUS_SERVICE_DBUS])
          [.bool (if DBUS_SERVICE_DBUS = DBUS_SERVICE_DBUS then true
                  else (bus_registry_lookup sample_two_names DBUS_SERVICE_DBUS).isSome)])]) ∧
    ((if ":1.7" = DBUS_SERVICE_DBUS then true
        else (bus_registry_lookup sample_two_names ":1.7").isSome) = true ∧
      (if "com.example.B" = DBUS_SERVICE_DBUS then true
        else (bus_registry_lookup sample_two_names "com.example.B").isSome) = false ∧
      bus_registry_lookup sample_two_names DBUS_SERVICE_DBUS = none) :=
  ⟨(service_exists_reply sample_two_names 3
      (sample_call "NameHasOwner" [.string ":1.7"])).2 ":1.7" [] rfl
      (by intro o ho; simp [sample_two_names, sample_state] at ho) rfl,
   (service_exists_reply sample_two_names 3
      (sample_call "NameHasOwner" [.string "com.example.B"])).2 "com.example.B" [] rfl
      (by intro o ho; simp [sample_two_names, sample_state] at ho) rfl,
   (service_exists_reply sample_two_names 3
      (sample_call "NameHasOwner" [.string DBUS_SERVICE_DBUS])).2 DBUS_SERVICE_DBUS [] rfl
      (by intro o ho; simp [sample_two_names, sample_state] at ho) rfl,
   by decide⟩
/-! ## The first free unique name -/

theorem counter_after (M m : Int) (h0 : 0 ≤ m) (h1 : m ≤ 2147483647) :
    (if wrap_int (m + 1) ≤ 0 then (M + 1, (0 : Int)) else (M, wrap_int (m + 1))) =
      succ_position (M, m) := by
  unfold succ_position wrap_int
  simp only
  split <;> split
  · exfalso; omega
  · rfl
  · simp only [Prod.mk.injEq, true_and]; omega
  · exfalso; omega

theorem next_position_eq_counter (w : BusState) (hM : int_range w.next_major_number)
    (hpos : 0 < (next_position w.next_major_number w.next_minor_number).1) :
    next_position w.next_major_number w.next_minor_number = counter_position w := by
  unfold next_position counter_position at *
  obtain ⟨r1, r2⟩ := hM
  split
  · rename_i hle
    simp only [hle, if_true] at hpos
    unfold wrap_int at hpos ⊢
    simp only [Prod.mk.injEq, and_true]
    omega
  · rfl

theorem loop_first_free (start : String) :
    ∀ (fuel : Nat) (w : BusState) (name : String) (w' : BusState),
      int_range w.next_major_number → int_range w.next_minor_number →
      create_unique_client_name_loop start fuel w = .returned (true, name, w') →
      ∃ k : Nat,
        name = candidate_name start (nth_position (counter_position w) k) ∧
        (∀ j, j < k → bus_registry_lookup w
          (candidate_name start (nth_position (counter_position w) j)) ≠ none) ∧
        bus_registry_lookup w name = none ∧
        w'.registry = w.registry ∧
        w'.next_major_number = (nth_position (counter_position w) k).1 ∧
        w'.next_minor_number = wrap_int ((nth_position (counter_position w) k).2 + 1) ∧
        0 < (nth_position (counter_position w) k).1 ∧
        0 ≤ (nth_position (counter_position w) k).2 ∧
        (nth_position (counter_position w) k).1 ≤ 2147483647 ∧
        (nth_position (counter_position w) k).2 ≤ 2147483647 ∧
        counter_position w' = nth_position (counter_position w) (k + 1) := by
  intro fuel
  induction fuel with
  | zero => intro w name w' _ _ h; simp [create_unique_client_name_loop] at h
  | succ f ih =>
    intro w name w' hM hm h
    rw [loop_succ] at h
    obtain ⟨hpos, hreg⟩ := normalised_counters w
    generalize normalised w = w0 at h hpos hreg
    split at h
    · simp at h
    split at h
    · simp at h
    split at h
    · simp at h
    rename_i hA2 hA3
    have hApos : 0 < w0.next_major_number := by simpa using hA2
    have hA0 : 0 ≤ w0.next_minor_number := by simpa using hA3
    have hp1 : (next_position w.next_major_number w.next_minor_number).1 =
        w0.next_major_number := by rw [← hpos]
    have hcp : counter_position w = (w0.next_major_number, w0.next_minor_number) := by
      rw [← next_position_eq_counter w hM (by rw [hp1]; exact hApos), hpos]
    have hA : int_range w0.next_major_number ∧ int_range w0.next_minor_number := by
      have hpos' := hpos
      simp only [next_position] at hpos'
      split at hpos'
      · simp only [Prod.mk.injEq] at hpos'
        rw [hpos'.1, hpos'.2]
        exact ⟨wrap_int_range _, by decide⟩
      · simp only [Prod.mk.injEq] at hpos'
        rw [hpos'.1, hpos'.2]
        exact ⟨hM, hm⟩
    split at h
    · simp at h
    rename_i s1 w1 h1
    split at h
    · simp at h
    rename_i s2 w2 h2
    split at h
    · simp at h
    rename_i s3 w3 h3
    split at h
    · simp at h
    rename_i s4 w4 h4
    obtain ⟨rfl, rfl⟩ := append_true _ _ _ _ _ h1
    obtain ⟨rfl, rfl⟩ := append_true _ _ _ _ _ h2
    obtain ⟨rfl, rfl⟩ := append_true _ _ _ _ _ h3
    obtain ⟨rfl, rfl⟩ := append_true _ _ _ _ _ h4
    have hname : start ++ ":" ++ int_to_string w0.next_major_number ++ "." ++
        int_to_string w0.next_minor_number =
        candidate_name start (w0.next_major_number, w0.next_minor_number) := by
      simp [candidate_name, unique_name_suffix, String.append_assoc]
    simp only [BusState.pop_next_major_number, BusState.pop_next_minor_number] at h
    rw [hname] at h
    have hafter : ∀ v : BusState, v.next_major_number = w0.next_major_number →
        v.next_minor_number = wrap_int (w0.next_minor_number + 1) →
        counter_position v = succ_position (w0.next_major_number, w0.next_minor_number) := by
      intro v e1 e2
      unfold counter_position
      rw [e1, e2]
      exact counter_after _ _ hA0 hA.2.2
    split at h
    · rename_i hfree
      simp only [Outcome.returned.injEq, Prod.mk.injEq] at h
      obtain ⟨-, hn, hw⟩ := h
      refine ⟨0, ?_, ?_, ?_, ?_, ?_, ?_, ?_, ?_, ?_, ?_, ?_⟩
      · rw [hcp, ← hn]; rfl
      · intro j hj; omega
      · rw [← hn]
        have : bus_registry_lookup w
            (candidate_name start (w0.next_major_number, w0.next_minor_number)) =
            bus_registry_lookup w0
              (candidate_name start (w0.next_major_number, w0.next_minor_number)) := by
          simp only [bus_registry_lookup, hreg]
        rw [this]
        simpa [bus_registry_lookup] using hfree
      · rw [← hw]; simpa using hreg
      · rw [hcp, ← hw]; rfl
      · rw [hcp, ← hw]; rfl
      · rw [hcp]; exact hApos
      · rw [hcp]; exact hA0
      · rw [hcp]; exact hA.1.2
      · rw [hcp]; exact hA.2.2
      · rw [hcp]
        exact hafter w' (by rw [← hw]) (by rw [← hw])
    · rename_i hfree
      have key := fun a b => ih _ name w' a b h
      obtain ⟨k, e1, e2, e3, e4, e5, e6, e7, e8, e9, e10, e11⟩ :=
        key hA.1 (wrap_int_range _)
      simp only [counter_position, BusState.pop_next_major_number,
        BusState.pop_next_minor_number] at e1 e2 e5 e6 e7 e8 e9 e10 e11
      rw [counter_after _ _ hA0 hA.2.2] at e1 e2 e5 e6 e7 e8 e9 e10 e11
      simp only [bus_registry_lookup, BusState.pop_registry, hreg] at e2 e3 hfree
      refine ⟨k + 1, ?_, ?_, ?_, ?_, ?_, ?_, ?_, ?_, ?_, ?_, ?_⟩
      · rw [hcp]; exact e1
      · intro j hj
        rw [hcp]
        simp only [bus_registry_lookup]
        cases j with
        | zero =>
          intro hnone
          apply hfree
          simp only [nth_position] at hnone
          rw [hnone]; rfl
        | succ j => exact e2 j (by omega)
      · simpa only [bus_registry_lookup] using e3
      · rw [e4]; simpa using hreg
      · rw [hcp]; exact e5
      · rw [hcp]; exact e6
      · rw [hcp]; exact e7
      · rw [hcp]; exact e8
      · rw [hcp]; exact e9
      · rw [hcp]; exact e10
      · rw [hcp]; simp only [counter_position]; exact e11

theorem loop_total (start : String) :
    ∀ (fuel : Nat) (w : BusState), w.no_failure →
      int_range w.next_minor_number → 0 ≤ w.next_major_number →
      (0 < w.next_major_number ∨ w.next_minor_number ≤ 0) →
      w.next_major_number + fuel ≤ 2147483647 →
      (∃ name w', create_unique_client_name_loop start fuel w = .returned (true, name, w')) ∨
        create_unique_client_name_loop start fuel w = .out_of_fuel := by
  intro fuel
  induction fuel with
  | zero => intro w _ _ _ _ _; exact Or.inr rfl
  | succ f ih =>
    intro w hok hm h0 hs hb
    rw [loop_succ]
    obtain ⟨hpos, hreg⟩ := normalised_counters w
    have hscript : (normalised w).script = w.script := by
      unfold normalised; split <;> rfl
    have ok0 := no_failure_same w (normalised w) hok hscript
    generalize normalised w = w0 at hpos hreg ok0
    have hfacts : 0 < w0.next_major_number ∧ 0 ≤ w0.next_minor_number ∧
        w0.next_major_number ≤ w.next_major_number + 1 ∧ int_range w0.next_minor_number := by
      unfold next_position at hpos
      obtain ⟨r1, r2⟩ := hm
      split at hpos
      · simp only [Prod.mk.injEq] at hpos
        rw [hpos.1, hpos.2]
        unfold wrap_int
        refine ⟨by omega, by omega, by omega, by decide⟩
      · simp only [Prod.mk.injEq] at hpos
        rw [hpos.1, hpos.2]
        refine ⟨by omega, by omega, by omega, ⟨r1, r2⟩⟩
    obtain ⟨f1, f2, f3, f4⟩ := hfacts
    rw [if_neg (by omega), if_neg (by omega), if_neg (by omega)]
    have n0 := no_failure_next _ ok0
    have ok1 := no_failure_of_script w0 w0.pop ok0 rfl
    have n1 := no_failure_next _ ok1
    have ok2 := no_failure_of_script w0.pop w0.pop.pop ok1 rfl
    have n2 := no_failure_next _ ok2
    have ok3 := no_failure_of_script w0.pop.pop w0.pop.pop.pop ok2 rfl
    have n3 := no_failure_next _ ok3
    have ok4 := no_failure_of_script w0.pop.pop.pop w0.pop.pop.pop.pop ok3 rfl
    simp only [append_ok _ _ _ n0, append_int_ok _ _ _ n1, append_ok _ _ _ n2,
      append_int_ok _ _ _ n3]
    split
    · exact Or.inl ⟨_, _, rfl⟩
    · apply ih
      · exact no_failure_same _ _ ok4 rfl
      · exact wrap_int_range _
      · simp only [BusState.pop_next_major_number]; omega
      · left; simp only [BusState.pop_next_major_number]; exact f1
      · simp only [BusState.pop_next_major_number]; push_cast at hb ⊢; omega

/-- C17: `create_unique_client_name`, when string construction does not fail,
appends exactly `:M.m` where (M, m) is the first position, in the order
(1,0), (1,1), ..., (1,INT_MAX), (2,0), ... from the current counter position,
whose name the registry does not hold: the `k` earlier candidates are all in
the registry, the returned name is not, and the counters end `k + 1` positions
further, MINOR having advanced once per attempt modulo 2^32. When no string
operation fails and MAJOR cannot overflow, the function does return such a
name; from the initial counters against a registry without `:1.0` that name is
`:1.0`. -/
theorem create_unique_client_name_first_free (w : BusState) (str : String)
    (hM : int_range w.next_major_number) (hm : int_range w.next_minor_number) :
    (∀ name w', create_unique_client_name w str = .returned (true, name, w') →
      ∃ k : Nat,
        name = candidate_name str (nth_position (counter_position w) k) ∧
        (∀ j, j < k → bus_registry_lookup w
          (candidate_name str (nth_position (counter_position w) j)) ≠ none) ∧
        bus_registry_lookup w name = none ∧
        bus_registry_lookup w' name = none ∧
        w'.next_major_number = (nth_position (counter_position w) k).1 ∧
        w'.next_minor_number = wrap_int ((nth_position (counter_position w) k).2 + 1) ∧
        0 < (nth_position (counter_position w) k).1 ∧
        0 ≤ (nth_position (counter_position w) k).2 ∧
        counter_position w' = nth_position (counter_position w) (k + 1)) ∧
    (w.no_failure → 0 ≤ w.next_major_number →
      (0 < w.next_major_number ∨ w.next_minor_number ≤ 0) →
      w.next_major_number + w.registry.length < 2147483647 →
      ∃ name w', create_unique_client_name w str = .returned (true, name, w')) ∧
    (w.no_failure → w.next_major_number = 0 → w.next_minor_number = 0 →
      bus_registry_lookup w (str ++ ":1.0") = none →
      ∃ w', create_unique_client_name w str = .returned (true, str ++ ":1.0", w') ∧
        w'.next_major_number = 1 ∧ w'.next_minor_number = 1) := by
  refine ⟨fun name w' h => ?_, fun hok h0 hs hb => ?_, fun hok e1 e2 hfree => ?_⟩
  · obtain ⟨k, a1, a2, a3, a4, a5, a6, a7, a8, -, -, a11⟩ :=
      loop_first_free str _ w name w' hM hm h
    refine ⟨k, a1, a2, a3, ?_, a5, a6, a7, a8, a11⟩
    simpa [bus_registry_lookup, a4] using a3
  · have ht := create_unique_client_name_terminates w str hM hm
    rcases loop_total str (w.registry.length + 1) w hok hm h0 hs
      (by push_cast; omega) with h | h
    · exact h
    · exact absurd h ht
  · unfold create_unique_client_name
    rw [loop_succ]
    have hn : normalised w = { w with next_major_number := 1, next_minor_number := 0 } := by
      unfold normalised
      rw [e1, e2]
      rfl
    have hscript : (normalised w).script = w.script := by rw [hn]
    have hregn : (normalised w).registry = w.registry := by rw [hn]
    have hmaj : (normalised w).next_major_number = 1 := by rw [hn]
    have hmin : (normalised w).next_minor_number = 0 := by rw [hn]
    have ok0 := no_failure_same w (normalised w) hok hscript
    generalize normalised w = w0 at hscript hregn hmaj hmin ok0
    rw [if_neg (by omega), if_neg (by omega), if_neg (by omega)]
    have n0 := no_failure_next _ ok0
    have ok1 := no_failure_of_script w0 w0.pop ok0 rfl
    have n1 := no_failure_next _ ok1
    have ok2 := no_failure_of_script w0.pop w0.pop.pop ok1 rfl
    have n2 := no_failure_next _ ok2
    have ok3 := no_failure_of_script w0.pop.pop w0.pop.pop.pop ok2 rfl
    have n3 := no_failure_next _ ok3
    simp only [append_ok _ _ _ n0, append_int_ok _ _ _ n1, append_ok _ _ _ n2,
      append_int_ok _ _ _ n3, BusState.pop_next_major_number,
      BusState.pop_next_minor_number, hmaj, hmin]
    have hname : str ++ ":" ++ int_to_string 1 ++ "." ++ int_to_string 0 = str ++ ":1.0" := by
      have : int_to_string 1 = "1" := by decide
      rw [this]
      have : int_to_string 0 = "0" := by decide
      rw [this]
      simp [String.append_assoc]
    rw [hname]
    simp only [bus_registry_lookup] at hfree
    simp only [bus_registry_lookup, BusState.pop_registry, hregn, hfree, Option.isNone_none,
      if_true]
    exact ⟨_, rfl, rfl, by show wrap_int (0 + 1) = 1; decide⟩

theorem create_unique_client_name_first_free_witness :
    (∃ k : Nat,
      ":1.1" = candidate_name "" (nth_position (counter_position sample_collision) k) ∧
      (∀ j, j < k → bus_registry_lookup sample_collision
        (candidate_name "" (nth_position (counter_position sample_collision) j)) ≠ none) ∧
      bus_registry_lookup sample_collision ":1.1" = none ∧
      bus_registry_lookup sample_after_collision ":1.1" = none ∧
      sample_after_collision.next_major_number =
        (nth_position (counter_position sample_collision) k).1 ∧
      sample_after_collision.next_minor_number =
        wrap_int ((nth_position (counter_position sample_collision) k).2 + 1) ∧
      0 < (nth_position (counter_position sample_collision) k).1 ∧
      0 ≤ (nth_position (counter_position sample_collision) k).2 ∧
      counter_position sample_after_collision =
        nth_position (counter_position sample_collision) (k + 1)) ∧
    (∃ w', create_unique_client_name sample_state "" = .returned (true, "" ++ ":1.0", w') ∧
      w'.next_major_number = 1 ∧ w'.next_minor_number = 1) :=
  ⟨(create_unique_client_name_first_free sample_collision "" (by decide) (by decide)).1
      ":1.1" sample_after_collision (by decide),
   (create_unique_client_name_first_free sample_state "" (by decide) (by decide)).2.2
      (by intro o ho; simp [sample_state] at ho) rfl rfl (by decide)⟩

/-! ## AddMatch: the acknowledgement and its undo -/

theorem remove_last_rule_append (rules : List BusMatchRule) (rule : BusMatchRule) :
    remove_last_rule (rules ++ [rule]) rule = rules := by
  simp [remove_last_rule]

theorem add_rule_true (w : BusState) (rule : BusMatchRule) (w1 : BusState)
    (h : bus_matchmaker_add_rule w rule = (true, w1)) :
    w1 = ((w.record (.matchmaker_add rule)).pop.set_matchmaker
      (w.matchmaker ++ [rule])).put_connection
        { bus_connection_data w rule.matches_go_to with
          n_match_rules := (bus_connection_data w rule.matches_go_to).n_match_rules + 1 } := by
  rcases alloc_cases (w.record (.matchmaker_add rule)) with ha | ha <;>
    simp only [bus_matchmaker_add_rule, ha, Prod.mk.injEq] at h
  · rw [← h.2]; rfl
  · simp at h

/-- C18: for an AddMatch call below the limit whose arguments are read, whose
rule text parses to `rule` and whose rule the matchmaker has accepted: if
enqueueing the acknowledgement fails, the handler removes the rule again and
fails with NoMemory, with the matchmaker's rules and the queue as they were
before the call; if it succeeds, the handler succeeds, the matchmaker holds the
old rules followed by the new one and the queue has grown by exactly one
empty-bodied method return to the call. -/
theorem add_match_ack (w : BusState) (connection : Nat) (message : DBusMessage)
    (text : String) (w1 : BusState) (rule : BusMatchRule) (w2 w3 : BusState)
    (herr : w.error = none)
    (hroom : bus_connection_get_n_match_rules w connection <
      bus_context_get_max_match_rules_per_connection w)
    (hargs : dbus_message_get_args_string w message = (some text, w1))
    (hparse : bus_match_rule_parse w1 connection text = (some rule, w2))
    (hadd : bus_matchmaker_add_rule w2 rule = (true, w3)) :
    w3.matchmaker = w.matchmaker ++ [rule] ∧
    (∀ w4, send_ack_reply w3 connection message = (false, w4) →
      bus_driver_handle_add_match w connection message =
        .returned (false, bus_matchmaker_remove_rule w4 rule) ∧
      (bus_matchmaker_remove_rule w4 rule).error =
        some ⟨DBUS_ERROR_NO_MEMORY, bus_no_memory_message⟩ ∧
      (bus_matchmaker_remove_rule w4 rule).matchmaker = w.matchmaker ∧
      (bus_matchmaker_remove_rule w4 rule).transaction = w.transaction) ∧
    (∀ w4, send_ack_reply w3 connection message = (true, w4) →
      bus_driver_handle_add_match w connection message = .returned (true, w4) ∧
      w4.matchmaker = w.matchmaker ++ [rule] ∧
      w4.transaction = w.transaction ++ [(connection, method_return_to message [])]) := by
  have hnot : ¬ (bus_connection_get_n_match_rules w connection ≥
      bus_context_get_max_match_rules_per_connection w) := not_le.mpr hroom
  obtain ⟨rfl, -⟩ := get_args_string_some _ _ _ _ hargs
  obtain ⟨rfl, rfl⟩ := parse_some _ _ _ _ _ hparse
  have e3 := add_rule_true _ _ _ hadd
  subst e3
  refine ⟨by simp, fun w4 hack => ?_, fun w4 hack => ?_⟩
  · obtain ⟨f1, f2, -, -, -⟩ := send_ack_reply_false_frame _ _ _ _ hack
    have herr4 := send_ack_reply_false _ _ _ _ hack
    have hrem_err : (bus_matchmaker_remove_rule w4
        { matches_go_to := connection, text := text }).error = w4.error := by
      simp [bus_matchmaker_remove_rule]
    refine ⟨?_, by rw [hrem_err, herr4], ?_, ?_⟩
    · simp only [bus_driver_handle_add_match, herr, Option.isSome_none, Bool.false_eq_true,
        if_false, hnot, hargs, hparse, hadd, hack, return_failed, hrem_err, herr4,
        Option.isSome_some, if_true]
    · simp only [bus_matchmaker_remove_rule, BusState.put_connection_matchmaker,
        BusState.set_matchmaker_matchmaker, BusState.record_matchmaker, f2]
      simpa using remove_last_rule_append w.matchmaker _
    · simpa [bus_matchmaker_remove_rule] using f1
  · have := send_ack_reply_true _ _ _ _ hack
    subst this
    refine ⟨?_, by simp, by simp⟩
    simp only [bus_driver_handle_add_match, herr, Option.isSome_none, Bool.false_eq_true,
      if_false, hnot, hargs, hparse, hadd, hack]

theorem add_match_ack_witness :
    (bus_driver_handle_add_match sample_ack_fails 3 (sample_match_call "AddMatch") =
        .returned (false, bus_matchmaker_remove_rule sample_ack_failed sample_rule) ∧
      (bus_matchmaker_remove_rule sample_ack_failed sample_rule).error =
        some ⟨DBUS_ERROR_NO_MEMORY, bus_no_memory_message⟩ ∧
      (bus_matchmaker_remove_rule sample_ack_failed sample_rule).matchmaker =
        sample_ack_fails.matchmaker ∧
      (bus_matchmaker_remove_rule sample_ack_failed sample_rule).transaction =
        sample_ack_fails.transaction) ∧
    (bus_driver_handle_add_match sample_state 3 (sample_match_call "AddMatch") =
        .returned (true, sample_after_add_match) ∧
      sample_after_add_match.matchmaker = sample_state.matchmaker ++ [sample_rule] ∧
      sample_after_add_match.transaction =
        sample_state.transaction ++ [(3, sample_ack "AddMatch")]) :=
  ⟨(add_match_ack sample_ack_fails 3 (sample_match_call "AddMatch") "type=signal"
      { sample_state with script := [none, none, none, some sample_oom] } sample_rule
      { sample_parsed with script := [none, none, some sample_oom] }
      { sample_rule_added with script := [none, some sample_oom] }
      rfl (by decide) (by decide) (by decide) (by decide)).2.1 sample_ack_failed (by decide),
   (add_match_ack sample_state 3 (sample_match_call "AddMatch") "type=signal"
      sample_state sample_rule sample_parsed sample_rule_added
      rfl (by decide) (by decide) (by decide) (by decide)).2.2 sample_after_add_match
      (by decide)⟩

/-! ## Failure exactly when the error is set -/

theorem contract_return_failed (X : BusState) (r : Bool) (w' : BusState)
    (h : return_failed X = .returned (r, w')) : (r = false ↔ w'.error.isSome = true) := by
  unfold return_failed at h
  split at h
  · rename_i hX
    simp only [Outcome.returned.injEq, Prod.mk.injEq] at h
    obtain ⟨rfl, rfl⟩ := h
    simp [hX]
  · simp at h

theorem contract_false (X : BusState) (r : Bool) (w' : BusState) (hX : X.error.isSome = true)
    (h : Outcome.returned (false, X) = .returned (r, w')) :
    (r = false ↔ w'.error.isSome = true) := by
  simp only [Outcome.returned.injEq, Prod.mk.injEq] at h
  obtain ⟨rfl, rfl⟩ := h
  simp [hX]

theorem contract_true (X : BusState) (r : Bool) (w' : BusState) (hX : X.error = none)
    (h : Outcome.returned (true, X) = .returned (r, w')) :
    (r = false ↔ w'.error.isSome = true) := by
  simp only [Outcome.returned.injEq, Prod.mk.injEq] at h
  obtain ⟨rfl, rfl⟩ := h
  simp [hX]

theorem alloc_error (w : BusState) (b : Bool) (w1 : BusState) (h : w.alloc = (b, w1)) :
    w1.error = w.error := by
  rw [(alloc_eq _ _ _ h).2]; rfl

theorem collaborator_ok_error (w w1 : BusState) (h : w.collaborator = (true, w1)) :
    w1.error = w.error := by
  rw [(collaborator_true _ _ h).2]; rfl

theorem collaborator_fail_error (w w1 : BusState) (h : w.collaborator = (false, w1)) :
    w1.error.isSome = true := by
  obtain ⟨e, -, rfl⟩ := collaborator_false _ _ h
  rfl

theorem new_method_return_error (w : BusState) (m : DBusMessage) (r : Option DBusMessage)
    (w1 : BusState) (h : dbus_message_new_method_return w m = (r, w1)) :
    w1.error = w.error := by
  rw [(new_method_return_eq _ _ _ _ h).1]; rfl

theorem append_args_error (w : BusState) (m : DBusMessage) (args : List DBusValue) (b : Bool)
    (m1 : DBusMessage) (w1 : BusState) (h : dbus_message_append_args w m args = (b, m1, w1)) :
    w1.error = w.error := by
  rw [(append_args_eq _ _ _ _ _ _ h).1]; rfl

theorem send_error (w : BusState) (c : Nat) (m : DBusMessage) (b : Bool) (w1 : BusState)
    (h : bus_transaction_send_from_driver w c m = (b, w1)) : w1.error = w.error := by
  cases b with
  | false => rw [send_false _ _ _ _ h]; rfl
  | true => rw [send_true _ _ _ _ h]; rfl

theorem get_args_su_none (w : BusState) (m : DBusMessage) (w1 : BusState)
    (h : dbus_message_get_args_string_uint32 w m = (none, w1)) : w1.error.isSome = true := by
  unfold dbus_message_get_args_string_uint32 at h
  split at h
  · rename_i w2 h2
    simp only [Prod.mk.injEq, true_and] at h
    subst h
    exact collaborator_fail_error _ _ h2
  · split at h
    · simp at h
    · simp only [Prod.mk.injEq, true_and] at h
      subst h
      simp
    · simp only [Prod.mk.injEq, true_and] at h
      subst h
      simp

theorem get_args_su_some (w : BusState) (m : DBusMessage) (p : String × Nat) (w1 : BusState)
    (h : dbus_message_get_args_string_uint32 w m = (some p, w1)) : w1.error = w.error := by
  unfold dbus_message_get_args_string_uint32 at h
  split at h
  · simp at h
  · rename_i w2 h2
    split at h
    · simp only [Prod.mk.injEq] at h
      rw [← h.2]
      exact collaborator_ok_error _ _ h2
    · simp at h
    · simp at h

theorem acquire_cases (w : BusState) (c : Nat) (n : String) (f : Nat)
    (herr : w.error = none) :
    bus_registry_acquire_service w c n f ≠ .assertion_failed ∧
    ∀ r w', bus_registry_acquire_service w c n f = .returned (r, w') →
      (r = none → w'.error.isSome = true) ∧ (∀ code, r = some code → w'.error = w.error) := by
  unfold bus_registry_acquire_service
  split
  · rename_i w1 h1
    refine ⟨by simp, fun r w' h => ?_⟩
    simp only [Outcome.returned.injEq, Prod.mk.injEq] at h
    obtain ⟨rfl, rfl⟩ := h
    exact ⟨fun _ => collaborator_fail_error _ _ h1, fun code hc => by simp at hc⟩
  rename_i w1 h1
  have e1 : w1.error = none := by
    rw [collaborator_ok_error _ _ h1]; simpa using herr
  split
  · obtain ⟨a1, a2⟩ := add_service_cases w1 n c e1
    split
    · rename_i h2; exact absurd h2 a1
    · exact ⟨by simp, fun r w' h => by simp at h⟩
    · rename_i w2 h2
      obtain ⟨-, -, b3, -⟩ := a2 _ _ h2
      refine ⟨by simp, fun r w' h => ?_⟩
      simp only [Outcome.returned.injEq, Prod.mk.injEq] at h
      obtain ⟨rfl, rfl⟩ := h
      exact ⟨fun _ => (b3 rfl).1, fun code hc => by simp at hc⟩
    · rename_i w2 h2
      obtain ⟨-, -, -, b4⟩ := a2 _ _ h2
      refine ⟨by simp, fun r w' h => ?_⟩
      simp only [Outcome.returned.injEq, Prod.mk.injEq] at h
      obtain ⟨rfl, rfl⟩ := h
      exact ⟨fun hr => by simp at hr, fun code _ => by rw [(b4 rfl).1, e1, herr]⟩
  · split
    · refine ⟨by simp, fun r w' h => ?_⟩
      simp only [Outcome.returned.injEq, Prod.mk.injEq] at h
      obtain ⟨rfl, rfl⟩ := h
      exact ⟨fun hr => by simp at hr, fun code _ => by rw [e1, herr]⟩
    · refine ⟨by simp, fun r w' h => ?_⟩
      simp only [Outcome.returned.injEq, Prod.mk.injEq] at h
      obtain ⟨rfl, rfl⟩ := h
      exact ⟨fun hr => by simp at hr, fun code _ => by rw [e1, herr]⟩

theorem activate_true (w : BusState) (c : Nat) (n : String) (w1 : BusState)
    (h : bus_activation_activate_service w c n = (true, w1)) : w1.error = w.error := by
  unfold bus_activation_activate_service at h
  split at h
  · simp at h
  · rename_i w2 h2
    have e2 := collaborator_ok_error _ _ h2
    simp only [BusState.record_error] at e2
    simp only [Prod.mk.injEq, true_and] at h
    rw [← h]
    simpa using e2

theorem list_services_error (w : BusState) (r : Option (List String)) (w1 : BusState)
    (h : bus_registry_list_services w = (r, w1)) : w1.error = w.error := by
  unfold bus_registry_list_services at h
  split at h
  · rename_i w2 h2
    have e2 := alloc_error _ _ _ h2
    simp only [Prod.mk.injEq] at h
    rw [← h.2]
    simpa using e2
  · rename_i w2 h2
    have e2 := alloc_error _ _ _ h2
    simp only [Prod.mk.injEq] at h
    rw [← h.2]
    simpa using e2

theorem iter_open_error (w : BusState) (r : Option (List String)) (w1 : BusState)
    (h : dbus_message_iter_open_container w = (r, w1)) : w1.error = w.error := by
  unfold dbus_message_iter_open_container at h
  split at h <;> rename_i w2 h2 <;> simp only [Prod.mk.injEq] at h <;> rw [← h.2] <;>
    exact alloc_error _ _ _ h2

theorem iter_append_error (w : BusState) (sub : List String) (v : String)
    (r : Option (List String)) (w1 : BusState)
    (h : dbus_message_iter_append_basic w sub v = (r, w1)) : w1.error = w.error := by
  unfold dbus_message_iter_append_basic at h
  split at h <;> rename_i w2 h2 <;> simp only [Prod.mk.injEq] at h <;> rw [← h.2] <;>
    exact alloc_error _ _ _ h2

theorem iter_close_error (w : BusState) (m : DBusMessage) (sub : List String)
    (r : Option DBusMessage) (w1 : BusState)
    (h : dbus_message_iter_close_container w m sub = (r, w1)) : w1.error = w.error := by
  unfold dbus_message_iter_close_container at h
  split at h <;> rename_i w2 h2 <;> simp only [Prod.mk.injEq] at h <;> rw [← h.2] <;>
    exact alloc_error _ _ _ h2

theorem append_services_error (names : List String) :
    ∀ (w : BusState) (sub : List String) (r : Option (List String)) (w' : BusState),
      append_services w sub names = (r, w') → w'.error = w.error := by
  induction names with
  | nil =>
    intro w sub r w' h
    simp only [append_services, Prod.mk.injEq] at h
    rw [← h.2]
  | cons s rest ih =>
    intro w sub r w' h
    simp only [append_services] at h
    split at h
    · rename_i w1 h1
      simp only [Prod.mk.injEq] at h
      rw [← h.2]
      exact iter_append_error _ _ _ _ _ h1
    · rename_i sub1 w1 h1
      rw [ih _ _ _ _ h]
      exact iter_append_error _ _ _ _ _ h1

theorem reload_true (w w1 : BusState) (h : bus_context_reload_config w = (true, w1)) :
    w1.error = w.error := by
  unfold bus_context_reload_config at h
  split at h
  · simp at h
  · rename_i w2 h2
    have e2 := collaborator_ok_error _ _ h2
    simp only [BusState.record_error] at e2
    simp only [Prod.mk.injEq, true_and] at h
    rw [← h]
    simpa using e2

theorem activate_false (w : BusState) (c : Nat) (n : String) (w1 : BusState)
    (h : bus_activation_activate_service w c n = (false, w1)) : w1.error.isSome = true := by
  unfold bus_activation_activate_service at h
  split at h
  · rename_i w2 h2
    simp only [Prod.mk.injEq, true_and] at h
    subst h
    exact collaborator_fail_error _ _ h2
  · simp at h

theorem reload_false (w w1 : BusState) (h : bus_context_reload_config w = (false, w1)) :
    w1.error.isSome = true := by
  unfold bus_context_reload_config at h
  split at h
  · rename_i w2 h2
    simp only [Prod.mk.injEq, true_and] at h
    subst h
    exact collaborator_fail_error _ _ h2
  · simp at h

theorem acquire_service_contract : error_contract bus_driver_handle_acquire_service := by
  intro w c m r w' herr h
  unfold bus_driver_handle_acquire_service at h
  simp only [herr, Option.isSome_none, Bool.false_eq_true, if_false] at h
  split at h
  · rename_i w1 h1
    exact contract_false _ _ _ (get_args_su_none _ _ _ h1) h
  rename_i name flags w1 h1
  have e1 : w1.error = none := by rw [get_args_su_some _ _ _ _ h1]; exact herr
  obtain ⟨-, a2⟩ := acquire_cases w1 c name flags e1
  split at h
  · simp at h
  · simp at h
  · rename_i w2 h2
    exact contract_false _ _ _ ((a2 _ _ h2).1 rfl) h
  rename_i code w2 h2
  have e2 : w2.error = none := by rw [(a2 _ _ h2).2 code rfl]; exact e1
  split at h
  · exact contract_false _ _ _ (by simp) h
  rename_i reply w3 h3
  have e3 : w3.error = none := by rw [new_method_return_error _ _ _ _ h3]; exact e2
  split at h
  · exact contract_false _ _ _ (by simp) h
  rename_i reply1 w4 h4
  have e4 : w4.error = none := by rw [append_args_error _ _ _ _ _ _ h4]; exact e3
  split at h
  · exact contract_false _ _ _ (by simp) h
  rename_i w5 h5
  exact contract_true _ _ _ (by rw [send_error _ _ _ _ _ h5]; exact e4) h

theorem activate_service_contract : error_contract bus_driver_handle_activate_service := by
  intro w c m r w' herr h
  unfold bus_driver_handle_activate_service at h
  simp only [herr, Option.isSome_none, Bool.false_eq_true, if_false] at h
  split at h
  · exact contract_return_failed _ _ _ h
  rename_i name flags w1 h1
  have e1 : w1.error = none := by rw [get_args_su_some _ _ _ _ h1]; exact herr
  split at h
  · exact contract_return_failed _ _ _ h
  rename_i w2 h2
  exact contract_true _ _ _ (by rw [activate_true _ _ _ _ h2]; exact e1) h

theorem service_exists_contract : error_contract bus_driver_handle_service_exists := by
  intro w c m r w' herr h
  unfold bus_driver_handle_service_exists at h
  simp only [herr, Option.isSome_none, Bool.false_eq_true, if_false] at h
  split at h
  · rename_i w1 h1
    obtain ⟨e, rfl, -⟩ := get_args_string_none _ _ _ h1
    exact contract_false _ _ _ (by simp) h
  rename_i name w1 h1
  have e1 : w1.error = none := by rw [(get_args_string_some _ _ _ _ h1).1]; simpa using herr
  split at h
  · exact contract_false _ _ _ (by simp) h
  rename_i reply w2 h2
  have e2 : w2.error = none := by rw [new_method_return_error _ _ _ _ h2]; exact e1
  split at h
  · exact contract_false _ _ _ (by simp) h
  rename_i reply1 w3 h3
  have e3 : w3.error = none := by rw [append_args_error _ _ _ _ _ _ h3]; exact e2
  split at h
  · exact contract_false _ _ _ (by simp) h
  rename_i w4 h4
  exact contract_true _ _ _ (by rw [send_error _ _ _ _ _ h4]; exact e3) h

theorem list_services_contract : error_contract bus_driver_handle_list_services := by
  intro w c m r w' herr h
  unfold bus_driver_handle_list_services at h
  simp only [herr, Option.isSome_none, Bool.false_eq_true, if_false] at h
  split at h
  · exact contract_false _ _ _ (by simp) h
  rename_i reply w1 h1
  have e1 : w1.error = none := by rw [new_method_return_error _ _ _ _ h1]; exact herr
  split at h
  · exact contract_false _ _ _ (by simp) h
  rename_i services w2 h2
  have e2 : w2.error = none := by rw [list_services_error _ _ _ h2]; exact e1
  split at h
  · exact contract_false _ _ _ (by simp) h
  rename_i sub w3 h3
  have e3 : w3.error = none := by rw [iter_open_error _ _ _ h3]; exact e2
  split at h
  · exact contract_false _ _ _ (by simp) h
  rename_i sub1 w4 h4
  have e4 : w4.error = none := by rw [iter_append_error _ _ _ _ _ h4]; exact e3
  split at h
  · exact contract_false _ _ _ (by simp) h
  rename_i sub2 w5 h5
  have e5 : w5.error = none := by rw [append_services_error _ _ _ _ _ h5]; exact e4
  split at h
  · exact contract_false _ _ _ (by simp) h
  rename_i reply1 w6 h6
  have e6 : w6.error = none := by rw [iter_close_error _ _ _ _ _ h6]; exact e5
  split at h
  · exact contract_false _ _ _ (by simp) h
  rename_i w7 h7
  exact contract_true _ _ _ (by rw [send_error _ _ _ _ _ h7]; exact e6) h

theorem add_match_contract : error_contract bus_driver_handle_add_match := by
  intro w c m r w' herr h
  unfold bus_driver_handle_add_match at h
  simp only [herr, Option.isSome_none, Bool.false_eq_true, if_false] at h
  split at h
  · exact contract_return_failed _ _ _ h
  split at h
  · exact contract_return_failed _ _ _ h
  rename_i text w1 h1
  have e1 : w1.error = none := by rw [(get_args_string_some _ _ _ _ h1).1]; simpa using herr
  split at h
  · exact contract_return_failed _ _ _ h
  rename_i rule w2 h2
  have e2 : w2.error = none := by rw [(parse_some _ _ _ _ _ h2).2]; simpa using e1
  split at h
  · exact contract_return_failed _ _ _ h
  rename_i w3 h3
  have e3 : w3.error = none := by rw [(add_rule_eq _ _ _ _ h3).1]; exact e2
  split at h
  · exact contract_return_failed _ _ _ h
  rename_i w4 h4
  exact contract_true _ _ _ (by rw [send_ack_reply_true _ _ _ _ h4]; simpa using e3) h

theorem remove_match_contract : error_contract bus_driver_handle_remove_match := by
  intro w c m r w' herr h
  unfold bus_driver_handle_remove_match at h
  simp only [herr, Option.isSome_none, Bool.false_eq_true, if_false] at h
  split at h
  · exact contract_return_failed _ _ _ h
  rename_i text w1 h1
  have e1 : w1.error = none := by rw [(get_args_string_some _ _ _ _ h1).1]; simpa using herr
  split at h
  · exact contract_return_failed _ _ _ h
  rename_i rule w2 h2
  have e2 : w2.error = none := by rw [(parse_some _ _ _ _ _ h2).2]; simpa using e1
  split at h
  · exact contract_return_failed _ _ _ h
  rename_i w3 h3
  have e3 : w3.error = none := by rw [send_ack_reply_true _ _ _ _ h3]; simpa using e2
  split at h
  · exact contract_return_failed _ _ _ h
  rename_i w4 h4
  exact contract_true _ _ _
    (by rw [((remove_by_value_eq _ _ _ _ h4).2.2.2 rfl).1]; exact e3) h

theorem reload_config_contract : error_contract bus_driver_handle_reload_config := by
  intro w c m r w' herr h
  unfold bus_driver_handle_reload_config at h
  simp only [herr, Option.isSome_none, Bool.false_eq_true, if_false] at h
  split at h
  · exact contract_return_failed _ _ _ h
  rename_i w1 h1
  exact contract_true _ _ _ (by rw [reload_true _ _ h1]; exact herr) h

theorem contract_of_cases (w : BusState) (r : Bool) (w' : BusState) (herr : w.error = none)
    (hf : r = false → w'.error.isSome = true) (ht : r = true → w'.error = w.error) :
    (r = false ↔ w'.error.isSome = true) := by
  cases r with
  | false => simp [hf rfl]
  | true => simp [ht rfl, herr]

theorem unix_user_contract : error_contract bus_driver_handle_get_connection_unix_user := by
  intro w c m r w' herr h
  obtain ⟨a, b⟩ := unix_user_cases _ _ _ _ _ h
  exact contract_of_cases w r w' herr (fun hr => (a hr).2) (fun hr => (b hr).1)

theorem unix_process_id_contract :
    error_contract bus_driver_handle_get_connection_unix_process_id := by
  intro w c m r w' herr h
  obtain ⟨a, b⟩ := unix_process_id_cases _ _ _ _ _ h
  exact contract_of_cases w r w' herr (fun hr => (a hr).2) (fun hr => (b hr).1)

theorem introspect_contract : error_contract bus_driver_handle_introspect := by
  intro w c m r w' herr h
  obtain ⟨a, b⟩ := introspect_cases _ _ _ _ _ h
  exact contract_of_cases w r w' herr (fun hr => (a hr).2) (fun hr => (b hr).1)

theorem hello_contract : error_contract bus_driver_handle_hello := by
  intro w c m r w' herr h
  unfold bus_driver_handle_hello at h
  simp only [herr, Option.isSome_none, Bool.false_eq_true, if_false] at h
  split at h
  · exact contract_false _ _ _ (by simp) h
  split at h
  · exact contract_return_failed _ _ _ h
  rename_i w1 h1
  have e1 : w1.error = none := by rw [check_limits_true _ _ _ h1]; simpa using herr
  split at h
  · exact contract_false _ _ _ (by simp) h
  rename_i w2 h2
  have e2 : w2.error = none := by rw [alloc_error _ _ _ h2]; exact e1
  split at h
  · simp at h
  · simp at h
  · exact contract_false _ _ _ (by simp) h
  rename_i unique_name w3 h3
  have e3 : w3.error = none := by
    unfold create_unique_client_name at h3
    rw [(loop_frame _ _ _ _ _ _ h3).2.2.2.2.2.2.2.2]
    exact e2
  split at h
  · exact contract_return_failed _ _ _ h
  rename_i w4 h4
  have e4 : w4.error = none := by rw [complete_true _ _ _ _ h4]; simpa using e3
  split at h
  · exact contract_false _ _ _ (by simp) h
  rename_i message1 w5 h5
  have e5 : w5.error = none := by rw [(set_sender_eq _ _ _ _ _ _ h5).1]; simpa using e4
  split at h
  · simp at h
  · simp at h
  · rename_i w6 h6
    exact contract_false _ _ _ (welcome_false _ _ _ _ h6).2.2.1 h
  rename_i w6 h6
  have e6 : w6.error = none := by
    obtain ⟨n, -, rfl⟩ := welcome_true _ _ _ _ h6
    simpa using e5
  obtain ⟨-, a2⟩ := ensure_cases w6 unique_name c e6
  split at h
  · simp at h
  · simp at h
  · rename_i w7 h7
    exact contract_false _ _ _ ((a2 _ _ h7).2.2.1 rfl).1 h
  rename_i service w7 h7
  have e7 : w7.error = none := by rw [((a2 _ _ h7).2.2.2 service rfl).1]; exact e6
  split at h
  · exact contract_true _ _ _ (by simpa [bus_service_set_prohibit_replacement] using e7) h
  · simp at h

theorem get_service_owner_contract : error_contract bus_driver_handle_get_service_owner := by
  intro w c m r w' herr h
  unfold bus_driver_handle_get_service_owner at h
  simp only [herr, Option.isSome_none, Bool.false_eq_true, if_false] at h
  split at h
  · exact contract_return_failed _ _ _ h
  rename_i text w1 h1
  have e1 : w1.error = none := by rw [(get_args_string_some _ _ _ _ h1).1]; simpa using herr
  split at h
  · split at h
    · obtain ⟨a, b⟩ := (reply_with_cases w1 c m (.string DBUS_SERVICE_DBUS)).2 r w' h
      exact contract_of_cases w1 r w' e1 (fun hr => by simp [(b hr).2]) (fun hr => (a hr).2)
    · exact contract_return_failed _ _ _ h
  · split at h
    · exact contract_return_failed _ _ _ h
    · rename_i base_name hbase
      split at h
      · obtain ⟨a, b⟩ := (reply_with_cases w1 c m (.string base_name)).2 r w' h
        exact contract_of_cases w1 r w' e1 (fun hr => by simp [(b hr).2]) (fun hr => (a hr).2)
      · simp at h

theorem dispatch_contract (w : BusState) (c : Nat) (m : DBusMessage) (name : String)
    (herr : w.error = none) :
    ∀ (table : List MessageHandler) (r : Bool) (w' : BusState),
      dispatch w c m name table = .returned (r, w') →
      (r = false ↔ w'.error.isSome = true) := by
  intro table
  induction table with
  | nil =>
    intro r w' h
    simp only [dispatch, unknown_method] at h
    exact contract_false _ _ _ (by simp) h
  | cons hd rest ih =>
    intro r w' h
    simp only [dispatch] at h
    split at h
    · split at h
      · simp only [herr, Option.isSome_none, Bool.false_eq_true, if_false] at h
        exact contract_return_failed _ _ _ h
      · split at h
        · simp at h
        · simp at h
        · split at h
          · simp at h
          · rename_i hclear
            exact contract_true _ _ _ (by simpa using hclear) h
        · split at h
          · rename_i hset
            exact contract_false _ _ _ hset h
          · simp at h
    · exact ih r w' h

theorem dispatch_eq_handler (w : BusState) (c : Nat) (m : DBusMessage) (name : String)
    (herr : w.error = none) :
    ∀ (table : List MessageHandler), (∀ h ∈ table, error_contract h.handler) →
      ∀ h, table.find? (fun e => decide (e.name = name)) = some h →
      dbus_message_has_signature m h.in_args = true →
      dispatch w c m name table = h.handler w c m := by
  intro table
  induction table with
  | nil => intro _ h hfind; simp at hfind
  | cons hd rest ih =>
    intro hall h hfind hsig
    simp only [dispatch]
    by_cases hn : hd.name = name
    · simp only [List.find?, hn, decide_True, Option.some.injEq] at hfind
      subst hfind
      simp only [hn, if_true, hsig, Bool.not_true, Bool.false_eq_true, if_false]
      have hc := hall hd (List.mem_cons_self _ _) w c m
      cases hres : hd.handler w c m with
      | assertion_failed => rfl
      | out_of_fuel => rfl
      | returned p =>
        obtain ⟨b, w1⟩ := p
        have hk := hc b w1 herr hres
        cases b with
        | true =>
          have : w1.error.isSome = false := by
            cases hs : w1.error.isSome with
            | false => rfl
            | true => exact absurd (hk.2 hs) (by simp)
          simp [this]
        | false =>
          have : w1.error.isSome = true := hk.1 rfl
          simp [this]
    · simp only [List.find?, hn, decide_False] at hfind
      simp only [hn, if_false]
      exact ih (fun x hx => hall x (List.mem_cons_of_mem _ hx)) h hfind hsig

theorem table_handlers_keep_contract : ∀ h ∈ message_handlers, error_contract h.handler := by
  intro h hm
  simp only [message_handlers, List.mem_cons, List.mem_singleton, List.not_mem_nil,
    or_false] at hm
  rcases hm with rfl | rfl | rfl | rfl | rfl | rfl | rfl | rfl | rfl | rfl | rfl
  · exact acquire_service_contract
  · exact activate_service_contract
  · exact hello_contract
  · exact service_exists_contract
  · exact list_services_contract
  · exact add_match_contract
  · exact remove_match_contract
  · exact get_service_owner_contract
  · exact unix_user_contract
  · exact unix_process_id_contract
  · exact reload_config_contract

theorem handle_message_with_contract (table : List MessageHandler) :
    error_contract (bus_driver_handle_message_with table) := by
  intro w c m r w' herr h
  unfold bus_driver_handle_message_with at h
  simp only [herr, Option.isSome_none, Bool.false_eq_true, if_false] at h
  split at h
  · exact contract_true _ _ _ herr h
  split at h
  · exact introspect_contract w c m r w' herr h
  split at h
  · simp at h
  split at h
  · simp only [unknown_method] at h
    exact contract_false _ _ _ (by simp) h
  split at h
  · simp at h
  · exact dispatch_contract w c m _ herr _ r w' h


theorem return_failed_ne (X : BusState) (hX : X.error.isSome = true) :
    return_failed X ≠ .assertion_failed := by
  simp [return_failed, hX]

theorem acquire_service_no_abort (w : BusState) (c : Nat) (m : DBusMessage)
    (herr : w.error = none) :
    bus_driver_handle_acquire_service w c m ≠ .assertion_failed := by
  unfold bus_driver_handle_acquire_service
  simp only [herr, Option.isSome_none, Bool.false_eq_true, if_false]
  split
  · simp
  rename_i name flags w1 h1
  have e1 : w1.error = none := by rw [get_args_su_some _ _ _ _ h1]; exact herr
  obtain ⟨a1, -⟩ := acquire_cases w1 c name flags e1
  split
  · rename_i h2; exact absurd h2 a1
  · simp
  · simp
  split
  · simp
  split
  · simp
  split <;> simp

theorem activate_service_no_abort (w : BusState) (c : Nat) (m : DBusMessage)
    (herr : w.error = none) :
    bus_driver_handle_activate_service w c m ≠ .assertion_failed := by
  unfold bus_driver_handle_activate_service
  simp only [herr, Option.isSome_none, Bool.false_eq_true, if_false]
  split
  · rename_i w1 h1
    exact return_failed_ne _ (get_args_su_none _ _ _ h1)
  split
  · rename_i w2 h2
    exact return_failed_ne _ (activate_false _ _ _ _ h2)
  · simp

theorem service_exists_no_abort (w : BusState) (c : Nat) (m : DBusMessage)
    (herr : w.error = none) :
    bus_driver_handle_service_exists w c m ≠ .assertion_failed := by
  unfold bus_driver_handle_service_exists
  simp only [herr, Option.isSome_none, Bool.false_eq_true, if_false]
  split
  · simp
  split
  · simp
  split
  · simp
  split <;> simp

theorem list_services_no_abort (w : BusState) (c : Nat) (m : DBusMessage)
    (herr : w.error = none) :
    bus_driver_handle_list_services w c m ≠ .assertion_failed := by
  unfold bus_driver_handle_list_services
  simp only [herr, Option.isSome_none, Bool.false_eq_true, if_false]
  split
  · simp
  split
  · simp
  split
  · simp
  split
  · simp
  split
  · simp
  split
  · simp
  split <;> simp

theorem remove_rule_error (w : BusState) (rule : BusMatchRule) :
    (bus_matchmaker_remove_rule w rule).error = w.error := by
  simp [bus_matchmaker_remove_rule]

theorem add_match_no_abort (w : BusState) (c : Nat) (m : DBusMessage)
    (herr : w.error = none) :
    bus_driver_handle_add_match w c m ≠ .assertion_failed := by
  unfold bus_driver_handle_add_match
  simp only [herr, Option.isSome_none, Bool.false_eq_true, if_false]
  split
  · exact return_failed_ne _ (by simp)
  split
  · rename_i w1 h1
    obtain ⟨e, rfl, -⟩ := get_args_string_none _ _ _ h1
    exact return_failed_ne _ (by simp)
  rename_i text w1 h1
  split
  · rename_i w2 h2
    obtain ⟨e, rfl, -⟩ := parse_none _ _ _ _ h2
    exact return_failed_ne _ (by simp)
  rename_i rule w2 h2
  split
  · exact return_failed_ne _ (by simp)
  rename_i w3 h3
  split
  · rename_i w4 h4
    exact return_failed_ne _ (by rw [remove_rule_error, send_ack_reply_false _ _ _ _ h4]; rfl)
  · simp

theorem remove_match_no_abort (w : BusState) (c : Nat) (m : DBusMessage)
    (herr : w.error = none) :
    bus_driver_handle_remove_match w c m ≠ .assertion_failed := by
  unfold bus_driver_handle_remove_match
  simp only [herr, Option.isSome_none, Bool.false_eq_true, if_false]
  split
  · rename_i w1 h1
    obtain ⟨e, rfl, -⟩ := get_args_string_none _ _ _ h1
    exact return_failed_ne _ (by simp)
  rename_i text w1 h1
  split
  · rename_i w2 h2
    obtain ⟨e, rfl, -⟩ := parse_none _ _ _ _ h2
    exact return_failed_ne _ (by simp)
  rename_i rule w2 h2
  split
  · rename_i w3 h3
    exact return_failed_ne _ (by rw [send_ack_reply_false _ _ _ _ h3]; rfl)
  rename_i w3 h3
  split
  · rename_i w4 h4
    exact return_failed_ne _ ((remove_by_value_eq _ _ _ _ h4).2.2.1 rfl).1
  · simp

theorem reload_config_propagates (w : BusState) (c : Nat) (m : DBusMessage)
    (herr : w.error = none) :
    bus_driver_handle_reload_config w c m = .returned (bus_context_reload_config w) := by
  unfold bus_driver_handle_reload_config
  simp only [herr, Option.isSome_none, Bool.false_eq_true, if_false]
  split
  · rename_i w1 h1
    simp [return_failed, reload_false _ _ h1, h1]
  · rename_i w1 h1
    rw [h1]

theorem reload_config_no_abort (w : BusState) (c : Nat) (m : DBusMessage)
    (herr : w.error = none) :
    bus_driver_handle_reload_config w c m ≠ .assertion_failed := by
  rw [reload_config_propagates w c m herr]
  simp

theorem unix_user_no_abort (w : BusState) (c : Nat) (m : DBusMessage)
    (herr : w.error = none) :
    bus_driver_handle_get_connection_unix_user w c m ≠ .assertion_failed := by
  unfold bus_driver_handle_get_connection_unix_user
  simp only [herr, Option.isSome_none, Bool.false_eq_true, if_false]
  split
  · rename_i w1 h1
    obtain ⟨e, rfl, -⟩ := get_args_string_none _ _ _ h1
    exact return_failed_ne _ (by simp)
  split
  · exact return_failed_ne _ (by simp)
  split
  · exact return_failed_ne _ (by simp)
  split
  · exact return_failed_ne _ (by simp)
  · exact (append_and_send_cases _ _ _ _).1

theorem unix_process_id_no_abort (w : BusState) (c : Nat) (m : DBusMessage)
    (herr : w.error = none) :
    bus_driver_handle_get_connection_unix_process_id w c m ≠ .assertion_failed := by
  unfold bus_driver_handle_get_connection_unix_process_id
  simp only [herr, Option.isSome_none, Bool.false_eq_true, if_false]
  split
  · rename_i w1 h1
    obtain ⟨e, rfl, -⟩ := get_args_string_none _ _ _ h1
    exact return_failed_ne _ (by simp)
  split
  · exact return_failed_ne _ (by simp)
  split
  · exact return_failed_ne _ (by simp)
  split
  · exact return_failed_ne _ (by simp)
  · exact (append_and_send_cases _ _ _ _).1

theorem write_args_loop_no_abort (is_in : Bool) : ∀ (fuel : Nat) (w : BusState)
    (xml : String) (sig : List Char),
    write_args_loop is_in fuel w xml sig ≠ .assertion_failed := by
  intro fuel
  induction fuel with
  | zero =>
    intro w xml sig
    cases sig <;> simp [write_args_loop]
  | succ f ih =>
    intro w xml sig
    cases sig with
    | nil => simp [write_args_loop]
    | cons c cs =>
      simp only [write_args_loop]
      split
      · simp
      split
      · simp
      split
      · simp
      · exact ih _ _ _

theorem write_methods_no_abort : ∀ (table : List MessageHandler) (w : BusState)
    (xml : String), write_methods w xml table ≠ .assertion_failed := by
  intro table
  induction table with
  | nil => intro w xml; simp [write_methods]
  | cons hd rest ih =>
    intro w xml
    simp only [write_methods]
    split
    · simp
    split
    · rename_i h2
      exact absurd h2 (write_args_loop_no_abort _ _ _ _ _)
    · simp
    · simp
    split
    · rename_i h3
      exact absurd h3 (write_args_loop_no_abort _ _ _ _ _)
    · simp
    · simp
    split
    · simp
    · exact ih _ _

theorem introspect_xml_no_abort (w : BusState) : introspect_xml w ≠ .assertion_failed := by
  unfold introspect_xml
  split
  · simp
  split
  · simp
  split
  · rename_i h3
    exact absurd h3 (write_methods_no_abort _ _ _)
  · simp
  · simp
  · simp

theorem introspect_no_abort (w : BusState) (c : Nat) (m : DBusMessage)
    (herr : w.error = none) :
    bus_driver_handle_introspect w c m ≠ .assertion_failed := by
  unfold bus_driver_handle_introspect
  simp only [herr, Option.isSome_none, Bool.false_eq_true, if_false]
  split
  · rename_i w1 h1
    exact return_failed_ne _ (collaborator_fail_error _ _ h1)
  split
  · rename_i h2
    exact absurd h2 (introspect_xml_no_abort _)
  · simp
  · simp
  split
  · simp
  split
  · simp
  split <;> simp

theorem get_service_owner_no_abort (w : BusState) (c : Nat) (m : DBusMessage)
    (herr : w.error = none)
    (hnames : ∀ text serv base, bus_registry_lookup w text = some serv →
      bus_connection_get_name w serv.primary_owner = some base →
      base.data.head? = some ':') :
    bus_driver_handle_get_service_owner w c m ≠ .assertion_failed := by
  unfold bus_driver_handle_get_service_owner
  simp only [herr, Option.isSome_none, Bool.false_eq_true, if_false]
  split
  · rename_i w1 h1
    obtain ⟨e, rfl, -⟩ := get_args_string_none _ _ _ h1
    exact return_failed_ne _ (by simp)
  rename_i text w1 h1
  obtain ⟨rfl, -⟩ := get_args_string_some _ _ _ _ h1
  split
  · split
    · exact (reply_with_cases w.pop c m (.string DBUS_SERVICE_DBUS)).1
    · exact return_failed_ne _ (by simp)
  · rename_i service hservice
    split
    · exact return_failed_ne _ (by simp)
    · rename_i base_name hbase
      split
      · exact (reply_with_cases w.pop c m (.string base_name)).1
      · rename_i hcolon
        exact absurd (hnames text service base_name hservice hbase) hcolon

theorem loop_no_abort (start : String) :
    ∀ (fuel : Nat) (w : BusState),
      int_range w.next_minor_number → 0 ≤ w.next_major_number →
      (0 < w.next_major_number ∨ w.next_minor_number ≤ 0) →
      w.next_major_number + fuel ≤ 2147483647 →
      create_unique_client_name_loop start fuel w ≠ .assertion_failed := by
  intro fuel
  induction fuel with
  | zero => intro w _ _ _ _; simp [create_unique_client_name_loop]
  | succ f ih =>
    intro w hm h0 hs hb
    rw [loop_succ]
    obtain ⟨hpos, -⟩ := normalised_counters w
    generalize normalised w = w0 at hpos
    have hfacts : 0 < w0.next_major_number ∧ 0 ≤ w0.next_minor_number ∧
        w0.next_major_number ≤ w.next_major_number + 1 := by
      unfold next_position at hpos
      obtain ⟨r1, r2⟩ := hm
      split at hpos
      · simp only [Prod.mk.injEq] at hpos
        rw [hpos.1, hpos.2]
        unfold wrap_int
        refine ⟨by omega, by omega, by omega⟩
      · simp only [Prod.mk.injEq] at hpos
        rw [hpos.1, hpos.2]
        refine ⟨by omega, by omega, by omega⟩
    obtain ⟨f1, f2, f3⟩ := hfacts
    rw [if_neg (by omega), if_neg (by omega), if_neg (by omega)]
    split
    · simp
    rename_i s1 w1 h1
    obtain ⟨-, rfl⟩ := append_true _ _ _ _ _ h1
    split
    · simp
    rename_i s2 w2 h2
    obtain ⟨-, rfl⟩ := append_true _ _ _ _ _ h2
    split
    · simp
    rename_i s3 w3 h3
    obtain ⟨-, rfl⟩ := append_true _ _ _ _ _ h3
    split
    · simp
    rename_i s4 w4 h4
    obtain ⟨-, rfl⟩ := append_true _ _ _ _ _ h4
    split
    · simp
    · apply ih
      · exact wrap_int_range _
      · simp only [BusState.pop_next_major_number]; omega
      · left; simp only [BusState.pop_next_major_number]; exact f1
      · simp only [BusState.pop_next_major_number]; push_cast at hb ⊢; omega

theorem welcome_signature (m : DBusMessage) (n : String) :
    dbus_message_has_signature
      { method_return_to m [] with body := (method_return_to m []).body ++ [.string n] }
      "s" = true := by
  simp [dbus_message_has_signature, dbus_message_get_signature, method_return_to,
    DBusValue.signature, String.join]

theorem welcome_no_abort (w : BusState) (c : Nat) (m : DBusMessage) (n : String)
    (herr : w.error = none) (hname : bus_connection_get_name w c = some n) :
    bus_driver_send_welcome_message w c m ≠ .assertion_failed := by
  unfold bus_driver_send_welcome_message
  simp only [herr, Option.isSome_none, Bool.false_eq_true, if_false, hname]
  split
  · simp
  rename_i welcome w1 h1
  obtain ⟨rfl, hr⟩ := new_method_return_eq _ _ _ _ h1
  have hw := hr welcome rfl
  subst hw
  split
  · simp
  rename_i welcome1 w2 h2
  obtain ⟨rfl, hr2⟩ := append_args_eq _ _ _ _ _ _ h2
  have hw2 := hr2 rfl
  subst hw2
  simp only [welcome_signature, Bool.not_true, Bool.false_eq_true, if_false]
  split <;> simp

theorem hello_no_abort (w : BusState) (c : Nat) (m : DBusMessage) (herr : w.error = none)
    (hm : int_range w.next_minor_number) (h0 : 0 ≤ w.next_major_number)
    (hs : 0 < w.next_major_number ∨ w.next_minor_number ≤ 0)
    (hb : w.next_major_number + w.registry.length < 2147483647) :
    bus_driver_handle_hello w c m ≠ .assertion_failed := by
  unfold bus_driver_handle_hello
  simp only [herr, Option.isSome_none, Bool.false_eq_true, if_false]
  split
  · simp
  split
  · rename_i w1 h1
    obtain ⟨e, rfl⟩ := check_limits_false _ _ _ h1
    exact return_failed_ne _ (by simp)
  rename_i w1 h1
  have e1 := check_limits_true _ _ _ h1
  subst e1
  split
  · simp
  rename_i w2 h2
  obtain ⟨-, rfl⟩ := alloc_eq _ _ _ h2
  split
  · rename_i h3
    unfold create_unique_client_name at h3
    have hfuel : (w.record (.check_limits c)).pop.pop.next_major_number +
        (((w.record (.check_limits c)).pop.pop.registry.length + 1 : Nat) : Int) ≤
        2147483647 := by
      simp only [BusState.pop_next_major_number, BusState.record_next_major_number,
        BusState.pop_registry, BusState.record_registry]
      push_cast
      omega
    exact absurd h3 (loop_no_abort "" _ _ (by simpa using hm) (by simpa using h0)
      (by simpa using hs) hfuel)
  · simp
  · simp
  rename_i n w3 h3
  obtain ⟨-, -, -, -, -, -, -, -, f9⟩ := loop_frame _ _ _ _ _ _ h3
  have e3 : w3.error = none := by simpa [herr] using f9
  split
  · rename_i w4 h4
    obtain ⟨e, rfl⟩ := complete_false _ _ _ _ h4
    exact return_failed_ne _ (by simp)
  rename_i w4 h4
  have e4 := complete_true _ _ _ _ h4
  subst e4
  split
  · simp
  rename_i message1 w5 h5
  obtain ⟨rfl, -⟩ := set_sender_eq _ _ _ _ _ _ h5
  have hg5 : bus_connection_get_name
      ((w3.record (.connection_complete c n)).pop.put_connection
        { bus_connection_data w3 c with name := some n }).pop c = some n :=
    get_name_bound w3 _ c n _ rfl
  split
  · rename_i h6
    exact absurd h6 (welcome_no_abort _ c message1 n (by simpa using e3) hg5)
  · simp
  · simp
  rename_i w6 h6
  obtain ⟨n', hn', rfl⟩ := welcome_true _ _ _ _ h6
  obtain ⟨a1, a2⟩ := ensure_cases
    (((((w3.record (.connection_complete c n)).pop.put_connection
      { bus_connection_data w3 c with name := some n }).pop.pop.pop.record
        (.transaction_send c (method_return_to message1 [.string n']))).pop).enqueue
      c (method_return_to message1 [.string n'])) n c (by simpa using e3)
  split
  · rename_i h7; exact absurd h7 a1
  · simp
  · simp
  rename_i service w7 h7
  obtain ⟨c1, -⟩ := a2 _ _ h7
  have hact : bus_connection_is_active (bus_service_set_prohibit_replacement w7 service true)
      c = true := by
    have hg := get_name_bound w3 (bus_service_set_prohibit_replacement w7 service true) c n
      w3.connections (by simp [bus_service_set_prohibit_replacement, c1])
    simp [bus_connection_is_active, hg]
  simp [hact]

theorem table_handlers_no_abort : ∀ h ∈ message_handlers, ∀ (w : BusState) (c : Nat)
    (m : DBusMessage), w.error = none → driver_invariant w →
    h.handler w c m ≠ .assertion_failed := by
  intro h hm w c m herr hinv
  obtain ⟨i1, i2, i3, i4, i5⟩ := hinv
  simp only [message_handlers, List.mem_cons, List.mem_singleton, List.not_mem_nil,
    or_false] at hm
  rcases hm with rfl | rfl | rfl | rfl | rfl | rfl | rfl | rfl | rfl | rfl | rfl
  · exact acquire_service_no_abort w c m herr
  · exact activate_service_no_abort w c m herr
  · exact hello_no_abort w c m herr i1 i2 i3 i4
  · exact service_exists_no_abort w c m herr
  · exact list_services_no_abort w c m herr
  · exact add_match_no_abort w c m herr
  · exact remove_match_no_abort w c m herr
  · exact get_service_owner_no_abort w c m herr i5
  · exact unix_user_no_abort w c m herr
  · exact unix_process_id_no_abort w c m herr
  · exact reload_config_no_abort w c m herr

theorem dispatch_no_abort (w : BusState) (c : Nat) (m : DBusMessage) (name : String)
    (herr : w.error = none) :
    ∀ (table : List MessageHandler), (∀ h ∈ table, error_contract h.handler) →
      (∀ h ∈ table, h.handler w c m ≠ .assertion_failed) →
      dispatch w c m name table ≠ .assertion_failed := by
  intro table
  induction table with
  | nil => intro _ _; simp [dispatch, unknown_method]
  | cons hd rest ih =>
    intro hall hno
    simp only [dispatch]
    split
    · split
      · simp only [herr, Option.isSome_none, Bool.false_eq_true, if_false]
        exact return_failed_ne _ (by simp)
      · have hc := hall hd (List.mem_cons_self _ _) w c m
        have hn := hno hd (List.mem_cons_self _ _)
        split
        · rename_i h1; exact absurd h1 hn
        · simp
        · rename_i w1 h1
          have : w1.error.isSome = false := by
            cases hs : w1.error.isSome with
            | false => rfl
            | true => exact absurd ((hc true w1 herr h1).2 hs) (by simp)
          simp [this]
        · rename_i w1 h1
          have : w1.error.isSome = true := (hc false w1 herr h1).1 rfl
          simp [this]
    · exact ih (fun x hx => hall x (List.mem_cons_of_mem _ hx))
        (fun x hx => hno x (List.mem_cons_of_mem _ hx))

theorem handle_message_no_abort (w : BusState) (c : Nat) (m : DBusMessage)
    (herr : w.error = none) (hinv : driver_invariant w) (hmember : m.member ≠ none)
    (hsender : m.sender.isSome = true ∨ m.member = some "Hello") :
    bus_driver_handle_message w c m ≠ .assertion_failed := by
  unfold bus_driver_handle_message bus_driver_handle_message_with
  simp only [herr, Option.isSome_none, Bool.false_eq_true, if_false]
  split
  · simp
  split
  · exact introspect_no_abort w c m herr
  split
  · rename_i hnone; exact absurd hnone hmember
  rename_i name hname
  split
  · simp [unknown_method]
  split
  · rename_i hbad
    rcases hsender with hsd | hhello
    · simp [hsd] at hbad
    · rw [hname] at hhello
      simp only [Option.some.injEq] at hhello
      simp [hhello] at hbad
  · exact dispatch_no_abort w c m name herr message_handlers table_handlers_keep_contract
      (fun h hm => table_handlers_no_abort h hm w c m herr hinv)

/-- C19: entered with a clear error, every handler of the dispatch table, the
Introspect handler and `bus_driver_handle_message` itself return failure
exactly when the error is set on return, and none of them stops at an
assertion: every failing exit has the error set before it is checked, and the
two assertions that follow the handler call in the dispatcher never fail, so
for the entry the dispatcher finds, called with the declared signature, the
dispatcher's outcome is the handler's outcome. ReloadConfig returns what
`bus_context_reload_config` reports, failure included. The handlers' other
assertions (counter overflow, the colon of a unique name, the dispatcher's
preconditions on member and sender) hold under `driver_invariant`. -/
theorem failure_iff_error_set :
    (∀ h ∈ message_handlers, error_contract h.handler) ∧
    error_contract bus_driver_handle_introspect ∧
    error_contract bus_driver_handle_message ∧
    (∀ (w : BusState) (connection : Nat) (message : DBusMessage) (name : String)
        (h : MessageHandler), w.error = none →
      message_handlers.find? (fun e => decide (e.name = name)) = some h →
      dbus_message_has_signature message h.in_args = true →
      dispatch w connection message name message_handlers =
        h.handler w connection message) ∧
    (∀ h ∈ message_handlers, ∀ (w : BusState) (connection : Nat) (message : DBusMessage),
      w.error = none → driver_invariant w →
      h.handler w connection message ≠ .assertion_failed) ∧
    (∀ (w : BusState) (connection : Nat) (message : DBusMessage), w.error = none →
      bus_driver_handle_introspect w connection message ≠ .assertion_failed) ∧
    (∀ (w : BusState) (connection : Nat) (message : DBusMessage), w.error = none →
      driver_invariant w → message.member ≠ none →
      (message.sender.isSome = true ∨ message.member = some "Hello") →
      bus_driver_handle_message w connection message ≠ .assertion_failed) ∧
    (∀ (w : BusState) (connection : Nat) (message : DBusMessage), w.error = none →
      bus_driver_handle_reload_config w connection message =
        .returned (bus_context_reload_config w)) :=
  ⟨table_handlers_keep_contract, introspect_contract,
   handle_message_with_contract message_handlers,
   fun w connection message name h herr hfind hsig =>
     dispatch_eq_handler w connection message name herr message_handlers
       table_handlers_keep_contract h hfind hsig,
   table_handlers_no_abort, introspect_no_abort, handle_message_no_abort,
   reload_config_propagates⟩

theorem sample_state_invariant : driver_invariant sample_state :=
  ⟨by decide, by decide, by decide, by decide,
   fun text serv base h _ => by simp [sample_state, bus_registry_lookup] at h⟩

theorem failure_iff_error_set_witness :
    ((true = false ↔ sample_after_hello.error.isSome = true) ∧
      (false = false ↔ sample_after_failed_hello.error.isSome = true)) ∧
    dispatch sample_state 3 sample_hello "Hello" message_handlers =
      bus_driver_handle_hello sample_state 3 sample_hello ∧
    bus_driver_handle_message sample_state 3 sample_hello ≠ .assertion_failed ∧
    bus_driver_handle_message sample_rules_full 3 (sample_match_call "AddMatch") ≠
      .assertion_failed ∧
    bus_driver_handle_reload_config sample_welcome_fails 3 (sample_call "ReloadConfig" []) =
      .returned (bus_context_reload_config sample_welcome_fails) :=
  ⟨⟨failure_iff_error_set.2.2.1 sample_state 3 sample_hello true sample_after_hello rfl
      (by decide),
    failure_iff_error_set.2.2.1 sample_welcome_fails 3 sample_hello false
      sample_after_failed_hello rfl (by decide)⟩,
   failure_iff_error_set.2.2.2.1 sample_state 3 sample_hello "Hello"
     { name := "Hello", in_args := "", out_args := "s", handler := bus_driver_handle_hello }
     rfl rfl (by decide),
   failure_iff_error_set.2.2.2.2.2.2.1 sample_state 3 sample_hello rfl
     sample_state_invariant (by decide) (Or.inr rfl),
   failure_iff_error_set.2.2.2.2.2.2.1 sample_rules_full 3 (sample_match_call "AddMatch") rfl
     ⟨by decide, by decide, by decide, by decide,
      fun text serv base h _ => by
        simp [sample_rules_full, sample_state, bus_registry_lookup] at h⟩
     (by decide) (Or.inl rfl),
   failure_iff_error_set.2.2.2.2.2.2.2 sample_welcome_fails 3 (sample_call "ReloadConfig" [])
     rfl⟩
end BusDriver
